import Mathlib

/-!
# box_detector: plane / box point-cloud synthesis and merge

A shallow embedding of `src/main.cpp` (class `Generate`) and a verification of
its geometric pipeline.

Conventions of the embedding.

* The source is embedded twice.  In the first embedding C++ `double`/`float`
  values are elements of an arbitrary linearly ordered field `K` (exact
  arithmetic): all definitions are computable and can be run on `ℚ`, and
  statements that involve `cos`/`sin` are instantiated at `ℝ`.  The second
  embedding (namespace `IEEE`) keeps the rounding of the machine: a value is
  the rational it denotes, every `double` operation rounds to binary64 and
  every store into a point rounds to binary32.  The two agree on the structure
  of the program; they differ where a loop `v += 0.1` is compared with its
  bound, where `dbeq` meets a value one step inside a face, and in the size of
  a stored displacement.  Results that depend on these are stated on the
  second embedding; the exact reading is kept beside them.
* The libm functions `cos` and `sin` are passed to `generate_box` as arguments.
* A point cloud is the list of its points in insertion order.  Headers (frame
  label, time stamp) are not modelled.
* The random engine `generator` is a stream of canonical variates; a
  `std::uniform_real_distribution (a, b)` maps the next variate `u` to
  `a + (b - a) * u`.
* The PCL operations used by `merging_both` (`PassThrough`, `KdTreeFLANN`,
  `ExtractIndices`, cloud concatenation) live outside the repository; they are
  modelled by brute-force list functions.
-/

namespace BoxDetector

/-! ## Data model -/

/-- A `pcl::PointXYZ`: three coordinates. -/
structure PointXYZ (K : Type) where
  x : K
  y : K
  z : K
deriving DecidableEq, Repr

/-- The `typedef pcl::PointCloud<pcl::PointXYZ> PointCloud`: the points, in insertion order. -/
abbrev PointCloud (K : Type) := List (PointXYZ K)

/-- The random engine `std::mt19937 generator`: the stream of canonical variates it
delivers and the number of variates already consumed. -/
structure Engine (K : Type) where
  variates : Nat → K
  pos : Nat

/-- The data members of `class Generate` that the computation reads and writes. -/
structure Generate (K : Type) where
  msg_plane : PointCloud K
  msg_box : PointCloud K
  merged : PointCloud K
  generator : Engine K

/-! ## Free functions and loops -/

/-- The `bool dbeq(double a, double b, double eps = 0.1)` of the source:
`std::abs(a - b) < eps`. -/
def dbeq {K : Type} [LinearOrderedField K] (a b eps : K) : Bool :=
  decide (|a - b| < eps)

/-- The loop `for (double v = lo; v <= hi; v += 0.1) body`, run on the state `s`.  It
terminates because `⌊(hi - v) * 10⌋` drops by one on every iteration. -/
def forStep {K σ : Type} [LinearOrderedField K] [FloorRing K] (lo hi : K)
    (body : K → σ → σ) (s : σ) : σ :=
  if lo ≤ hi then forStep (lo + 0.1) hi body (body lo s) else s
termination_by (⌊(hi - lo) * 10⌋ + 1).toNat
decreasing_by
  have e : (hi - (lo + 0.1)) * 10 = (hi - lo) * 10 - 1 := by norm_num; ring
  rw [e, Int.floor_sub_one]
  have h0 : 0 ≤ ⌊(hi - lo) * 10⌋ := Int.floor_nonneg.mpr (by nlinarith)
  omega

/-- One call `dist(generator)` of a `std::uniform_real_distribution<> dist(a, b)`: the
value drawn and the advanced engine. -/
def uniform_real_distribution {K : Type} [LinearOrderedField K] (a b : K)
    (g : Engine K) : K × Engine K :=
  (a + (b - a) * g.variates g.pos, { g with pos := g.pos + 1 })

/-- The member `xy_rnd(-2.0, 2.0)`. -/
def xy_rnd {K : Type} [LinearOrderedField K] (g : Engine K) : K × Engine K :=
  uniform_real_distribution (-2.0) 2.0 g

/-- The member `yaw_rnd(0.0, 3.1415/2)`. -/
def yaw_rnd {K : Type} [LinearOrderedField K] (g : Engine K) : K × Engine K :=
  uniform_real_distribution 0.0 (3.1415 / 2) g

/-- The member `noise_rnd(-0.0002, 0.0002)`. -/
def noise_rnd {K : Type} [LinearOrderedField K] (g : Engine K) : K × Engine K :=
  uniform_real_distribution (-0.0002) 0.0002 g

/-! ## PCL operations (library code outside the repository) -/

/-- Squared Euclidean distance of two points, the metric of the k-d tree. -/
def sqrDist {K : Type} [LinearOrderedField K] (p q : PointXYZ K) : K :=
  (p.x - q.x) ^ 2 + (p.y - q.y) ^ 2 + (p.z - q.z) ^ 2

/-- Modelled from the spec: `pcl::PassThrough` on the field `z` (PCL library code, not in
the repository), the height split of the merge.  With `negative = true` the result is the
ring, the points with `z < lo` (or `z > hi`); with `negative = false` it is the remainder,
the points with `lo ≤ z ≤ hi`.  The order of the input is preserved. -/
def passThrough {K : Type} [LinearOrderedField K] (input : PointCloud K) (lo hi : K)
    (negative : Bool) : PointCloud K :=
  input.filter fun p =>
    if negative then !(decide (lo ≤ p.z) && decide (p.z ≤ hi))
    else decide (lo ≤ p.z) && decide (p.z ≤ hi)

/-- Modelled from the spec: `pcl::KdTreeFLANN::radiusSearch` (PCL library code, not in the
repository), as a brute-force radius query: the indices of all points of `cloud` within
distance `radius` of `q`.  The C++ return value is the length of this list. -/
def radiusSearch {K : Type} [LinearOrderedField K] (cloud : PointCloud K) (q : PointXYZ K)
    (radius : K) : List Nat :=
  (cloud.enum.filter fun ip => decide (sqrDist ip.2 q ≤ radius ^ 2)).map Prod.fst

/-- Modelled from the spec: `pcl::ExtractIndices` with `setNegative(true)` (PCL library
code, not in the repository): the points of `input` whose index is not listed in
`indices`, in input order; an index listed several times is removed once. -/
def extractNegative {K : Type} (input : PointCloud K) (indices : List Nat) : PointCloud K :=
  (input.enum.filter fun ip => decide (ip.1 ∉ indices)).map Prod.snd

/-! ## Methods of `Generate` -/

/-- The method `Generate::generate_plane`: two nested `0.1`-step loops from `-5.0` to `5.0`
pushing `(i, j, 0.0)` onto `msg_plane`. -/
def generate_plane {K : Type} [LinearOrderedField K] [FloorRing K] (st : Generate K) :
    Generate K :=
  { st with
    msg_plane :=
      forStep (-5.0) 5.0 (fun i cloud =>
        forStep (-5.0) 5.0 (fun j cloud => cloud ++ [⟨i, j, 0.0⟩]) cloud) st.msg_plane }

/-- The point pushed by `generate_box` for the loop values `i`, `j`, `k`: the offset
`(i - x, j - y)` rotated by `yaw` and translated back by `(x, y)`, at height `k`. -/
def boxPoint {K : Type} [LinearOrderedField K] (cos sin : K → K) (x y yaw i j k : K) :
    PointXYZ K :=
  ⟨x + (i - x) * cos yaw - (j - y) * sin yaw, y + (i - x) * sin yaw + (j - y) * cos yaw, k⟩

/-- The body of the innermost loop of `generate_box`: the three nested `dbeq` tests, each
pushing the same rotated point. -/
def boxBody {K : Type} [LinearOrderedField K] (cos sin : K → K) (x y yaw i j k : K)
    (cloud : PointCloud K) : PointCloud K :=
  if dbeq k 0 0.1 || dbeq k 1 0.1 then
    cloud ++ [boxPoint cos sin x y yaw i j k]
  else if dbeq i (x + 0) 0.1 || dbeq i (x + 1) 0.1 then
    cloud ++ [boxPoint cos sin x y yaw i j k]
  else if dbeq j (y + 0) 0.1 || dbeq j (y + 1) 0.1 then
    cloud ++ [boxPoint cos sin x y yaw i j k]
  else
    cloud

/-- The method `Generate::generate_box (x, y, yaw)`: three nested `0.1`-step loops over
`k ∈ [0, 1]`, `i ∈ [x, x + 1]`, `j ∈ [y, y + 1]` appending to `msg_box`. -/
def generate_box {K : Type} [LinearOrderedField K] [FloorRing K] (cos sin : K → K)
    (x y yaw : K) (st : Generate K) : Generate K :=
  { st with
    msg_box :=
      forStep 0.0 1 (fun k cloud =>
        forStep (x + 0) (x + 1) (fun i cloud =>
          forStep (y + 0) (y + 1) (fun j cloud => boxBody cos sin x y yaw i j k cloud) cloud)
          cloud) st.msg_box }

/-- The cloud `layer1` of `merging_both`: the negative pass-through of the unfiltered box
(the footprint ring). -/
def layer1 {K : Type} [LinearOrderedField K] (box_unfilt : PointCloud K) : PointCloud K :=
  passThrough box_unfilt 0.1 1.0 true

/-- The index vector `inliers->indices` after the query loop of `merging_both`: for each
point of `layer1` in turn, the radius-`0.09` matches in the plane are appended when the
query reports at least one match. -/
def inliers {K : Type} [LinearOrderedField K] (plane ring : PointCloud K) : List Nat :=
  ring.foldl (fun acc q =>
    let pointIdxRadiusSearch := radiusSearch plane q 0.09
    if pointIdxRadiusSearch.length > 0 then acc ++ pointIdxRadiusSearch else acc) []

/-- The method `Generate::merging_both`: pass-through split of `msg_box`, radius queries of
the ring against a copy of `msg_plane`, negative extraction, and
`merged = msg_box + *plane`. -/
def merging_both {K : Type} [LinearOrderedField K] (st : Generate K) : Generate K :=
  let box_unfilt := st.msg_box
  let msg_box := passThrough box_unfilt 0.1 1.0 false
  let plane := st.msg_plane
  let plane := extractNegative plane (inliers plane (layer1 box_unfilt))
  { st with msg_box := msg_box, merged := msg_box ++ plane }

/-- One iteration of the loop of `make_noise`: three draws of `noise_rnd`, added to `x`,
`y`, `z` in this order, and the new point pushed onto `merged_noise`. -/
def noiseStep {K : Type} [LinearOrderedField K] (acc : PointCloud K × Engine K)
    (p : PointXYZ K) : PointCloud K × Engine K :=
  let dx := noise_rnd acc.2
  let dy := noise_rnd dx.2
  let dz := noise_rnd dy.2
  (acc.1 ++ [⟨p.x + dx.1, p.y + dy.1, p.z + dz.1⟩], dz.2)

/-- The method `Generate::make_noise`: the returned cloud `merged_noise` and the state
after the call (the engine has advanced). -/
def make_noise {K : Type} [LinearOrderedField K] (st : Generate K) :
    PointCloud K × Generate K :=
  let r := st.merged.foldl noiseStep ([], st.generator)
  (r.1, { st with generator := r.2 })

/-- The fast tick `Generate::publisher_Callback`: the cloud handed to `pub.publish` and the
state after the tick. -/
def publisher_Callback {K : Type} [LinearOrderedField K] (st : Generate K) :
    PointCloud K × Generate K :=
  make_noise st

/-- The slow tick `Generate::box_Callback`: draw `x`, `y`, `yaw`, then `generate_box`,
`merging_both` and `msg_box.clear()`. -/
def box_Callback {K : Type} [LinearOrderedField K] [FloorRing K] (cos sin : K → K)
    (st : Generate K) : Generate K :=
  let dx := xy_rnd st.generator
  let dy := xy_rnd dx.2
  let dyaw := yaw_rnd dy.2
  let st := generate_box cos sin dx.1 dy.1 dyaw.1 { st with generator := dyaw.2 }
  let st := merging_both st
  { st with msg_box := [] }

/-- The constructor `Generate::Generate`: empty clouds, the engine seeded by the random
device (any stream `seed`), and the call of `generate_plane`. -/
def Generate.new {K : Type} [LinearOrderedField K] [FloorRing K] (seed : Engine K) :
    Generate K :=
  generate_plane { msg_plane := [], msg_box := [], merged := [], generator := seed }

/-- A timer event: the slow tick (`box_Callback`) or the fast tick
(`publisher_Callback`). -/
inductive Tick where
  | slow
  | fast
deriving DecidableEq, Repr

/-- The state after one timer event. -/
def tick {K : Type} [LinearOrderedField K] [FloorRing K] (cos sin : K → K)
    (st : Generate K) : Tick → Generate K
  | Tick.slow => box_Callback cos sin st
  | Tick.fast => (publisher_Callback st).2

/-- The state after a sequence of timer events, each run to completion before the next
(`ros::spin` on a single thread). -/
def run {K : Type} [LinearOrderedField K] [FloorRing K] (cos sin : K → K)
    (st : Generate K) (ticks : List Tick) : Generate K :=
  ticks.foldl (tick cos sin) st

/-! ## Auxiliary definitions used to state the results -/

/-- The values `lo, lo + 0.1, ...` (`n` of them) taken by a loop variable. -/
def stepValues {K : Type} [LinearOrderedField K] (lo : K) (n : ℕ) : List K :=
  (List.range n).map fun (a : ℕ) => lo + (a : K) / 10

/-- The index triples `(a, b, c)` visited by `generate_box` (`i = x + 0.1 a`,
`j = y + 0.1 b`, `k = 0.1 c`), in loop order: `c` outermost, `b` innermost. -/
def gridIdx : List (ℕ × ℕ × ℕ) :=
  (List.range 11).flatMap fun c =>
    (List.range 11).flatMap fun a => (List.range 11).map fun b => (a, b, c)

/-- Membership of an index triple `(a, b, c)` in one of the six faces of the cube. -/
def onShell (t : ℕ × ℕ × ℕ) : Bool :=
  (t.2.2 == 0 || t.2.2 == 10) || ((t.1 == 0 || t.1 == 10) || (t.2.1 == 0 || t.2.1 == 10))

/-- The point pushed by `generate_box` at the index triple `t = (a, b, c)`. -/
def boxPointIdx {K : Type} [LinearOrderedField K] (cos sin : K → K) (x y yaw : K)
    (t : ℕ × ℕ × ℕ) : PointXYZ K :=
  boxPoint cos sin x y yaw (x + (t.1 : K) / 10) (y + (t.2.1 : K) / 10) ((t.2.2 : K) / 10)

/-- The index pairs of the plane grid, in loop order (`x` outermost). -/
def planeIdx : List (ℕ × ℕ) :=
  (List.range 101).flatMap fun a => (List.range 101).map fun b => (a, b)

/-- The plane point of grid indices `(a, b)`. -/
def planePoint {K : Type} [LinearOrderedField K] (t : ℕ × ℕ) : PointXYZ K :=
  ⟨-5 + (t.1 : K) / 10, -5 + (t.2 : K) / 10, 0⟩

/-- Whether the point `p` has a point of `ring` within distance `0.09`. -/
def nearRing {K : Type} [LinearOrderedField K] (ring : PointCloud K) (p : PointXYZ K) : Bool :=
  ring.any fun q => decide (sqrDist p q ≤ 0.09 ^ 2)

/-- The cloud built by the loop of `make_noise` from the engine `g`: the points of the
input, in order, each displaced by three consecutive draws of `noise_rnd`. -/
def noised {K : Type} [LinearOrderedField K] : Engine K → PointCloud K → PointCloud K
  | _, [] => []
  | g, p :: l =>
    ⟨p.x + (noise_rnd g).1, p.y + (noise_rnd ⟨g.variates, g.pos + 1⟩).1,
      p.z + (noise_rnd ⟨g.variates, g.pos + 2⟩).1⟩ :: noised ⟨g.variates, g.pos + 3⟩ l

/-- Rotation of the point `p` by `angle` about the vertical axis through `(cx, cy)`. -/
def rotateAbout {K : Type} [LinearOrderedField K] (cos sin : K → K) (cx cy angle : K)
    (p : PointXYZ K) : PointXYZ K :=
  ⟨cx + (p.x - cx) * cos angle - (p.y - cy) * sin angle,
    cy + (p.x - cx) * sin angle + (p.y - cy) * cos angle, p.z⟩

/-- The index triples of the bottom face, in loop order. -/
def ringIdx : List (ℕ × ℕ × ℕ) :=
  (List.range 11).flatMap fun a => (List.range 11).map fun b => (a, b, 0)

/-- Whether the point `p` lies in the closed square `[x, x + 1] x [y, y + 1]`. -/
def inFootprint {K : Type} [LinearOrderedField K] (x y : K) (p : PointXYZ K) : Bool :=
  decide (x ≤ p.x ∧ p.x ≤ x + 1 ∧ y ≤ p.y ∧ p.y ≤ y + 1)

/-- The pose `(x, y, yaw)` that `box_Callback` draws from the engine `g`. -/
def drawPose {K : Type} [LinearOrderedField K] (g : Engine K) : K × K × K :=
  ((xy_rnd g).1, (xy_rnd (xy_rnd g).2).1, (yaw_rnd (xy_rnd (xy_rnd g).2).2).1)

/-- The box by grid index, following the spec's words: the `11 x 11 x 11` index triples
`(a, b, c)` are visited with `c` outermost and `b` innermost, and the point of
`i = x + 0.1 a`, `j = y + 0.1 b`, `k = 0.1 c` is emitted once exactly when `c`, `a` or `b`
is `0` or `10`. -/
def generate_box_by_index {K : Type} [LinearOrderedField K] (cos sin : K → K)
    (x y yaw : K) : PointCloud K :=
  (List.range 11).flatMap fun (c : ℕ) =>
    (List.range 11).flatMap fun (a : ℕ) =>
      (List.range 11).flatMap fun (b : ℕ) =>
        if c = 0 ∨ c = 10 ∨ a = 0 ∨ a = 10 ∨ b = 0 ∨ b = 10 then
          [boxPoint cos sin x y yaw (x + (a : K) / 10) (y + (b : K) / 10) ((c : K) / 10)]
        else []

/-- Translation of the point `p` by `(dx, dy)` in the horizontal plane. -/
def translate {K : Type} [LinearOrderedField K] (dx dy : K) (p : PointXYZ K) : PointXYZ K :=
  ⟨p.x + dx, p.y + dy, p.z⟩

/-! ## IEEE 754 model of the same program

The definitions of this section embed the same source functions with the rounding of the
machine: a `double` or `float` is the rational number it denotes, every `double`
operation rounds its exact result to binary64 and every store into a `pcl::PointXYZ`
field rounds to binary32 (round to nearest, ties to even; overflow, infinities and NaN
are not modelled).  Loops carry fuel, because a `+= 0.1` loop need not terminate on
doubles. -/

namespace IEEE

/-- The power `2 ^ k` of an integer exponent, as a rational. -/
def pow2 (k : ℤ) : ℚ :=
  if 0 ≤ k then ((2 ^ k.toNat : ℕ) : ℚ) else 1 / ((2 ^ (-k).toNat : ℕ) : ℚ)

/-- Binary logarithm by repeated halving, at most `fuel` times. -/
def log2Aux : ℕ → ℕ → ℕ
  | 0, _ => 0
  | fuel + 1, n => if 2 ≤ n then log2Aux fuel (n / 2) + 1 else 0

/-- The binary logarithm `⌊log₂ n⌋` of a natural number (`0` for `n = 0`). -/
def natLog2 (n : ℕ) : ℕ := log2Aux n n

/-- The binary exponent `⌊log₂ |q|⌋` of a nonzero rational. -/
def ilog2 (q : ℚ) : ℤ :=
  if pow2 ((natLog2 q.num.natAbs : ℤ) - (natLog2 q.den : ℤ)) ≤ |q| then
    (natLog2 q.num.natAbs : ℤ) - (natLog2 q.den : ℤ)
  else (natLog2 q.num.natAbs : ℤ) - (natLog2 q.den : ℤ) - 1

/-- Rounding of a rational to the nearest integer, ties to the even one. -/
def roundHalfEven (t : ℚ) : ℤ :=
  if t - ⌊t⌋ < 1 / 2 then ⌊t⌋
  else if 1 / 2 < t - ⌊t⌋ then ⌊t⌋ + 1
  else if ⌊t⌋ % 2 = 0 then ⌊t⌋ else ⌊t⌋ + 1

/-- Round to nearest, ties to even, in a binary format of `prec` significant bits whose
least normal exponent is `emin` (below it the spacing stays that of `emin`). -/
def rne (prec : ℕ) (emin : ℤ) (q : ℚ) : ℚ :=
  if q = 0 then 0
  else (roundHalfEven (q / pow2 (max (ilog2 q) emin - ((prec : ℤ) - 1))) : ℚ)
          * pow2 (max (ilog2 q) emin - ((prec : ℤ) - 1))

/-- The binary64 (`double`) nearest to `q`. -/
def toDouble (q : ℚ) : ℚ := rne 53 (-1022) q

/-- The binary32 (`float`) nearest to `q`. -/
def toFloat (q : ℚ) : ℚ := rne 24 (-126) q

/-- The `double` sum `a + b`. -/
def fadd (a b : ℚ) : ℚ := toDouble (a + b)

/-- The `double` difference `a - b`. -/
def fsub (a b : ℚ) : ℚ := toDouble (a - b)

/-- The `double` product `a * b`. -/
def fmul (a b : ℚ) : ℚ := toDouble (a * b)

/-- The `double` quotient `a / b`. -/
def fdiv (a b : ℚ) : ℚ := toDouble (a / b)

/-- The `float` sum `a + b`. -/
def fadd32 (a b : ℚ) : ℚ := toFloat (a + b)

/-- The `float` difference `a - b`. -/
def fsub32 (a b : ℚ) : ℚ := toFloat (a - b)

/-- The `float` product `a * b`. -/
def fmul32 (a b : ℚ) : ℚ := toFloat (a * b)

/-- The `bool dbeq(double a, double b, double eps = 0.1)` of the source on doubles:
`std::abs(a - b) < eps`. -/
def dbeq (a b eps : ℚ) : Bool :=
  decide (|fsub a b| < eps)

/-- The loop `for (double v = lo; v <= hi; v += 0.1) body` on doubles, run on the state
`s`; `none` when the fuel runs out before the loop ends. -/
def forStep {σ : Type} : ℕ → ℚ → ℚ → (ℚ → σ → Option σ) → σ → Option σ
  | 0, _, _, _, _ => none
  | fuel + 1, lo, hi, body, s =>
    if lo ≤ hi then (body lo s).bind fun s => forStep fuel (fadd lo (toDouble 0.1)) hi body s
    else some s

/-- The method `Generate::generate_plane` on doubles, the coordinates stored as floats. -/
def generate_plane (fuel : ℕ) (st : Generate ℚ) : Option (Generate ℚ) :=
  (forStep fuel (toDouble (-5.0)) (toDouble 5.0) (fun i cloud =>
      forStep fuel (toDouble (-5.0)) (toDouble 5.0) (fun j cloud =>
        some (cloud ++ [⟨toFloat i, toFloat j, toFloat (toDouble 0.0)⟩])) cloud)
    st.msg_plane).map fun cloud => { st with msg_plane := cloud }

/-- The point pushed by `generate_box` for the loop values `i`, `j`, `k`: the two
coordinate expressions evaluated in `double`, left to right, and stored as floats. -/
def boxPoint (cos sin : ℚ → ℚ) (x y yaw i j k : ℚ) : PointXYZ ℚ :=
  ⟨toFloat (fsub (fadd x (fmul (fsub i x) (cos yaw))) (fmul (fsub j y) (sin yaw))),
    toFloat (fadd (fadd y (fmul (fsub i x) (sin yaw))) (fmul (fsub j y) (cos yaw))),
    toFloat k⟩

/-- The body of the innermost loop of `generate_box` on doubles. -/
def boxBody (cos sin : ℚ → ℚ) (x y yaw i j k : ℚ) (cloud : PointCloud ℚ) : PointCloud ℚ :=
  if dbeq k 0 (toDouble 0.1) || dbeq k 1 (toDouble 0.1) then
    cloud ++ [boxPoint cos sin x y yaw i j k]
  else if dbeq i (fadd x 0) (toDouble 0.1) || dbeq i (fadd x 1) (toDouble 0.1) then
    cloud ++ [boxPoint cos sin x y yaw i j k]
  else if dbeq j (fadd y 0) (toDouble 0.1) || dbeq j (fadd y 1) (toDouble 0.1) then
    cloud ++ [boxPoint cos sin x y yaw i j k]
  else
    cloud

/-- The method `Generate::generate_box (x, y, yaw)` on doubles. -/
def generate_box (fuel : ℕ) (cos sin : ℚ → ℚ) (x y yaw : ℚ) (st : Generate ℚ) :
    Option (Generate ℚ) :=
  (forStep fuel (toDouble 0.0) 1 (fun k cloud =>
      forStep fuel (fadd x 0) (fadd x 1) (fun i cloud =>
        forStep fuel (fadd y 0) (fadd y 1) (fun j cloud =>
          some (boxBody cos sin x y yaw i j k cloud)) cloud) cloud)
    st.msg_box).map fun cloud => { st with msg_box := cloud }

/-- The squared distance of the k-d tree, accumulated in `float` coordinate by
coordinate. -/
def sqrDist (p q : PointXYZ ℚ) : ℚ :=
  fadd32 (fadd32 (fadd32 0 (fmul32 (fsub32 p.x q.x) (fsub32 p.x q.x)))
    (fmul32 (fsub32 p.y q.y) (fsub32 p.y q.y))) (fmul32 (fsub32 p.z q.z) (fsub32 p.z q.z))

/-- Modelled from the spec: `pcl::KdTreeFLANN::radiusSearch` (PCL library code, not in the
repository) as a brute-force radius query in `float`: the indices of the points of
`cloud` whose squared distance to `q` is at most the `float` value of
`radius * radius`. -/
def radiusSearch (cloud : PointCloud ℚ) (q : PointXYZ ℚ) (radius : ℚ) : List Nat :=
  (cloud.enum.filter fun ip =>
    decide (sqrDist ip.2 q ≤ toFloat (fmul radius radius))).map Prod.fst

/-- The cloud `layer1` of `merging_both`, the filter limits stored as floats. -/
def layer1 (box_unfilt : PointCloud ℚ) : PointCloud ℚ :=
  passThrough box_unfilt (toFloat (toDouble 0.1)) (toFloat (toDouble 1.0)) true

/-- The index vector `inliers->indices` after the query loop of `merging_both`, with
`float radius = 0.09`. -/
def inliers (plane ring : PointCloud ℚ) : List Nat :=
  ring.foldl (fun acc q =>
    let pointIdxRadiusSearch := radiusSearch plane q (toFloat (toDouble 0.09))
    if pointIdxRadiusSearch.length > 0 then acc ++ pointIdxRadiusSearch else acc) []

/-- The method `Generate::merging_both` on floats. -/
def merging_both (st : Generate ℚ) : Generate ℚ :=
  let box_unfilt := st.msg_box
  let msg_box := passThrough box_unfilt (toFloat (toDouble 0.1)) (toFloat (toDouble 1.0)) false
  let plane := st.msg_plane
  let plane := extractNegative plane (inliers plane (layer1 box_unfilt))
  { st with msg_box := msg_box, merged := msg_box ++ plane }

/-- One call `dist(generator)` of a `std::uniform_real_distribution<> dist(a, b)` on
doubles: the canonical variate times `b - a`, plus `a`. -/
def uniform_real_distribution (a b : ℚ) (g : Engine ℚ) : ℚ × Engine ℚ :=
  (fadd (fmul (g.variates g.pos) (fsub b a)) a, { g with pos := g.pos + 1 })

/-- The member `noise_rnd(-0.0002, 0.0002)` on doubles. -/
def noise_rnd (g : Engine ℚ) : ℚ × Engine ℚ :=
  uniform_real_distribution (toDouble (-0.0002)) (toDouble 0.0002) g

/-- One iteration of the loop of `make_noise`: the `float` coordinate plus the `double`
draw, computed in `double` and stored as a `float`. -/
def noiseStep (acc : PointCloud ℚ × Engine ℚ) (p : PointXYZ ℚ) : PointCloud ℚ × Engine ℚ :=
  let dx := noise_rnd acc.2
  let dy := noise_rnd dx.2
  let dz := noise_rnd dy.2
  (acc.1 ++ [⟨toFloat (fadd p.x dx.1), toFloat (fadd p.y dy.1), toFloat (fadd p.z dz.1)⟩],
    dz.2)

/-- The method `Generate::make_noise` on floats. -/
def make_noise (st : Generate ℚ) : PointCloud ℚ × Generate ℚ :=
  let r := st.merged.foldl noiseStep ([], st.generator)
  (r.1, { st with generator := r.2 })

/-- The member `xy_rnd(-2.0, 2.0)` on doubles. -/
def xy_rnd (g : Engine ℚ) : ℚ × Engine ℚ :=
  uniform_real_distribution (toDouble (-2.0)) (toDouble 2.0) g

/-- The member `yaw_rnd(0.0, 3.1415/2)` on doubles. -/
def yaw_rnd (g : Engine ℚ) : ℚ × Engine ℚ :=
  uniform_real_distribution (toDouble 0.0) (fdiv (toDouble 3.1415) 2) g

/-- The slow tick `Generate::box_Callback` on doubles: draw `x`, `y`, `yaw`, then
`generate_box`, `merging_both` and `msg_box.clear()`. -/
def box_Callback (fuel : ℕ) (cos sin : ℚ → ℚ) (st : Generate ℚ) : Option (Generate ℚ) :=
  let dx := xy_rnd st.generator
  let dy := xy_rnd dx.2
  let dyaw := yaw_rnd dy.2
  (generate_box fuel cos sin dx.1 dy.1 dyaw.1 { st with generator := dyaw.2 }).map fun st =>
    let st := merging_both st
    { st with msg_box := [] }

/-- The constructor `Generate::Generate` on doubles: empty clouds, the engine seeded by
the random device (any stream `seed`), and the call of `generate_plane`. -/
def Generate.new (fuel : ℕ) (seed : Engine ℚ) : Option (Generate ℚ) :=
  generate_plane fuel { msg_plane := [], msg_box := [], merged := [], generator := seed }

/-- The pose `(x, y, yaw)` that `box_Callback` draws from the engine `g`. -/
def drawPose (g : Engine ℚ) : ℚ × ℚ × ℚ :=
  ((xy_rnd g).1, (xy_rnd (xy_rnd g).2).1, (yaw_rnd (xy_rnd (xy_rnd g).2).2).1)

/-- The values taken by the loop variable of `forStep`, in order; `none` when the fuel
runs out. -/
def stepValues : ℕ → ℚ → ℚ → Option (List ℚ)
  | 0, _, _ => none
  | fuel + 1, lo, hi =>
    if lo ≤ hi then (stepValues fuel (fadd lo (toDouble 0.1)) hi).map fun vs => lo :: vs
    else some []

/-- The loop values of `forStep` as a list (empty when the fuel runs out). -/
def stepList (fuel : ℕ) (lo hi : ℚ) : List ℚ :=
  (stepValues fuel lo hi).getD []

/-- The face test of `boxBody` for the loop values `t = (i, j, k)`. -/
def onSurface (x y : ℚ) (t : ℚ × ℚ × ℚ) : Bool :=
  (dbeq t.2.2 0 (toDouble 0.1) || dbeq t.2.2 1 (toDouble 0.1))
    || ((dbeq t.1 (fadd x 0) (toDouble 0.1) || dbeq t.1 (fadd x 1) (toDouble 0.1))
      || (dbeq t.2.1 (fadd y 0) (toDouble 0.1) || dbeq t.2.1 (fadd y 1) (toDouble 0.1)))

/-- The triples `(i, j, k)` of loop values visited by `generate_box`, in loop order. -/
def visited (ks is js : List ℚ) : List (ℚ × ℚ × ℚ) :=
  ks.flatMap fun k => is.flatMap fun i => js.map fun j => (i, j, k)

/-- Whether the point `p` has a point of `ring` within the radius of the float query. -/
def nearRing (ring : PointCloud ℚ) (p : PointXYZ ℚ) : Bool :=
  ring.any fun q =>
    decide (sqrDist p q ≤ toFloat (fmul (toFloat (toDouble 0.09)) (toFloat (toDouble 0.09))))

/-- The 11 values of a double loop `for (v = 0.0; v <= 1; v += 0.1)`: `0`, `0.1`, `0.2`,
`0.30000000000000004`, ..., `0.8999999999999999`, `0.9999999999999999`. -/
def zeroSteps : List ℚ :=
  [0, 3602879701896397 / 36028797018963968, 3602879701896397 / 18014398509481984,
    1351079888211149 / 4503599627370496, 3602879701896397 / 9007199254740992, 1 / 2,
    5404319552844595 / 9007199254740992, 3152519739159347 / 4503599627370496,
    7205759403792793 / 9007199254740992, 2026619832316723 / 2251799813685248,
    9007199254740991 / 9007199254740992]

/-- The 10 values of a double loop `for (v = 1 + 0; v <= 1 + 1; v += 0.1)`: `1`, `1.1`,
`1.2000000000000002`, ..., `1.8000000000000007`, `1.9000000000000008`; the next value
`2.000000000000001` exceeds the bound `2`. -/
def unitSteps : List ℚ :=
  [1, 2476979795053773 / 2251799813685248, 1351079888211149 / 1125899906842624,
    2927339757790823 / 2251799813685248, 788129934789837 / 562949953421312,
    3377699720527873 / 2251799813685248, 1801439850948199 / 1125899906842624,
    3828059683264923 / 2251799813685248, 506654958079181 / 281474976710656,
    4278419646001973 / 2251799813685248]

/-- The 11 values of a double loop `for (v = 100 + 0; v <= 100 + 1; v += 0.1)`: `100`,
`100.1`, `100.19999999999999`, ..., `100.99999999999994`. -/
def hundredSteps : List ℚ :=
  [100, 3521955646092083 / 35184372088832, 1762737041650483 / 17592186044416,
    3528992520509849 / 35184372088832, 883127739429683 / 8796093022208,
    3536029394927615 / 35184372088832, 1769773916068249 / 17592186044416,
    3543066269345381 / 35184372088832, 443323088319283 / 4398046511104,
    3550103143763147 / 35184372088832, 1776810790486015 / 17592186044416]

/-- The 101 values of a double loop `for (v = -5.0; v <= 5.0; v += 0.1)`: `-5`, `-4.9`,
`-4.800000000000001`, ..., `-1.0269562977782698e-15` (index 50), ..., `4.899999999999997`,
`4.999999999999997`. -/
def planeSteps : List ℚ :=
  [-5, -2758454771764429 / 562949953421312, -1351079888211149 / 281474976710656,
    -2645864781080167 / 562949953421312, -647392446434509 / 140737488355328,
    -2533274790395905 / 562949953421312, -1238489897526887 / 281474976710656,
    -2420684799711643 / 562949953421312, -295548725546189 / 70368744177664,
    -2308094809027381 / 562949953421312, -1125899906842625 / 281474976710656,
    -8782019273372475 / 2251799813685248, -4278419646001975 / 1125899906842624,
    -8331659310635425 / 2251799813685248, -2026619832316725 / 562949953421312,
    -7881299347898375 / 2251799813685248, -3828059683264925 / 1125899906842624,
    -7430939385161325 / 2251799813685248, -225179981368525 / 70368744177664,
    -6980579422424275 / 2251799813685248, -3377699720527875 / 1125899906842624,
    -6530219459687225 / 2251799813685248, -1576259869579675 / 562949953421312,
    -6079859496950175 / 2251799813685248, -2927339757790825 / 1125899906842624,
    -5629499534213125 / 2251799813685248, -675539944105575 / 281474976710656,
    -5179139571476075 / 2251799813685248, -2476979795053775 / 1125899906842624,
    -4728779608739025 / 2251799813685248, -1125899906842625 / 562949953421312,
    -4278419646001975 / 2251799813685248, -2026619832316725 / 1125899906842624,
    -3828059683264925 / 2251799813685248, -225179981368525 / 140737488355328,
    -3377699720527875 / 2251799813685248, -1576259869579675 / 1125899906842624,
    -2927339757790825 / 2251799813685248, -675539944105575 / 562949953421312,
    -2476979795053775 / 2251799813685248, -1125899906842625 / 1125899906842624,
    -8106479329266901 / 9007199254740992, -3602879701896401 / 4503599627370496,
    -6305039478318703 / 9007199254740992, -1351079888211151 / 2251799813685248,
    -4503599627370505 / 9007199254740992, -1801439850948203 / 4503599627370496,
    -2702159776422307 / 9007199254740992, -7205759403792831 / 36028797018963968,
    -1801439850948217 / 18014398509481984, -37 / 36028797018963968,
    450359962737045 / 4503599627370496, 7205759403792757 / 36028797018963968,
    5404319552844577 / 18014398509481984, 900719925474097 / 2251799813685248,
    4503599627370487 / 9007199254740992, 2702159776422293 / 4503599627370496,
    6305039478318685 / 9007199254740992, 450359962737049 / 562949953421312,
    8106479329266883 / 9007199254740992, 4503599627370491 / 4503599627370496,
    4953959590107541 / 4503599627370496, 5404319552844591 / 4503599627370496,
    5854679515581641 / 4503599627370496, 6305039478318691 / 4503599627370496,
    6755399441055741 / 4503599627370496, 7205759403792791 / 4503599627370496,
    7656119366529841 / 4503599627370496, 8106479329266891 / 4503599627370496,
    8556839292003941 / 4503599627370496, 9007199254740991 / 4503599627370496,
    1182194902184755 / 562949953421312, 4953959590107545 / 2251799813685248,
    2589569785738035 / 1125899906842624, 5404319552844595 / 2251799813685248, 5 / 2,
    5854679515581645 / 2251799813685248, 3039929748475085 / 1125899906842624,
    6305039478318695 / 2251799813685248, 1632554864921805 / 562949953421312,
    6755399441055745 / 2251799813685248, 3490289711212135 / 1125899906842624,
    7205759403792795 / 2251799813685248, 928867423145165 / 281474976710656,
    7656119366529845 / 2251799813685248, 3940649673949185 / 1125899906842624,
    8106479329266895 / 2251799813685248, 2082914827658855 / 562949953421312,
    8556839292003945 / 2251799813685248, 4391009636686235 / 1125899906842624,
    4503599627370497 / 1125899906842624, 4616189618054759 / 1125899906842624,
    4728779608739021 / 1125899906842624, 4841369599423283 / 1125899906842624,
    4953959590107545 / 1125899906842624, 5066549580791807 / 1125899906842624,
    5179139571476069 / 1125899906842624, 5291729562160331 / 1125899906842624,
    5404319552844593 / 1125899906842624, 5516909543528855 / 1125899906842624,
    5629499534213117 / 1125899906842624]

/-- The face test of `boxBody` in one coordinate: `dbeq(v, lo) || dbeq(v, hi)`. -/
def faceFlag (lo hi v : ℚ) : Bool :=
  dbeq v lo (toDouble 0.1) || dbeq v hi (toDouble 0.1)

/-- Whether the pass-through keeps the height `k` (stored as a float). -/
def keptFlag (k : ℚ) : Bool :=
  decide (toFloat (toDouble 0.1) ≤ toFloat k) && decide (toFloat k ≤ toFloat (toDouble 1.0))

/-- The number of triples `(a, b, c)` of flags, `a` from `fk`, `b` from `fi`, `c` from
`fj`, on which `F` holds. -/
def countFlags {α : Type} (F : α → Bool → Bool → Bool) (fk : List α) (fi fj : List Bool) : ℕ :=
  (fk.flatMap fun a => fi.flatMap fun b => fj.map fun c => F a b c).count true

/-- The `x` that `generate_box (1, 1, 0)` stores for the loop value `i` when `cos 0 = 1` and
`sin 0 = 0`: the term of `j` is the product `(j - y) * 0.0`. -/
def unitRingX (i : ℚ) : ℚ := toFloat (fsub (fadd 1 (fmul (fsub i 1) 1)) 0)

/-- The `y` that `generate_box (1, 1, 0)` stores for the loop value `j` when `cos 0 = 1` and
`sin 0 = 0`: the term of `i` is the product `(i - x) * 0.0`. -/
def unitRingY (j : ℚ) : ℚ := toFloat (fadd (fadd 1 0) (fmul (fsub j 1) 1))

/-- The floats nearest to `1`, `1.1`, ..., `1.9`: the coordinates stored for the 10 loop
values `unitSteps`. -/
def unitFloats : List ℚ :=
  [1, 9227469 / 8388608, 5033165 / 4194304, 5452595 / 4194304, 11744051 / 8388608, 3 / 2,
    13421773 / 8388608, 7130317 / 4194304, 7549747 / 4194304, 15938355 / 8388608]

/-- The floats stored for the 101 loop values `planeSteps` of `generate_plane`. -/
def planeFloats : List ℚ :=
  [-5, -10276045 / 2097152, -5033165 / 1048576, -4928307 / 1048576, -9646899 / 2097152, -9 / 2,
    -9227469 / 2097152, -4508877 / 1048576, -4404019 / 1048576, -8598323 / 2097152, -4,
    -8178893 / 2097152, -15938355 / 4194304, -15518925 / 4194304, -7549747 / 2097152, -7 / 2,
    -7130317 / 2097152, -13841203 / 4194304, -13421773 / 4194304, -6501171 / 2097152, -3,
    -6081741 / 2097152, -11744051 / 4194304, -11324621 / 4194304, -5452595 / 2097152, -5 / 2,
    -5033165 / 2097152, -9646899 / 4194304, -9227469 / 4194304, -4404019 / 2097152, -2,
    -15938355 / 8388608, -7549747 / 4194304, -7130317 / 4194304, -13421773 / 8388608, -3 / 2,
    -11744051 / 8388608, -5452595 / 4194304, -5033165 / 4194304, -9227469 / 8388608, -1,
    -7549747 / 8388608, -13421773 / 16777216, -11744051 / 16777216, -5033165 / 8388608, -1 / 2,
    -13421773 / 33554432, -5033165 / 16777216, -13421773 / 67108864, -13421773 / 134217728,
    -37 / 36028797018963968, 13421773 / 134217728, 13421773 / 67108864, 5033165 / 16777216,
    13421773 / 33554432, 1 / 2, 5033165 / 8388608, 11744051 / 16777216, 13421773 / 16777216,
    7549747 / 8388608, 1, 9227469 / 8388608, 5033165 / 4194304, 5452595 / 4194304,
    11744051 / 8388608, 3 / 2, 13421773 / 8388608, 7130317 / 4194304, 7549747 / 4194304,
    15938355 / 8388608, 2, 4404019 / 2097152, 9227469 / 4194304, 9646899 / 4194304,
    5033165 / 2097152, 5 / 2, 5452595 / 2097152, 11324621 / 4194304, 11744051 / 4194304,
    6081741 / 2097152, 3, 6501171 / 2097152, 13421773 / 4194304, 13841203 / 4194304,
    7130317 / 2097152, 7 / 2, 7549747 / 2097152, 15518925 / 4194304, 15938355 / 4194304,
    8178893 / 2097152, 4, 8598323 / 2097152, 4404019 / 1048576, 4508877 / 1048576,
    9227469 / 2097152, 9 / 2, 9646899 / 2097152, 4928307 / 1048576, 5033165 / 1048576,
    10276045 / 2097152, 5]

/-- The footprint ring of the box generated at the pose `(1, 1, 0)`: 10 x 10 points. -/
def unitRing : PointCloud ℚ :=
  unitFloats.flatMap fun u => unitFloats.map fun v => ⟨u, v, 0⟩

/-- The plane built by `generate_plane`, as stored: 101 x 101 points. -/
def planeCloud : PointCloud ℚ :=
  planeFloats.flatMap fun a => planeFloats.map fun b => ⟨a, b, 0⟩

/-- Whether a coordinate is at least `0.0999` away from every coordinate of `unitFloats`,
which lie in `[1, 1.9001]`. -/
def farFlag (v : ℚ) : Bool := decide (v ≤ 9001 / 10000 ∨ 2 ≤ v)

/-- The number of pairs `(a, b)` of flags, `a` from `fa` and `b` from `fb`, that are not
both set. -/
def countPairs (fa fb : List Bool) : ℕ :=
  (fa.flatMap fun a => fb.map fun b => !(a && b)).count true

/-- The cloud built by the loop of `make_noise` from the engine `g`. -/
def noised : Engine ℚ → PointCloud ℚ → PointCloud ℚ
  | _, [] => []
  | g, p :: l =>
    ⟨toFloat (fadd p.x (noise_rnd g).1),
      toFloat (fadd p.y (noise_rnd ⟨g.variates, g.pos + 1⟩).1),
      toFloat (fadd p.z (noise_rnd ⟨g.variates, g.pos + 2⟩).1)⟩
      :: noised ⟨g.variates, g.pos + 3⟩ l

end IEEE

/-! ## Loop lemmas -/

theorem stepValues_succ {K : Type} [LinearOrderedField K] (lo : K) (n : ℕ) :
    stepValues lo (n + 1) = lo :: stepValues (lo + 0.1) n := by
  unfold stepValues
  rw [List.range_succ_eq_map, List.map_cons, List.map_map]
  congr 1
  · simp
  · apply List.map_congr_left
    intro a _
    simp only [Function.comp, Nat.succ_eq_add_one, Nat.cast_add, Nat.cast_one]
    norm_num
    ring

/-- A loop whose bound lies between the `n`-th and the `(n+1)`-th step runs exactly over
the first `n` step values. -/
theorem forStep_eq_foldl {K : Type} [LinearOrderedField K] [FloorRing K] {σ : Type}
    (body : K → σ → σ) (hi : K) :
    ∀ (n : ℕ) (lo : K) (s : σ), lo + ((n : K) - 1) / 10 ≤ hi → hi < lo + (n : K) / 10 →
      forStep lo hi body s = (stepValues lo n).foldl (fun s v => body v s) s := by
  intro n
  induction n with
  | zero =>
    intro lo s _ h2
    rw [forStep, if_neg]
    · simp [stepValues]
    · simp at h2; exact not_le.mpr h2
  | succ n ih =>
    intro lo s h1 h2
    have hle : lo ≤ hi := by
      have : (0 : K) ≤ (n : K) := Nat.cast_nonneg n
      push_cast at h1
      linarith
    rw [forStep, if_pos hle, stepValues_succ, List.foldl_cons]
    apply ih
    · push_cast at h1; norm_num; linarith
    · push_cast at h2; norm_num; linarith

theorem forStep_unit {K : Type} [LinearOrderedField K] [FloorRing K] {σ : Type}
    (body : K → σ → σ) (lo : K) (s : σ) :
    forStep (lo + 0) (lo + 1) body s = (stepValues lo 11).foldl (fun s v => body v s) s := by
  rw [add_zero]
  apply forStep_eq_foldl <;> norm_num

theorem forStep_height {K : Type} [LinearOrderedField K] [FloorRing K] {σ : Type}
    (body : K → σ → σ) (s : σ) :
    forStep 0.0 1 body s = (stepValues 0 11).foldl (fun s v => body v s) s := by
  have h := forStep_eq_foldl body (1 : K) 11 0.0 s (by norm_num) (by norm_num)
  rw [h]
  norm_num

theorem forStep_plane {K : Type} [LinearOrderedField K] [FloorRing K] {σ : Type}
    (body : K → σ → σ) (s : σ) :
    forStep (-5.0) 5.0 body s = (stepValues (-5) 101).foldl (fun s v => body v s) s := by
  have h := forStep_eq_foldl body (5.0 : K) 101 (-5.0) s (by norm_num) (by norm_num)
  rw [h]
  norm_num

theorem foldl_append_flatMap {α β : Type} (f : α → List β) (l : List α) (acc : List β) :
    l.foldl (fun c a => c ++ f a) acc = acc ++ l.flatMap f := by
  induction l generalizing acc with
  | nil => simp
  | cons a l ih => simp [ih, List.flatMap_cons]

/-! ## The generated clouds in closed form -/

theorem flatMap_ite_singleton {α β : Type} (p : α → Bool) (f : α → β) (l : List α) :
    l.flatMap (fun a => if p a then [f a] else []) = (l.filter p).map f := by
  induction l with
  | nil => simp
  | cons a l ih =>
    rw [List.flatMap_cons, ih]
    by_cases h : p a <;> simp [h]

theorem flatMap_singleton_eq_map {α β : Type} (f : α → β) (l : List α) :
    l.flatMap (fun a => [f a]) = l.map f := by
  induction l with
  | nil => rfl
  | cons a l ih => rw [List.flatMap_cons, ih]; rfl

theorem dbeq_lo {K : Type} [LinearOrderedField K] (x : K) (a : ℕ) :
    dbeq (x + (a : K) / 10) x 0.1 = (a == 0) := by
  unfold dbeq
  have e : x + (a : K) / 10 - x = (a : K) / 10 := by ring
  rw [e, abs_of_nonneg (by positivity)]
  rcases Nat.eq_zero_or_pos a with h | h
  · subst h; norm_num
  · have h1 : (1 : K) ≤ (a : K) := by exact_mod_cast h
    have h2 : ¬ ((a : K) / 10 < 0.1) := by norm_num; linarith
    have h3 : a ≠ 0 := by omega
    simp [h2, h3]

theorem dbeq_hi {K : Type} [LinearOrderedField K] (x : K) (a : ℕ) :
    dbeq (x + (a : K) / 10) (x + 1) 0.1 = (a == 10) := by
  unfold dbeq
  have e : x + (a : K) / 10 - (x + 1) = ((a : K) - 10) / 10 := by ring
  rw [e]
  rcases lt_trichotomy a 10 with h | h | h
  · have h1 : (a : K) + 1 ≤ 10 := by exact_mod_cast h
    have h2 : ¬ (|((a : K) - 10) / 10| < 0.1) := by
      rw [abs_of_nonpos (by linarith)]; norm_num; linarith
    have h3 : a ≠ 10 := by omega
    simp [h2, h3]
  · subst h; norm_num
  · have h1 : (10 : K) + 1 ≤ (a : K) := by exact_mod_cast h
    have h2 : ¬ (|((a : K) - 10) / 10| < 0.1) := by
      rw [abs_of_nonneg (by linarith)]; norm_num; linarith
    have h3 : a ≠ 10 := by omega
    simp [h2, h3]

theorem boxBody_eq {K : Type} [LinearOrderedField K] (cos sin : K → K) (x y yaw : K)
    (a b c : ℕ) (cloud : PointCloud K) :
    boxBody cos sin x y yaw (x + (a : K) / 10) (y + (b : K) / 10) (0 + (c : K) / 10) cloud
      = cloud ++ (if onShell (a, b, c) then [boxPointIdx cos sin x y yaw (a, b, c)] else []) := by
  have hk0 := dbeq_lo (0 : K) c
  have hk1 := dbeq_hi (0 : K) c
  have hi0 := dbeq_lo x a
  have hi1 := dbeq_hi x a
  have hj0 := dbeq_lo y b
  have hj1 := dbeq_hi y b
  unfold boxBody
  simp only [zero_add, add_zero] at hk0 hk1 ⊢
  rw [hk0, hk1, hi0, hi1, hj0, hj1]
  unfold onShell boxPointIdx
  by_cases h1 : ((c == 0) || (c == 10)) = true
  · simp [h1]
  · by_cases h2 : ((a == 0) || (a == 10)) = true
    · simp [h1, h2]
    · by_cases h3 : ((b == 0) || (b == 10)) = true
      · simp [h1, h2, h3]
      · simp [h1, h2, h3]

theorem generate_plane_msg_plane {K : Type} [LinearOrderedField K] [FloorRing K]
    (st : Generate K) :
    (generate_plane st).msg_plane = st.msg_plane ++ planeIdx.map planePoint := by
  unfold generate_plane
  simp only
  rw [forStep_plane]
  have e0 : (0.0 : K) = 0 := by norm_num
  have inner : ∀ (i : K) (cloud : PointCloud K),
      forStep (-5.0) 5.0 (fun j cloud => cloud ++ [(⟨i, j, 0.0⟩ : PointXYZ K)]) cloud
        = cloud ++ (stepValues (-5) 101).flatMap (fun j => [(⟨i, j, 0⟩ : PointXYZ K)]) := by
    intro i cloud
    rw [forStep_plane, e0]
    exact foldl_append_flatMap (fun j => [(⟨i, j, 0⟩ : PointXYZ K)]) _ cloud
  simp only [inner]
  rw [foldl_append_flatMap]
  simp only [stepValues, planeIdx, planePoint, List.flatMap_map, List.map_flatMap,
    List.map_map, flatMap_singleton_eq_map, Function.comp_def]

theorem generate_box_msg_box {K : Type} [LinearOrderedField K] [FloorRing K]
    (cos sin : K → K) (x y yaw : K) (st : Generate K) :
    (generate_box cos sin x y yaw st).msg_box
      = st.msg_box ++ (gridIdx.filter onShell).map (boxPointIdx cos sin x y yaw) := by
  unfold generate_box
  simp only
  rw [← flatMap_ite_singleton]
  simp only [forStep_unit, forStep_height, stepValues, gridIdx, List.foldl_map, boxBody_eq,
    foldl_append_flatMap, List.flatMap_assoc, List.flatMap_map]

/-! ## The merge in closed form -/

theorem mem_radiusSearch {K : Type} [LinearOrderedField K] (cloud : PointCloud K)
    (q : PointXYZ K) (radius : K) (i : ℕ) :
    i ∈ radiusSearch cloud q radius ↔ ∃ p, cloud[i]? = some p ∧ sqrDist p q ≤ radius ^ 2 := by
  unfold radiusSearch
  simp only [List.mem_map, List.mem_filter, decide_eq_true_eq, Prod.exists,
    List.mk_mem_enum_iff_getElem?]
  constructor
  · rintro ⟨a, p, ⟨h1, h2⟩, rfl⟩
    exact ⟨p, h1, h2⟩
  · rintro ⟨p, h1, h2⟩
    exact ⟨i, p, ⟨h1, h2⟩, rfl⟩

theorem inliers_eq_flatMap {K : Type} [LinearOrderedField K] (plane ring : PointCloud K) :
    inliers plane ring = ring.flatMap fun q => radiusSearch plane q 0.09 := by
  unfold inliers
  have step : ∀ (acc : List ℕ) (q : PointXYZ K),
      (let pointIdxRadiusSearch := radiusSearch plane q 0.09
       if pointIdxRadiusSearch.length > 0 then acc ++ pointIdxRadiusSearch else acc)
        = acc ++ radiusSearch plane q 0.09 := by
    intro acc q
    by_cases h : (radiusSearch plane q 0.09).length > 0
    · simp only [h, if_true]
    · have h0 : radiusSearch plane q 0.09 = [] := by
        apply List.eq_nil_of_length_eq_zero
        omega
      simp [h0]
  simp only [step]
  rw [foldl_append_flatMap]
  simp

theorem mem_inliers {K : Type} [LinearOrderedField K] (plane ring : PointCloud K) (i : ℕ) :
    i ∈ inliers plane ring ↔
      ∃ p, plane[i]? = some p ∧ ∃ q ∈ ring, sqrDist p q ≤ 0.09 ^ 2 := by
  rw [inliers_eq_flatMap, List.mem_flatMap]
  simp only [mem_radiusSearch]
  constructor
  · rintro ⟨q, hq, p, h1, h2⟩
    exact ⟨p, h1, q, hq, h2⟩
  · rintro ⟨p, h1, q, hq, h2⟩
    exact ⟨q, hq, p, h1, h2⟩

theorem nearRing_iff {K : Type} [LinearOrderedField K] (ring : PointCloud K) (p : PointXYZ K) :
    nearRing ring p = true ↔ ∃ q ∈ ring, sqrDist p q ≤ 0.09 ^ 2 := by
  simp [nearRing]

theorem extractNegative_inliers {K : Type} [LinearOrderedField K] (plane ring : PointCloud K) :
    extractNegative plane (inliers plane ring) = plane.filter fun p => !nearRing ring p := by
  unfold extractNegative
  have h : ∀ ip ∈ plane.enum,
      decide (ip.1 ∉ inliers plane ring) = ((fun p => !nearRing ring p) ∘ Prod.snd) ip := by
    intro ip hip
    have hget : plane[ip.1]? = some ip.2 := List.mem_enum_iff_getElem?.mp hip
    have hiff : ip.1 ∈ inliers plane ring ↔ nearRing ring ip.2 = true := by
      rw [mem_inliers, nearRing_iff, hget]
      constructor
      · rintro ⟨p, hp, h⟩
        cases hp
        exact h
      · intro h
        exact ⟨ip.2, rfl, h⟩
    by_cases hn : nearRing ring ip.2 = true
    · simp [hiff, hn]
    · simp [hiff, hn]
  rw [List.filter_congr h, ← List.filter_map, List.enum_map_snd]

theorem merging_both_merged {K : Type} [LinearOrderedField K] (st : Generate K) :
    (merging_both st).merged
      = passThrough st.msg_box 0.1 1.0 false
          ++ st.msg_plane.filter fun p => !nearRing (layer1 st.msg_box) p := by
  unfold merging_both
  simp only
  rw [extractNegative_inliers]



/-! ## Membership in the index grids -/

theorem mem_gridIdx (t : ℕ × ℕ × ℕ) :
    t ∈ gridIdx ↔ t.1 < 11 ∧ t.2.1 < 11 ∧ t.2.2 < 11 := by
  obtain ⟨a, b, c⟩ := t
  simp only [gridIdx, List.mem_flatMap, List.mem_map, List.mem_range, Prod.mk.injEq]
  constructor
  · rintro ⟨c', hc, a', ha, b', hb, rfl, rfl, rfl⟩
    exact ⟨ha, hb, hc⟩
  · rintro ⟨ha, hb, hc⟩
    exact ⟨c, hc, a, ha, b, hb, rfl, rfl, rfl⟩

theorem mem_planeIdx (t : ℕ × ℕ) : t ∈ planeIdx ↔ t.1 < 101 ∧ t.2 < 101 := by
  obtain ⟨a, b⟩ := t
  simp only [planeIdx, List.mem_flatMap, List.mem_map, List.mem_range, Prod.mk.injEq]
  constructor
  · rintro ⟨a', ha, b', hb, rfl, rfl⟩
    exact ⟨ha, hb⟩
  · rintro ⟨ha, hb⟩
    exact ⟨a, ha, b, hb, rfl, rfl⟩

theorem length_flatMap_map {α β γ : Type} (f : α → β → γ) (l : List α) (m : List β) :
    (l.flatMap fun a => m.map (f a)).length = l.length * m.length := by
  induction l with
  | nil => simp
  | cons a l ih => simp [List.flatMap_cons, ih, Nat.add_mul, Nat.add_comm]

theorem length_planeIdx : planeIdx.length = 10201 := by
  unfold planeIdx
  rw [length_flatMap_map, List.length_range]

set_option maxRecDepth 100000 in
theorem length_shell : (gridIdx.filter onShell).length = 602 := by
  decide



/-! ## The plane -/

/-- C6: started from an empty `msg_plane`, `generate_plane` produces the 101 x 101 = 10201
points `(-5 + 0.1 a, -5 + 0.1 b, 0)`, `a, b = 0..100`, in `x`-major order; every point has
`z = 0` and `x`, `y` in `[-5, 5]`, and both bounds `-5` and `5` are attained. -/
theorem generate_plane_grid {K : Type} [LinearOrderedField K] [FloorRing K]
    (box merged : PointCloud K) (g : Engine K) :
    (generate_plane ⟨[], box, merged, g⟩).msg_plane
        = (List.range 101).flatMap (fun (a : ℕ) => (List.range 101).map fun (b : ℕ) =>
            (⟨-5 + (a : K) / 10, -5 + (b : K) / 10, 0⟩ : PointXYZ K))
      ∧ (generate_plane ⟨[], box, merged, g⟩).msg_plane.length = 101 * 101
      ∧ (∀ p ∈ (generate_plane ⟨[], box, merged, g⟩).msg_plane,
          p.z = 0 ∧ -5 ≤ p.x ∧ p.x ≤ 5 ∧ -5 ≤ p.y ∧ p.y ≤ 5)
      ∧ (⟨-5, -5, 0⟩ : PointXYZ K) ∈ (generate_plane ⟨[], box, merged, g⟩).msg_plane
      ∧ (⟨5, 5, 0⟩ : PointXYZ K) ∈ (generate_plane ⟨[], box, merged, g⟩).msg_plane := by
  have h : (generate_plane ⟨[], box, merged, g⟩).msg_plane = planeIdx.map planePoint := by
    rw [generate_plane_msg_plane]; rfl
  refine ⟨?_, ?_, ?_, ?_, ?_⟩
  · rw [h]
    simp only [planeIdx, planePoint, List.map_flatMap, List.map_map, Function.comp_def]
  · rw [h, List.length_map, length_planeIdx]
  · intro p hp
    rw [h, List.mem_map] at hp
    obtain ⟨t, ht, rfl⟩ := hp
    rw [mem_planeIdx] at ht
    have h1 : (t.1 : K) ≤ 100 := by exact_mod_cast Nat.lt_succ_iff.mp ht.1
    have h2 : (t.2 : K) ≤ 100 := by exact_mod_cast Nat.lt_succ_iff.mp ht.2
    have h3 : (0 : K) ≤ (t.1 : K) := Nat.cast_nonneg _
    have h4 : (0 : K) ≤ (t.2 : K) := Nat.cast_nonneg _
    simp only [planePoint]
    refine ⟨trivial, ?_, ?_, ?_, ?_⟩ <;> linarith
  · rw [h, List.mem_map]
    exact ⟨(0, 0), (mem_planeIdx _).mpr ⟨by decide, by decide⟩, by simp [planePoint]⟩
  · rw [h, List.mem_map]
    refine ⟨(100, 100), (mem_planeIdx _).mpr ⟨by decide, by decide⟩, ?_⟩
    simp only [planePoint]
    norm_num

/-! ## The merge -/

theorem foldl_noiseStep {K : Type} [LinearOrderedField K] (l : PointCloud K) :
    ∀ acc : PointCloud K × Engine K,
      l.foldl noiseStep acc
        = (acc.1 ++ noised acc.2 l, ⟨acc.2.variates, acc.2.pos + 3 * l.length⟩) := by
  induction l with
  | nil => intro acc; simp [noised]
  | cons p l ih =>
    intro acc
    rw [List.foldl_cons, ih]
    simp only [noiseStep, noised, noise_rnd, uniform_real_distribution, List.append_assoc,
      List.singleton_append, List.length_cons]
    congr 2
    omega

theorem make_noise_fst {K : Type} [LinearOrderedField K] (st : Generate K) :
    (make_noise st).1 = noised st.generator st.merged := by
  unfold make_noise
  simp only [foldl_noiseStep, List.nil_append]

theorem length_noised {K : Type} [LinearOrderedField K] (l : PointCloud K) :
    ∀ g : Engine K, (noised g l).length = l.length := by
  induction l with
  | nil => intro g; rfl
  | cons p l ih => intro g; simp [noised, ih]

theorem noised_getElem_opt {K : Type} [LinearOrderedField K] (l : PointCloud K) :
    ∀ (g : Engine K) (i : ℕ) (p : PointXYZ K), l[i]? = some p →
      (noised g l)[i]? = some
        ⟨p.x + (noise_rnd ⟨g.variates, g.pos + 3 * i⟩).1,
          p.y + (noise_rnd ⟨g.variates, g.pos + 3 * i + 1⟩).1,
          p.z + (noise_rnd ⟨g.variates, g.pos + 3 * i + 2⟩).1⟩ := by
  induction l with
  | nil => intro g i p h; simp at h
  | cons a l ih =>
    intro g i p h
    cases i with
    | zero =>
      simp only [List.getElem?_cons_zero, Option.some.injEq] at h
      subst h
      simp [noised]
    | succ i =>
      simp only [List.getElem?_cons_succ] at h
      have := ih ⟨g.variates, g.pos + 3⟩ i p h
      simp only [noised, List.getElem?_cons_succ, this]
      have e1 : g.pos + 3 + 3 * i = g.pos + 3 * (i + 1) := by ring
      simp only [e1]

theorem noise_rnd_abs_le {K : Type} [LinearOrderedField K] (g : Engine K)
    (h0 : 0 ≤ g.variates g.pos) (h1 : g.variates g.pos ≤ 1) :
    |(noise_rnd g).1| ≤ 0.0002 := by
  simp only [noise_rnd, uniform_real_distribution]
  rw [abs_le]
  constructor <;> norm_num <;> linarith

/-- The noise bound in exact arithmetic, without the rounding of the stored sum (the
machine result is in the section on noise of the IEEE model): for every merged cloud and
every engine whose canonical variates lie in `[0, 1]`
(so that every draw of `noise_rnd` lies in `[-0.0002, 0.0002]`), `make_noise` returns a
cloud of the same length in which the `i`-th point is the `i`-th input point displaced
by the draws number `3i`, `3i + 1`, `3i + 2` in `x`, `y`, `z`, each displacement being at
most `0.0002` in absolute value. -/
theorem make_noise_bounded {K : Type} [LinearOrderedField K] (st : Generate K)
    (hg : ∀ n, 0 ≤ st.generator.variates n ∧ st.generator.variates n ≤ 1) :
    (make_noise st).1.length = st.merged.length
      ∧ ∀ (i : ℕ) (p : PointXYZ K), st.merged[i]? = some p →
          ∃ q, (make_noise st).1[i]? = some q
            ∧ q.x = p.x + (noise_rnd ⟨st.generator.variates, st.generator.pos + 3 * i⟩).1
            ∧ q.y = p.y + (noise_rnd ⟨st.generator.variates, st.generator.pos + 3 * i + 1⟩).1
            ∧ q.z = p.z + (noise_rnd ⟨st.generator.variates, st.generator.pos + 3 * i + 2⟩).1
            ∧ |q.x - p.x| ≤ 0.0002 ∧ |q.y - p.y| ≤ 0.0002 ∧ |q.z - p.z| ≤ 0.0002 := by
  rw [make_noise_fst]
  refine ⟨length_noised _ _, ?_⟩
  intro i p hp
  refine ⟨_, noised_getElem_opt _ _ i p hp, rfl, rfl, rfl, ?_, ?_, ?_⟩
  · simp only [add_sub_cancel_left]
    exact noise_rnd_abs_le _ (hg _).1 (hg _).2
  · simp only [add_sub_cancel_left]
    exact noise_rnd_abs_le _ (hg _).1 (hg _).2
  · simp only [add_sub_cancel_left]
    exact noise_rnd_abs_le _ (hg _).1 (hg _).2

/-- An instance of `make_noise_bounded`: a two-point cloud and the constant variate stream
`1/2`, over `ℚ`. -/
theorem make_noise_bounded_witness :
    (∀ n : ℕ, (0 : ℚ) ≤ (fun _ => 1 / 2 : ℕ → ℚ) n ∧ (fun _ => 1 / 2 : ℕ → ℚ) n ≤ 1)
      ∧ (make_noise (⟨[], [], [⟨0, 0, 0⟩, ⟨1, 2, 3⟩], ⟨fun _ => 1 / 2, 0⟩⟩ : Generate ℚ)).1.length
          = 2 :=
  ⟨fun _ => by norm_num,
    (make_noise_bounded (⟨[], [], [⟨0, 0, 0⟩, ⟨1, 2, 3⟩], ⟨fun _ => 1 / 2, 0⟩⟩ : Generate ℚ)
      (fun _ => by norm_num)).1⟩

/-! ## Ticks -/

theorem merging_both_msg_plane {K : Type} [LinearOrderedField K] (st : Generate K) :
    (merging_both st).msg_plane = st.msg_plane := rfl

theorem box_Callback_msg_plane {K : Type} [LinearOrderedField K] [FloorRing K]
    (cos sin : K → K) (st : Generate K) :
    (box_Callback cos sin st).msg_plane = st.msg_plane := rfl

theorem publisher_Callback_msg_plane {K : Type} [LinearOrderedField K] (st : Generate K) :
    (publisher_Callback st).2.msg_plane = st.msg_plane := rfl

theorem run_msg_plane {K : Type} [LinearOrderedField K] [FloorRing K] (cos sin : K → K)
    (ticks : List Tick) :
    ∀ st : Generate K, (run cos sin st ticks).msg_plane = st.msg_plane := by
  induction ticks with
  | nil => intro st; rfl
  | cons t ticks ih =>
    intro st
    have h : run cos sin st (t :: ticks) = run cos sin (tick cos sin st t) ticks := rfl
    rw [h, ih]
    cases t
    · exact box_Callback_msg_plane cos sin st
    · exact publisher_Callback_msg_plane st

theorem new_msg_plane {K : Type} [LinearOrderedField K] [FloorRing K] (seed : Engine K) :
    (Generate.new seed).msg_plane = planeIdx.map planePoint := by
  unfold Generate.new
  rw [generate_plane_msg_plane]
  rfl

/-- C10: the plane is never mutated after construction.  Neither tick changes
`msg_plane` (the subtraction of `merging_both` works on a copy), so in every state
reached from the constructor by any sequence of slow and fast ticks, whatever the
variates drawn, `msg_plane` is still, point for point, the grid built by
`generate_plane` in the constructor. -/
theorem msg_plane_never_mutated {K : Type} [LinearOrderedField K] [FloorRing K]
    (cos sin : K → K) :
    (∀ st : Generate K, (merging_both st).msg_plane = st.msg_plane)
      ∧ (∀ st : Generate K, (box_Callback cos sin st).msg_plane = st.msg_plane)
      ∧ (∀ st : Generate K, (publisher_Callback st).2.msg_plane = st.msg_plane)
      ∧ ∀ (seed : Engine K) (ticks : List Tick) (t : Tick),
          (tick cos sin (run cos sin (Generate.new seed) ticks) t).msg_plane
              = (generate_plane ⟨[], [], [], seed⟩).msg_plane
            ∧ (run cos sin (Generate.new seed) ticks).msg_plane
              = (generate_plane ⟨[], [], [], seed⟩).msg_plane := by
  refine ⟨merging_both_msg_plane, box_Callback_msg_plane cos sin,
    publisher_Callback_msg_plane, ?_⟩
  intro seed ticks t
  have h := run_msg_plane cos sin ticks (Generate.new seed)
  refine ⟨?_, h⟩
  cases t
  · exact (box_Callback_msg_plane cos sin _).trans h
  · exact (publisher_Callback_msg_plane _).trans h



/-! ## The box -/

theorem boxPointIdx_yaw_zero (x y : ℝ) (t : ℕ × ℕ × ℕ) :
    boxPointIdx Real.cos Real.sin x y 0 t
      = ⟨x + (t.1 : ℝ) / 10, y + (t.2.1 : ℝ) / 10, (t.2.2 : ℝ) / 10⟩ := by
  simp [boxPointIdx, boxPoint]

theorem rotateAbout_boxPointIdx (x y yaw : ℝ) (t : ℕ × ℕ × ℕ) :
    rotateAbout Real.cos Real.sin x y (-yaw) (boxPointIdx Real.cos Real.sin x y yaw t)
      = boxPointIdx Real.cos Real.sin x y 0 t := by
  rw [boxPointIdx_yaw_zero]
  simp only [rotateAbout, boxPointIdx, boxPoint, Real.cos_neg, Real.sin_neg, PointXYZ.mk.injEq,
    and_true]
  have h := Real.cos_sq_add_sin_sq yaw
  constructor
  · linear_combination ((t.1 : ℝ) / 10) * h
  · linear_combination ((t.2.1 : ℝ) / 10) * h

theorem sqrDist_boxPointIdx (x y yaw : ℝ) (s t : ℕ × ℕ × ℕ) :
    sqrDist (boxPointIdx Real.cos Real.sin x y yaw s) (boxPointIdx Real.cos Real.sin x y yaw t)
      = ((s.1 : ℝ) / 10 - (t.1 : ℝ) / 10) ^ 2 + ((s.2.1 : ℝ) / 10 - (t.2.1 : ℝ) / 10) ^ 2
          + ((s.2.2 : ℝ) / 10 - (t.2.2 : ℝ) / 10) ^ 2 := by
  simp only [sqrDist, boxPointIdx, boxPoint]
  have h := Real.cos_sq_add_sin_sq yaw
  linear_combination
    (((s.1 : ℝ) / 10 - (t.1 : ℝ) / 10) ^ 2 + ((s.2.1 : ℝ) / 10 - (t.2.1 : ℝ) / 10) ^ 2) * h

theorem generate_box_from_empty {K : Type} [LinearOrderedField K] [FloorRing K]
    (cos sin : K → K) (x y yaw : K) (plane merged : PointCloud K) (g : Engine K) :
    (generate_box cos sin x y yaw ⟨plane, [], merged, g⟩).msg_box
      = (gridIdx.filter onShell).map (boxPointIdx cos sin x y yaw) := by
  rw [generate_box_msg_box]
  rfl

/-- C5: rotation invariance of `generate_box` over the reals.  Rotating every point of
`generate_box (x, y, yaw)` by `-yaw` about the vertical axis through `(x, y)` gives, point
for point and in the same order, `generate_box (x, y, 0)`; hence any two points of the
rotated box are at the same distance as the corresponding two points of the unrotated box,
and corresponding points have the same `z`. -/
theorem generate_box_rotation_invariant (x y yaw : ℝ) (plane merged : PointCloud ℝ)
    (g : Engine ℝ) :
    (generate_box Real.cos Real.sin x y yaw ⟨plane, [], merged, g⟩).msg_box.map
        (rotateAbout Real.cos Real.sin x y (-yaw))
        = (generate_box Real.cos Real.sin x y 0 ⟨plane, [], merged, g⟩).msg_box
      ∧ ∀ (i j : ℕ) (p q p0 q0 : PointXYZ ℝ),
          (generate_box Real.cos Real.sin x y yaw ⟨plane, [], merged, g⟩).msg_box[i]? = some p →
          (generate_box Real.cos Real.sin x y yaw ⟨plane, [], merged, g⟩).msg_box[j]? = some q →
          (generate_box Real.cos Real.sin x y 0 ⟨plane, [], merged, g⟩).msg_box[i]? = some p0 →
          (generate_box Real.cos Real.sin x y 0 ⟨plane, [], merged, g⟩).msg_box[j]? = some q0 →
          Real.sqrt (sqrDist p q) = Real.sqrt (sqrDist p0 q0) ∧ p.z = p0.z := by
  simp only [generate_box_from_empty]
  constructor
  · rw [List.map_map]
    apply List.map_congr_left
    intro t _
    exact rotateAbout_boxPointIdx x y yaw t
  · intro i j p q p0 q0 hp hq hp0 hq0
    rw [List.getElem?_map] at hp hq hp0 hq0
    cases hs : (gridIdx.filter onShell)[i]? with
    | none => rw [hs] at hp; simp at hp
    | some s =>
      cases ht : (gridIdx.filter onShell)[j]? with
      | none => rw [ht] at hq; simp at hq
      | some t =>
        rw [hs] at hp hp0
        rw [ht] at hq hq0
        simp only [Option.map_some', Option.some.injEq] at hp hq hp0 hq0
        subst hp hq hp0 hq0
        constructor
        · rw [sqrDist_boxPointIdx, sqrDist_boxPointIdx]
        · simp [boxPointIdx, boxPoint]

/-- C4: from an empty `msg_box`, `generate_box (0, 0, 0)` produces `11^3 - 9^3 = 602`
points, namely `(0.1 a, 0.1 b, 0.1 c)` for the index triples with `a`, `b` or `c` in
`{0, 10}`; every point has `x`, `y`, `z` in `[0, 1]` and at least one coordinate equal to
`0` or `1` (no interior point). -/
theorem generate_box_origin (plane merged : PointCloud ℝ) (g : Engine ℝ) :
    (generate_box Real.cos Real.sin 0 0 0 ⟨plane, [], merged, g⟩).msg_box
        = (gridIdx.filter onShell).map
            (fun t => (⟨(t.1 : ℝ) / 10, (t.2.1 : ℝ) / 10, (t.2.2 : ℝ) / 10⟩ : PointXYZ ℝ))
      ∧ (generate_box Real.cos Real.sin 0 0 0 ⟨plane, [], merged, g⟩).msg_box.length
          = 11 ^ 3 - 9 ^ 3
      ∧ (generate_box Real.cos Real.sin 0 0 0 ⟨plane, [], merged, g⟩).msg_box.length = 602
      ∧ ∀ p ∈ (generate_box Real.cos Real.sin 0 0 0 ⟨plane, [], merged, g⟩).msg_box,
          (0 ≤ p.x ∧ p.x ≤ 1) ∧ (0 ≤ p.y ∧ p.y ≤ 1) ∧ (0 ≤ p.z ∧ p.z ≤ 1)
            ∧ (p.x = 0 ∨ p.x = 1 ∨ p.y = 0 ∨ p.y = 1 ∨ p.z = 0 ∨ p.z = 1) := by
  have h : (generate_box Real.cos Real.sin 0 0 0 ⟨plane, [], merged, g⟩).msg_box
        = (gridIdx.filter onShell).map
            (fun t => (⟨(t.1 : ℝ) / 10, (t.2.1 : ℝ) / 10, (t.2.2 : ℝ) / 10⟩ : PointXYZ ℝ)) := by
    rw [generate_box_from_empty]
    apply List.map_congr_left
    intro t _
    rw [boxPointIdx_yaw_zero]
    simp
  refine ⟨h, ?_, ?_, ?_⟩
  · rw [h, List.length_map, length_shell]; norm_num
  · rw [h, List.length_map, length_shell]
  · intro p hp
    rw [h, List.mem_map] at hp
    obtain ⟨⟨a, b, c⟩, ht, rfl⟩ := hp
    rw [List.mem_filter, mem_gridIdx] at ht
    obtain ⟨⟨ha, hb, hc⟩, hs⟩ := ht
    simp only at ha hb hc
    have ha' : (a : ℝ) ≤ 10 := by exact_mod_cast Nat.lt_succ_iff.mp ha
    have hb' : (b : ℝ) ≤ 10 := by exact_mod_cast Nat.lt_succ_iff.mp hb
    have hc' : (c : ℝ) ≤ 10 := by exact_mod_cast Nat.lt_succ_iff.mp hc
    have ha0 : (0 : ℝ) ≤ (a : ℝ) := Nat.cast_nonneg _
    have hb0 : (0 : ℝ) ≤ (b : ℝ) := Nat.cast_nonneg _
    have hc0 : (0 : ℝ) ≤ (c : ℝ) := Nat.cast_nonneg _
    refine ⟨⟨by positivity, by linarith⟩, ⟨by positivity, by linarith⟩,
      ⟨by positivity, by linarith⟩, ?_⟩
    simp only [onShell, Bool.or_eq_true, beq_iff_eq] at hs
    rcases hs with (h | h) | (h | h) | (h | h) <;> subst h <;> simp



/-! ## The centre of the box -/

theorem sum_boxPointIdx_x {K : Type} [LinearOrderedField K] (cos sin : K → K) (x y yaw : K)
    (l : List (ℕ × ℕ × ℕ)) :
    (l.map fun t => (boxPointIdx cos sin x y yaw t).x).sum
      = (l.length : K) * x + (((l.map fun t => t.1).sum : ℕ) : K) / 10 * cos yaw
          - (((l.map fun t => t.2.1).sum : ℕ) : K) / 10 * sin yaw := by
  induction l with
  | nil => simp
  | cons t l ih =>
    simp only [List.map_cons, List.sum_cons, List.length_cons, ih]
    simp only [boxPointIdx, boxPoint]
    push_cast
    ring

theorem sum_boxPointIdx_y {K : Type} [LinearOrderedField K] (cos sin : K → K) (x y yaw : K)
    (l : List (ℕ × ℕ × ℕ)) :
    (l.map fun t => (boxPointIdx cos sin x y yaw t).y).sum
      = (l.length : K) * y + (((l.map fun t => t.1).sum : ℕ) : K) / 10 * sin yaw
          + (((l.map fun t => t.2.1).sum : ℕ) : K) / 10 * cos yaw := by
  induction l with
  | nil => simp
  | cons t l ih =>
    simp only [List.map_cons, List.sum_cons, List.length_cons, ih]
    simp only [boxPointIdx, boxPoint]
    push_cast
    ring

set_option maxRecDepth 100000 in
theorem sum_shell_fst : ((gridIdx.filter onShell).map fun t => t.1).sum = 3010 := by
  decide

set_option maxRecDepth 100000 in
theorem sum_shell_snd : ((gridIdx.filter onShell).map fun t => t.2.1).sum = 3010 := by
  decide

/-- C9 (evaluation of the code): for every pose the centroid of the `(x, y)` coordinates
of the points of `generate_box (x, y, yaw)` is
`(x + (cos yaw - sin yaw) / 2, y + (sin yaw + cos yaw) / 2)`, the image of the middle
`(x + 0.5, y + 0.5)` of the footprint square, and never `(x, y)`: the arguments `x`, `y`
are a corner of the cube, not its centre.  At the pose `(0, 0, 0)` the centroid is
`(0.5, 0.5)`. -/
theorem generate_box_centroid (x y yaw : ℝ) (plane merged : PointCloud ℝ) (g : Engine ℝ) :
    ((generate_box Real.cos Real.sin x y yaw ⟨plane, [], merged, g⟩).msg_box.map
          fun p => p.x).sum
        / ((generate_box Real.cos Real.sin x y yaw ⟨plane, [], merged, g⟩).msg_box.length : ℝ)
        = x + (Real.cos yaw - Real.sin yaw) / 2
      ∧ ((generate_box Real.cos Real.sin x y yaw ⟨plane, [], merged, g⟩).msg_box.map
          fun p => p.y).sum
        / ((generate_box Real.cos Real.sin x y yaw ⟨plane, [], merged, g⟩).msg_box.length : ℝ)
        = y + (Real.sin yaw + Real.cos yaw) / 2
      ∧ ¬ (x + (Real.cos yaw - Real.sin yaw) / 2 = x
            ∧ y + (Real.sin yaw + Real.cos yaw) / 2 = y)
      ∧ ((generate_box Real.cos Real.sin 0 0 0 ⟨plane, [], merged, g⟩).msg_box.map
          fun p => p.x).sum
        / ((generate_box Real.cos Real.sin 0 0 0 ⟨plane, [], merged, g⟩).msg_box.length : ℝ)
        = 1 / 2 := by
  have hx : ∀ x y yaw : ℝ,
      ((generate_box Real.cos Real.sin x y yaw ⟨plane, [], merged, g⟩).msg_box.map
          fun p => p.x).sum
        / ((generate_box Real.cos Real.sin x y yaw ⟨plane, [], merged, g⟩).msg_box.length : ℝ)
        = x + (Real.cos yaw - Real.sin yaw) / 2 := by
    intro x y yaw
    rw [generate_box_from_empty, List.map_map, List.length_map, length_shell]
    have := sum_boxPointIdx_x Real.cos Real.sin x y yaw (gridIdx.filter onShell)
    simp only [Function.comp_def]
    rw [this, length_shell, sum_shell_fst, sum_shell_snd]
    push_cast
    ring
  refine ⟨hx x y yaw, ?_, ?_, ?_⟩
  · rw [generate_box_from_empty, List.map_map, List.length_map, length_shell]
    have := sum_boxPointIdx_y Real.cos Real.sin x y yaw (gridIdx.filter onShell)
    simp only [Function.comp_def]
    rw [this, length_shell, sum_shell_fst, sum_shell_snd]
    push_cast
    ring
  · rintro ⟨h1, h2⟩
    have h := Real.cos_sq_add_sin_sq yaw
    have hc : Real.cos yaw = 0 := by linarith
    have hs : Real.sin yaw = 0 := by linarith
    rw [hc, hs] at h
    norm_num at h
  · rw [hx 0 0 0]
    simp



/-! ## The split of the generated box -/

theorem passThrough_box {K : Type} [LinearOrderedField K] (cos sin : K → K) (x y yaw : K)
    (negative : Bool) :
    passThrough ((gridIdx.filter onShell).map (boxPointIdx cos sin x y yaw)) 0.1 1.0 negative
      = ((gridIdx.filter onShell).filter fun t =>
          if negative then t.2.2 == 0 else t.2.2 != 0).map (boxPointIdx cos sin x y yaw) := by
  unfold passThrough
  rw [List.filter_map]
  congr 1
  apply List.filter_congr
  rintro ⟨a, b, c⟩ ht
  rw [List.mem_filter, mem_gridIdx] at ht
  have hc : c < 11 := ht.1.2.2
  have hc' : (c : K) ≤ 10 := by exact_mod_cast Nat.lt_succ_iff.mp hc
  simp only [Function.comp, boxPointIdx, boxPoint]
  rcases Nat.eq_zero_or_pos c with h | h
  · subst h
    cases negative <;> norm_num
  · have h1 : (1 : K) ≤ (c : K) := by exact_mod_cast h
    have h2 : (0.1 : K) ≤ (c : K) / 10 := by norm_num; linarith
    have h3 : (c : K) / 10 ≤ 1.0 := by norm_num; linarith
    have h4 : c ≠ 0 := by omega
    cases negative <;> simp [h2, h3, h4]

set_option maxRecDepth 100000 in
theorem shell_ring : ((gridIdx.filter onShell).filter fun t => t.2.2 == 0) = ringIdx := by
  decide

set_option maxRecDepth 100000 in
theorem length_shell_kept :
    ((gridIdx.filter onShell).filter fun t => t.2.2 != 0).length = 481 := by
  decide

theorem mem_ringIdx (t : ℕ × ℕ × ℕ) : t ∈ ringIdx ↔ t.1 < 11 ∧ t.2.1 < 11 ∧ t.2.2 = 0 := by
  obtain ⟨a, b, c⟩ := t
  simp only [ringIdx, List.mem_flatMap, List.mem_map, List.mem_range, Prod.mk.injEq]
  constructor
  · rintro ⟨a', ha, b', hb, rfl, rfl, rfl⟩
    exact ⟨ha, hb, rfl⟩
  · rintro ⟨ha, hb, hc⟩
    exact ⟨a, ha, b, hb, rfl, rfl, hc.symm⟩

theorem layer1_box {K : Type} [LinearOrderedField K] (cos sin : K → K) (x y yaw : K) :
    layer1 ((gridIdx.filter onShell).map (boxPointIdx cos sin x y yaw))
      = ringIdx.map (boxPointIdx cos sin x y yaw) := by
  unfold layer1
  rw [passThrough_box]
  simp only [if_true]
  rw [shell_ring]

/-- The state in which `merging_both` runs on the first slow tick with pose
`(x, y, yaw)`: the plane of the constructor and the freshly generated box. -/
theorem first_box_state {K : Type} [LinearOrderedField K] [FloorRing K] (cos sin : K → K)
    (x y yaw : K) (seed : Engine K) :
    (generate_box cos sin x y yaw (Generate.new seed)).msg_box
        = (gridIdx.filter onShell).map (boxPointIdx cos sin x y yaw)
      ∧ (generate_box cos sin x y yaw (Generate.new seed)).msg_plane
        = planeIdx.map planePoint := by
  constructor
  · rw [generate_box_msg_box]
    rfl
  · exact new_msg_plane seed



/-! ## Grid-aligned poses -/

theorem int_sq_add_sq_lt_one (u v : ℤ) (h : u ^ 2 + v ^ 2 < 1) : u = 0 ∧ v = 0 := by
  have hu := sq_nonneg u
  have hv := sq_nonneg v
  have hu0 : u ^ 2 = 0 := by omega
  have hv0 : v ^ 2 = 0 := by omega
  exact ⟨pow_eq_zero_iff (two_ne_zero) |>.mp hu0, pow_eq_zero_iff (two_ne_zero) |>.mp hv0⟩

theorem sqrDist_aligned (A B : ℤ) (a b i j : ℕ) :
    sqrDist (planePoint (i, j) : PointXYZ ℝ)
        (boxPointIdx Real.cos Real.sin ((A : ℝ) / 10) ((B : ℝ) / 10) 0 (a, b, 0)) ≤ 0.09 ^ 2
      ↔ (i : ℤ) = A + 50 + a ∧ (j : ℤ) = B + 50 + b := by
  rw [boxPointIdx_yaw_zero]
  have e : sqrDist (planePoint (i, j) : PointXYZ ℝ)
      ⟨(A : ℝ) / 10 + ((a : ℕ) : ℝ) / 10, (B : ℝ) / 10 + ((b : ℕ) : ℝ) / 10, ((0 : ℕ) : ℝ) / 10⟩
      = ((((i : ℤ) - (A + 50 + a) : ℤ) : ℝ) ^ 2 + (((j : ℤ) - (B + 50 + b) : ℤ) : ℝ) ^ 2)
          / 100 := by
    simp only [sqrDist, planePoint]
    push_cast
    ring
  rw [e]
  constructor
  · intro h
    have h1 : ((((i : ℤ) - (A + 50 + a)) ^ 2 + ((j : ℤ) - (B + 50 + b)) ^ 2 : ℤ) : ℝ) < 1 := by
      push_cast
      norm_num at h
      linarith
    have h2 : ((i : ℤ) - (A + 50 + a)) ^ 2 + ((j : ℤ) - (B + 50 + b)) ^ 2 < 1 := by
      exact_mod_cast h1
    obtain ⟨hu, hv⟩ := int_sq_add_sq_lt_one _ _ h2
    constructor <;> omega
  · rintro ⟨h1, h2⟩
    rw [h1, h2]
    norm_num

theorem nearRing_aligned (A B : ℤ) (i j : ℕ) :
    nearRing (ringIdx.map (boxPointIdx Real.cos Real.sin ((A : ℝ) / 10) ((B : ℝ) / 10) 0))
        (planePoint (i, j)) = true
      ↔ (A + 50 ≤ (i : ℤ) ∧ (i : ℤ) ≤ A + 60) ∧ (B + 50 ≤ (j : ℤ) ∧ (j : ℤ) ≤ B + 60) := by
  rw [nearRing_iff]
  simp only [List.mem_map, exists_exists_and_eq_and]
  constructor
  · rintro ⟨⟨a, b, c⟩, ht, hd⟩
    rw [mem_ringIdx] at ht
    obtain ⟨ha, hb, hc⟩ := ht
    simp only at ha hb hc
    subst hc
    rw [sqrDist_aligned] at hd
    omega
  · rintro ⟨⟨h1, h2⟩, ⟨h3, h4⟩⟩
    refine ⟨(((i : ℤ) - (A + 50)).toNat, ((j : ℤ) - (B + 50)).toNat, 0), ?_, ?_⟩
    · rw [mem_ringIdx]
      refine ⟨?_, ?_, rfl⟩ <;> simp only <;> omega
    · rw [sqrDist_aligned]
      constructor <;> omega

theorem inFootprint_aligned (A B : ℤ) (i j : ℕ) :
    inFootprint ((A : ℝ) / 10) ((B : ℝ) / 10) (planePoint (i, j)) = true
      ↔ (A + 50 ≤ (i : ℤ) ∧ (i : ℤ) ≤ A + 60) ∧ (B + 50 ≤ (j : ℤ) ∧ (j : ℤ) ≤ B + 60) := by
  simp only [inFootprint, planePoint, decide_eq_true_eq]
  have e1 : (A : ℝ) / 10 ≤ -5 + (i : ℝ) / 10 ↔ A + 50 ≤ (i : ℤ) := by
    rw [← @Int.cast_le ℝ]; push_cast; constructor <;> intro h <;> linarith
  have e2 : -5 + (i : ℝ) / 10 ≤ (A : ℝ) / 10 + 1 ↔ (i : ℤ) ≤ A + 60 := by
    rw [← @Int.cast_le ℝ]; push_cast; constructor <;> intro h <;> linarith
  have e3 : (B : ℝ) / 10 ≤ -5 + (j : ℝ) / 10 ↔ B + 50 ≤ (j : ℤ) := by
    rw [← @Int.cast_le ℝ]; push_cast; constructor <;> intro h <;> linarith
  have e4 : -5 + (j : ℝ) / 10 ≤ (B : ℝ) / 10 + 1 ↔ (j : ℤ) ≤ B + 60 := by
    rw [← @Int.cast_le ℝ]; push_cast; constructor <;> intro h <;> linarith
  rw [e1, e2, e3, e4]
  tauto



/-! ## Counting the footprint -/

theorem countP_product (P Q : ℕ → Bool) (l m : List ℕ) :
    (l.flatMap fun a => m.map fun b => (a, b)).countP (fun t => P t.1 && Q t.2)
      = l.countP P * m.countP Q := by
  induction l with
  | nil => simp
  | cons a l ih =>
    rw [List.flatMap_cons, List.countP_append, ih, List.countP_cons, List.countP_map]
    by_cases h : P a = true
    · simp only [Function.comp_def, h, Bool.true_and, if_true]
      ring
    · simp only [Bool.not_eq_true] at h
      simp [Function.comp_def, h]

set_option maxRecDepth 100000 in
theorem countP_range_window :
    ∀ s < 91, (List.range 101).countP (fun i => decide (s ≤ i) && decide (i ≤ s + 10)) = 11 := by
  decide

theorem countP_inFootprint (A B : ℤ) (hA : -50 ≤ A ∧ A ≤ 40) (hB : -50 ≤ B ∧ B ≤ 40) :
    (planeIdx.map (planePoint : ℕ × ℕ → PointXYZ ℝ)).countP
        (inFootprint ((A : ℝ) / 10) ((B : ℝ) / 10)) = 121 := by
  rw [List.countP_map]
  have hc : planeIdx.countP (inFootprint ((A : ℝ) / 10) ((B : ℝ) / 10) ∘ planePoint)
      = planeIdx.countP (fun t =>
          (fun i => decide ((A + 50).toNat ≤ i) && decide (i ≤ (A + 50).toNat + 10)) t.1
            && (fun j => decide ((B + 50).toNat ≤ j) && decide (j ≤ (B + 50).toNat + 10)) t.2) := by
    apply List.countP_congr
    rintro ⟨i, j⟩ _
    simp only [Function.comp, inFootprint_aligned, Bool.and_eq_true, decide_eq_true_eq]
    omega
  rw [hc]
  unfold planeIdx
  have hp := countP_product
    (fun i => decide ((A + 50).toNat ≤ i) && decide (i ≤ (A + 50).toNat + 10))
    (fun j => decide ((B + 50).toNat ≤ j) && decide (j ≤ (B + 50).toNat + 10))
    (List.range 101) (List.range 101)
  rw [hp, countP_range_window _ (by omega), countP_range_window _ (by omega)]

theorem length_filter_not {α : Type} (p : α → Bool) (l : List α) :
    (l.filter fun a => !p a).length = l.length - (l.filter p).length := by
  induction l with
  | nil => rfl
  | cons a l ih =>
    have hle : (l.filter p).length ≤ l.length := List.length_filter_le p l
    by_cases h : p a = true
    · simp only [List.filter_cons, h, Bool.not_true, if_true, List.length_cons,
        Bool.false_eq_true, if_false]
      omega
    · simp only [Bool.not_eq_true] at h
      simp only [List.filter_cons, h, Bool.not_false, if_true, List.length_cons,
        Bool.false_eq_true, if_false]
      omega

theorem kept_box_eq_filter {K : Type} [LinearOrderedField K] (cos sin : K → K) (x y yaw : K) :
    passThrough ((gridIdx.filter onShell).map (boxPointIdx cos sin x y yaw)) 0.1 1.0 false
      = ((gridIdx.filter onShell).map (boxPointIdx cos sin x y yaw)).filter
          fun p => decide (p.z ≠ 0) := by
  rw [passThrough_box, List.filter_map]
  congr 1
  apply List.filter_congr
  rintro ⟨a, b, c⟩ _
  rcases c with _ | c <;> simp [boxPointIdx, boxPoint]
  exact_mod_cast Nat.succ_ne_zero c

theorem merging_both_aligned_merged (A B : ℤ) (seed : Engine ℝ) :
    (merging_both (generate_box Real.cos Real.sin ((A : ℝ) / 10) ((B : ℝ) / 10) 0
        (Generate.new seed))).merged
      = passThrough ((gridIdx.filter onShell).map
            (boxPointIdx Real.cos Real.sin ((A : ℝ) / 10) ((B : ℝ) / 10) 0)) 0.1 1.0 false
          ++ (planeIdx.map planePoint).filter
              (fun p => !inFootprint ((A : ℝ) / 10) ((B : ℝ) / 10) p) := by
  obtain ⟨hbox, hplane⟩ :=
    first_box_state Real.cos Real.sin ((A : ℝ) / 10) ((B : ℝ) / 10) 0 seed
  rw [merging_both_merged, hbox, hplane, layer1_box]
  congr 1
  apply List.filter_congr
  intro p hp
  rw [List.mem_map] at hp
  obtain ⟨⟨i, j⟩, _, rfl⟩ := hp
  have h := (nearRing_aligned A B i j).trans (inFootprint_aligned A B i j).symm
  rw [Bool.eq_iff_iff.mpr h]

/-- The overlap case in exact arithmetic, where every loop takes its 11 steps (the machine
result at the pose `(1, 1, 0)` is in the section on the first slow tick of the IEEE
model), for a grid-aligned pose `(x, y, 0)`, `x = A / 10`, `y = B / 10` with
integers `-50 ≤ A, B ≤ 40` (so that `[x, x + 1] x [y, y + 1]` lies in the plane domain;
`A = B = 0` and `A = B = 10` are the poses `(0, 0, 0)` and `(1, 1, 0)`).  After
`generate_box` and `merging_both` on the plane of the constructor, `merged` is the box
points off the bottom face (walls and top, 481 points) followed by the plane points
outside `[x, x + 1] x [y, y + 1]`; the plane points inside that square number 121 and
the remaining plane part has `10201 - 121 = 10080` points. -/
theorem merging_both_aligned_overlap (A B : ℤ) (hA : -50 ≤ A ∧ A ≤ 40)
    (hB : -50 ≤ B ∧ B ≤ 40) (seed : Engine ℝ) :
    (merging_both (generate_box Real.cos Real.sin ((A : ℝ) / 10) ((B : ℝ) / 10) 0
        (Generate.new seed))).merged
        = (generate_box Real.cos Real.sin ((A : ℝ) / 10) ((B : ℝ) / 10) 0
              (Generate.new seed)).msg_box.filter (fun p => decide (p.z ≠ 0))
            ++ (Generate.new seed).msg_plane.filter
                (fun p => !inFootprint ((A : ℝ) / 10) ((B : ℝ) / 10) p)
      ∧ ((generate_box Real.cos Real.sin ((A : ℝ) / 10) ((B : ℝ) / 10) 0
              (Generate.new seed)).msg_box.filter (fun p => decide (p.z ≠ 0))).length = 481
      ∧ ((Generate.new seed).msg_plane.filter
            (inFootprint ((A : ℝ) / 10) ((B : ℝ) / 10))).length = 121
      ∧ ((Generate.new seed).msg_plane.filter
            (fun p => !inFootprint ((A : ℝ) / 10) ((B : ℝ) / 10) p)).length = 10080 := by
  obtain ⟨hbox, _⟩ :=
    first_box_state Real.cos Real.sin ((A : ℝ) / 10) ((B : ℝ) / 10) 0 seed
  have h121 : ((planeIdx.map (planePoint : ℕ × ℕ → PointXYZ ℝ)).filter
      (inFootprint ((A : ℝ) / 10) ((B : ℝ) / 10))).length = 121 := by
    rw [← List.countP_eq_length_filter]
    exact countP_inFootprint A B hA hB
  rw [hbox, new_msg_plane, ← kept_box_eq_filter]
  refine ⟨merging_both_aligned_merged A B seed, ?_, h121, ?_⟩
  · rw [passThrough_box, List.length_map]
    exact length_shell_kept
  · rw [length_filter_not, h121, List.length_map, length_planeIdx]

/-- An instance of `merging_both_aligned_overlap`: the pose `(1, 1, 0)` in exact
arithmetic. -/
theorem merging_both_aligned_overlap_witness :
    ((-50 ≤ (10 : ℤ) ∧ (10 : ℤ) ≤ 40) ∧ (-50 ≤ (10 : ℤ) ∧ (10 : ℤ) ≤ 40))
      ∧ ((Generate.new (⟨fun _ => 0, 0⟩ : Engine ℝ)).msg_plane.filter
            (fun p => !inFootprint (((10 : ℤ) : ℝ) / 10) (((10 : ℤ) : ℝ) / 10) p)).length
          = 10080 :=
  ⟨⟨by decide, by decide⟩,
    (merging_both_aligned_overlap 10 10 (by decide) (by decide) ⟨fun _ => 0, 0⟩).2.2.2⟩



/-! ## What the radius query removes -/

theorem new_msg_box {K : Type} [LinearOrderedField K] [FloorRing K] (seed : Engine K) :
    (Generate.new seed).msg_box = [] := rfl

theorem new_merged {K : Type} [LinearOrderedField K] [FloorRing K] (seed : Engine K) :
    (Generate.new seed).merged = [] := rfl

theorem box_Callback_msg_box {K : Type} [LinearOrderedField K] [FloorRing K]
    (cos sin : K → K) (st : Generate K) : (box_Callback cos sin st).msg_box = [] := rfl

theorem run_cons {K : Type} [LinearOrderedField K] [FloorRing K] (cos sin : K → K)
    (st : Generate K) (t : Tick) (ticks : List Tick) :
    run cos sin st (t :: ticks) = run cos sin (tick cos sin st t) ticks := rfl

theorem run_msg_box {K : Type} [LinearOrderedField K] [FloorRing K] (cos sin : K → K)
    (ticks : List Tick) :
    ∀ st : Generate K, st.msg_box = [] → (run cos sin st ticks).msg_box = [] := by
  induction ticks with
  | nil => intro st h; exact h
  | cons t ticks ih =>
    intro st h
    rw [run_cons]
    apply ih
    cases t
    · rfl
    · exact h

/-- The merged cloud of a slow tick run on an empty `msg_box`, as a function of the pose
and the plane alone. -/
theorem merging_generated_box {K : Type} [LinearOrderedField K] [FloorRing K]
    (cos sin : K → K) (x y yaw : K) (st : Generate K) (h : st.msg_box = []) :
    (merging_both (generate_box cos sin x y yaw st)).merged
      = passThrough ((gridIdx.filter onShell).map (boxPointIdx cos sin x y yaw)) 0.1 1.0 false
          ++ st.msg_plane.filter fun p =>
              !nearRing (ringIdx.map (boxPointIdx cos sin x y yaw)) p := by
  rw [merging_both_merged, generate_box_msg_box, h, List.nil_append, layer1_box]
  rfl

theorem box_Callback_merged {K : Type} [LinearOrderedField K] [FloorRing K]
    (cos sin : K → K) (st : Generate K) :
    (box_Callback cos sin st).merged
      = (merging_both (generate_box cos sin (drawPose st.generator).1
          (drawPose st.generator).2.1 (drawPose st.generator).2.2 st)).merged := rfl

/-- C11: no history is retained across slow ticks.  In every state reached from the
constructor `msg_box` is empty, and it is empty again after `box_Callback`; the merged
cloud left by the slow tick is the one a freshly constructed `Generate` (any seed)
produces by `generate_box` and `merging_both` at the pose `(x, y, yaw)` drawn by this
tick, a function of the pose and the plane alone; each of its points is a point of this
tick's box or a point of the plane. -/
theorem slow_tick_keeps_no_history {K : Type} [LinearOrderedField K] [FloorRing K]
    (cos sin : K → K) (seed fresh : Engine K) (ticks : List Tick) :
    (run cos sin (Generate.new seed) ticks).msg_box = []
      ∧ (box_Callback cos sin (run cos sin (Generate.new seed) ticks)).msg_box = []
      ∧ (box_Callback cos sin (run cos sin (Generate.new seed) ticks)).merged
          = (merging_both (generate_box cos sin
              (drawPose (run cos sin (Generate.new seed) ticks).generator).1
              (drawPose (run cos sin (Generate.new seed) ticks).generator).2.1
              (drawPose (run cos sin (Generate.new seed) ticks).generator).2.2
              (Generate.new fresh))).merged
      ∧ ∀ p ∈ (box_Callback cos sin (run cos sin (Generate.new seed) ticks)).merged,
          p ∈ (generate_box cos sin
              (drawPose (run cos sin (Generate.new seed) ticks).generator).1
              (drawPose (run cos sin (Generate.new seed) ticks).generator).2.1
              (drawPose (run cos sin (Generate.new seed) ticks).generator).2.2
              (Generate.new fresh)).msg_box
            ∨ p ∈ (Generate.new fresh).msg_plane := by
  have hbox := run_msg_box cos sin ticks (Generate.new seed) (new_msg_box seed)
  have hplane := run_msg_plane cos sin ticks (Generate.new seed)
  have hm : (box_Callback cos sin (run cos sin (Generate.new seed) ticks)).merged
          = (merging_both (generate_box cos sin
              (drawPose (run cos sin (Generate.new seed) ticks).generator).1
              (drawPose (run cos sin (Generate.new seed) ticks).generator).2.1
              (drawPose (run cos sin (Generate.new seed) ticks).generator).2.2
              (Generate.new fresh))).merged := by
    rw [box_Callback_merged, merging_generated_box _ _ _ _ _ _ hbox,
      merging_generated_box _ _ _ _ _ _ (new_msg_box fresh), hplane, new_msg_plane,
      new_msg_plane]
  refine ⟨hbox, rfl, hm, ?_⟩
  intro p hp
  rw [hm, merging_generated_box _ _ _ _ _ _ (new_msg_box fresh), List.mem_append] at hp
  rcases hp with hp | hp
  · left
    rw [generate_box_msg_box, new_msg_box, List.nil_append]
    exact (List.mem_filter.mp hp).1
  · right
    exact (List.mem_filter.mp hp).1

/-! ## The fast tick -/

theorem make_noise_generator {K : Type} [LinearOrderedField K] (st : Generate K) :
    (make_noise st).2.generator
      = ⟨st.generator.variates, st.generator.pos + 3 * st.merged.length⟩ := by
  unfold make_noise
  simp only [foldl_noiseStep]

theorem make_noise_state {K : Type} [LinearOrderedField K] (st : Generate K) :
    (make_noise st).2.merged = st.merged ∧ (make_noise st).2.msg_box = st.msg_box
      ∧ (make_noise st).2.msg_plane = st.msg_plane := ⟨rfl, rfl, rfl⟩

/-- C12: `make_noise` and the fast tick do not mutate their input: `merged`, `msg_box`
and `msg_plane` are the same after the call as before.  Hence the second of two
consecutive fast ticks jitters the same un-noised cloud: its `i`-th point is the `i`-th
point of `merged` displaced by three fresh draws (numbers `3 (n + i)`, `3 (n + i) + 1`,
`3 (n + i) + 2` after the engine position, `n` the length of `merged`), not the first
tick's output displaced again. -/
theorem make_noise_keeps_state {K : Type} [LinearOrderedField K] (st : Generate K) :
    ((make_noise st).2.merged = st.merged ∧ (make_noise st).2.msg_box = st.msg_box
        ∧ (make_noise st).2.msg_plane = st.msg_plane)
      ∧ ((publisher_Callback st).2.merged = st.merged
        ∧ (publisher_Callback st).2.msg_box = st.msg_box
        ∧ (publisher_Callback st).2.msg_plane = st.msg_plane)
      ∧ (publisher_Callback (publisher_Callback st).2).1.length = st.merged.length
      ∧ ∀ (i : ℕ) (p : PointXYZ K), st.merged[i]? = some p →
          (publisher_Callback (publisher_Callback st).2).1[i]? = some
            ⟨p.x + (noise_rnd ⟨st.generator.variates,
                    st.generator.pos + 3 * st.merged.length + 3 * i⟩).1,
              p.y + (noise_rnd ⟨st.generator.variates,
                    st.generator.pos + 3 * st.merged.length + 3 * i + 1⟩).1,
              p.z + (noise_rnd ⟨st.generator.variates,
                    st.generator.pos + 3 * st.merged.length + 3 * i + 2⟩).1⟩ := by
  refine ⟨make_noise_state st, make_noise_state st, ?_, ?_⟩
  · unfold publisher_Callback
    rw [make_noise_fst, length_noised]
    rfl
  · intro i p hp
    unfold publisher_Callback
    rw [make_noise_fst, make_noise_generator]
    exact noised_getElem_opt (make_noise st).2.merged _ i p hp

/-! ## Emissions before and after the first slow tick -/

theorem run_fast_merged {K : Type} [LinearOrderedField K] [FloorRing K] (cos sin : K → K)
    (n : ℕ) :
    ∀ st : Generate K, (run cos sin st (List.replicate n Tick.fast)).merged = st.merged := by
  induction n with
  | zero => intro st; rfl
  | succ n ih =>
    intro st
    rw [List.replicate_succ, run_cons, ih]
    rfl

theorem publisher_Callback_length {K : Type} [LinearOrderedField K] (st : Generate K) :
    (publisher_Callback st).1.length = st.merged.length := by
  unfold publisher_Callback
  rw [make_noise_fst, length_noised]

/-- C18: a freshly constructed `Generate` has an empty `merged` (only `msg_plane`, with
10201 points, is populated), so every fast tick run before the first slow tick emits a
cloud with zero points; after a slow tick, every fast tick up to the next slow tick emits
a cloud with as many points as the merged cloud left by that slow tick. -/
theorem emission_before_and_after_slow_tick {K : Type} [LinearOrderedField K] [FloorRing K]
    (cos sin : K → K) (seed : Engine K) (st : Generate K) (n : ℕ) :
    (Generate.new seed).merged = []
      ∧ (Generate.new seed).msg_plane.length = 10201
      ∧ (publisher_Callback
            (run cos sin (Generate.new seed) (List.replicate n Tick.fast))).1 = []
      ∧ (publisher_Callback
            (run cos sin (box_Callback cos sin st) (List.replicate n Tick.fast))).1.length
          = (box_Callback cos sin st).merged.length := by
  refine ⟨rfl, ?_, ?_, ?_⟩
  · rw [new_msg_plane, List.length_map, length_planeIdx]
  · apply List.eq_nil_of_length_eq_zero
    rw [publisher_Callback_length, run_fast_merged]
    rfl
  · rw [publisher_Callback_length, run_fast_merged]



/-! ## Face membership by grid index -/

theorem generate_box_by_index_eq {K : Type} [LinearOrderedField K] (cos sin : K → K)
    (x y yaw : K) :
    generate_box_by_index cos sin x y yaw
      = (gridIdx.filter onShell).map (boxPointIdx cos sin x y yaw) := by
  rw [← flatMap_ite_singleton]
  simp only [generate_box_by_index, gridIdx, List.flatMap_assoc, List.flatMap_map]
  apply List.flatMap_congr
  intro c _
  apply List.flatMap_congr
  intro a _
  apply List.flatMap_congr
  intro b _
  by_cases h : c = 0 ∨ c = 10 ∨ a = 0 ∨ a = 10 ∨ b = 0 ∨ b = 10
  · have hs : onShell (a, b, c) = true := by
      simp only [onShell, Bool.or_eq_true, beq_iff_eq]; tauto
    simp only [h, hs, if_true, boxPointIdx]
  · have hs : ¬ onShell (a, b, c) = true := by
      simp only [onShell, Bool.or_eq_true, beq_iff_eq]; tauto
    simp [h, hs]

theorem translate_boxPointIdx {K : Type} [LinearOrderedField K] (cos sin : K → K)
    (x y yaw : K) (t : ℕ × ℕ × ℕ) :
    translate x y (boxPointIdx cos sin 0 0 yaw t) = boxPointIdx cos sin x y yaw t := by
  simp only [translate, boxPointIdx, boxPoint, PointXYZ.mk.injEq, and_true]
  constructor <;> ring

/-- Face membership by tolerance equals membership by grid index in exact arithmetic (on
doubles it does not, see the IEEE model).
For every pose and libm, `generate_box` appends to `msg_box` exactly the
cloud built by grid index (one point per index triple with `c`, `a` or `b` in `{0, 10}`,
in loop order); on the step grid the `dbeq` test against the lower bound holds only for
index `0` and the test against the upper bound only for index `10`; and the box is the
translate by `(x, y)` of the box generated at `(0, 0, yaw)`. -/
theorem generate_box_refines_index {K : Type} [LinearOrderedField K] [FloorRing K]
    (cos sin : K → K) (x y yaw : K) (st : Generate K) :
    (generate_box cos sin x y yaw st).msg_box
        = st.msg_box ++ generate_box_by_index cos sin x y yaw
      ∧ (∀ (v : K) (a : ℕ),
          dbeq (v + (a : K) / 10) v 0.1 = decide (a = 0)
            ∧ dbeq (v + (a : K) / 10) (v + 1) 0.1 = decide (a = 10))
      ∧ (generate_box cos sin x y yaw ⟨st.msg_plane, [], st.merged, st.generator⟩).msg_box
          = (generate_box cos sin 0 0 yaw ⟨st.msg_plane, [], st.merged, st.generator⟩).msg_box.map
              (translate x y) := by
  refine ⟨?_, ?_, ?_⟩
  · rw [generate_box_msg_box, generate_box_by_index_eq]
  · intro v a
    rw [dbeq_lo, dbeq_hi]
    constructor
    · by_cases h : a = 0 <;> simp [h]
    · by_cases h : a = 10 <;> simp [h]
  · rw [generate_box_from_empty, generate_box_from_empty, List.map_map]
    apply List.map_congr_left
    intro t _
    exact (translate_boxPointIdx cos sin x y yaw t).symm

/-! ## Step 1 of the merge on a generated box -/

set_option maxRecDepth 100000 in
theorem shell_split :
    gridIdx.filter onShell
      = ((gridIdx.filter onShell).filter fun t => t.2.2 == 0)
          ++ (gridIdx.filter onShell).filter fun t => t.2.2 != 0 := by
  decide

theorem length_ringIdx : ringIdx.length = 121 := by
  unfold ringIdx
  rw [length_flatMap_map, List.length_range]

/-- Step 1 of the merge on the output of `generate_box` in exact arithmetic (any pose,
empty `msg_box` before; the counts on doubles are in the IEEE model).
  The box is the footprint ring followed by the kept box, so the two parts hold
every box point exactly once; the ring is the bottom face, 121 points all with `z = 0`;
the kept box has 481 points, all with `z` one of `0.1, 0.2, ..., 1.0`; and a box point
with `z = 0.1` or `z = 1.0` is in the kept box and not in the ring. -/
theorem box_split_ring_kept {K : Type} [LinearOrderedField K] [FloorRing K]
    (cos sin : K → K) (x y yaw : K) (plane merged : PointCloud K) (g : Engine K) :
    (generate_box cos sin x y yaw ⟨plane, [], merged, g⟩).msg_box
        = layer1 (generate_box cos sin x y yaw ⟨plane, [], merged, g⟩).msg_box
          ++ (merging_both (generate_box cos sin x y yaw ⟨plane, [], merged, g⟩)).msg_box
      ∧ (layer1 (generate_box cos sin x y yaw ⟨plane, [], merged, g⟩).msg_box).length = 121
      ∧ (merging_both (generate_box cos sin x y yaw ⟨plane, [], merged, g⟩)).msg_box.length
          = 481
      ∧ (∀ p ∈ layer1 (generate_box cos sin x y yaw ⟨plane, [], merged, g⟩).msg_box,
          p.z = 0)
      ∧ (∀ p ∈ (merging_both (generate_box cos sin x y yaw ⟨plane, [], merged, g⟩)).msg_box,
          ∃ c : ℕ, 1 ≤ c ∧ c ≤ 10 ∧ p.z = (c : K) / 10)
      ∧ ∀ p ∈ (generate_box cos sin x y yaw ⟨plane, [], merged, g⟩).msg_box,
          p.z = 0.1 ∨ p.z = 1.0 →
            p ∈ (merging_both (generate_box cos sin x y yaw ⟨plane, [], merged, g⟩)).msg_box
              ∧ p ∉ layer1 (generate_box cos sin x y yaw ⟨plane, [], merged, g⟩).msg_box := by
  have hkept : (merging_both (generate_box cos sin x y yaw ⟨plane, [], merged, g⟩)).msg_box
      = ((gridIdx.filter onShell).filter fun t => t.2.2 != 0).map
          (boxPointIdx cos sin x y yaw) := by
    have h : (merging_both (generate_box cos sin x y yaw ⟨plane, [], merged, g⟩)).msg_box
        = passThrough (generate_box cos sin x y yaw ⟨plane, [], merged, g⟩).msg_box
            0.1 1.0 false := rfl
    rw [h, generate_box_from_empty, passThrough_box]
    rfl
  have hring : layer1 (generate_box cos sin x y yaw ⟨plane, [], merged, g⟩).msg_box
      = ((gridIdx.filter onShell).filter fun t => t.2.2 == 0).map
          (boxPointIdx cos sin x y yaw) := by
    rw [generate_box_from_empty, layer1_box, shell_ring]
  have hzring : ∀ p ∈ ((gridIdx.filter onShell).filter fun t => t.2.2 == 0).map
      (boxPointIdx cos sin x y yaw), p.z = 0 := by
    intro p hp
    rw [List.mem_map] at hp
    obtain ⟨⟨a, b, c⟩, ht, rfl⟩ := hp
    have hc : c = 0 := by simpa using (List.mem_filter.mp ht).2
    subst hc
    simp [boxPointIdx, boxPoint]
  have hzkept : ∀ p ∈ ((gridIdx.filter onShell).filter fun t => t.2.2 != 0).map
      (boxPointIdx cos sin x y yaw), ∃ c : ℕ, 1 ≤ c ∧ c ≤ 10 ∧ p.z = (c : K) / 10 := by
    intro p hp
    rw [List.mem_map] at hp
    obtain ⟨⟨a, b, c⟩, ht, rfl⟩ := hp
    obtain ⟨ht1, ht2⟩ := List.mem_filter.mp ht
    have hc : c ≠ 0 := by simpa using ht2
    have hc10 : c < 11 := ((mem_gridIdx _).mp (List.mem_filter.mp ht1).1).2.2
    exact ⟨c, by omega, by omega, rfl⟩
  rw [hkept, hring]
  refine ⟨?_, ?_, ?_, hzring, hzkept, ?_⟩
  · rw [generate_box_from_empty, ← List.map_append, ← shell_split]
  · rw [List.length_map, shell_ring, length_ringIdx]
  · rw [List.length_map, length_shell_kept]
  · intro p hp hz
    have hnz : p.z ≠ 0 := by
      rcases hz with h | h <;> rw [h] <;> norm_num
    have hnotring : p ∉ ((gridIdx.filter onShell).filter fun t => t.2.2 == 0).map
        (boxPointIdx cos sin x y yaw) := fun h => hnz (hzring p h)
    refine ⟨?_, hnotring⟩
    rw [generate_box_from_empty, shell_split, List.map_append, List.mem_append] at hp
    rcases hp with hp | hp
    · exact absurd hp hnotring
    · exact hp

/-! ## The empty plane -/

/-- C15: with a plane of zero points, every radius query returns no match, no index is
collected, nothing is extracted, and `merged` is exactly the `z`-range-filtered box. -/
theorem merging_both_empty_plane {K : Type} [LinearOrderedField K] (box merged : PointCloud K)
    (g : Engine K) :
    (∀ (q : PointXYZ K) (radius : K), radiusSearch ([] : PointCloud K) q radius = [])
      ∧ inliers ([] : PointCloud K) (layer1 box) = []
      ∧ extractNegative ([] : PointCloud K) (inliers ([] : PointCloud K) (layer1 box)) = []
      ∧ (merging_both ⟨[], box, merged, g⟩).merged = passThrough box 0.1 1.0 false
      ∧ (merging_both ⟨[], box, merged, g⟩).msg_plane = [] := by
  refine ⟨fun _ _ => rfl, ?_, rfl, ?_, rfl⟩
  · rw [inliers_eq_flatMap]
    simp [radiusSearch]
  · rw [merging_both_merged]
    simp



/-! ## The box over the plane -/

theorem boxPointIdx_offset (x y yaw : ℝ) (t : ℕ × ℕ × ℕ) :
    ((boxPointIdx Real.cos Real.sin x y yaw t).x - x) ^ 2
        + ((boxPointIdx Real.cos Real.sin x y yaw t).y - y) ^ 2
      = ((t.1 : ℝ) / 10) ^ 2 + ((t.2.1 : ℝ) / 10) ^ 2 := by
  simp only [boxPointIdx, boxPoint]
  have h := Real.cos_sq_add_sin_sq yaw
  linear_combination (((t.1 : ℝ) / 10) ^ 2 + ((t.2.1 : ℝ) / 10) ^ 2) * h

theorem uniform_real_distribution_mem {K : Type} [LinearOrderedField K] (a b : K)
    (hab : a ≤ b) (g : Engine K) (h0 : 0 ≤ g.variates g.pos) (h1 : g.variates g.pos ≤ 1) :
    a ≤ (uniform_real_distribution a b g).1 ∧ (uniform_real_distribution a b g).1 ≤ b := by
  simp only [uniform_real_distribution]
  constructor
  · nlinarith
  · nlinarith

/-- C17: the box always sits over the plane.  For every pose with `x`, `y` in `[-2, 2]`
and any `yaw`, every point of `generate_box (x, y, yaw)` is at horizontal distance at most
`sqrt 2` from `(x, y)`, has `z` in `[0, 1]`, and has `x` and `y` coordinates in
`[-5, 5]`; and the `x`, `y` drawn by `box_Callback` from an engine with variates in
`[0, 1]` do lie in `[-2, 2]`. -/
theorem box_sits_over_plane (x y yaw : ℝ) (hx : -2 ≤ x ∧ x ≤ 2) (hy : -2 ≤ y ∧ y ≤ 2)
    (plane merged : PointCloud ℝ) (g : Engine ℝ) :
    (∀ p ∈ (generate_box Real.cos Real.sin x y yaw ⟨plane, [], merged, g⟩).msg_box,
        Real.sqrt ((p.x - x) ^ 2 + (p.y - y) ^ 2) ≤ Real.sqrt 2
          ∧ (0 ≤ p.z ∧ p.z ≤ 1) ∧ (-5 ≤ p.x ∧ p.x ≤ 5) ∧ (-5 ≤ p.y ∧ p.y ≤ 5))
      ∧ ∀ e : Engine ℝ, (∀ n, 0 ≤ e.variates n ∧ e.variates n ≤ 1) →
          (-2 ≤ (drawPose e).1 ∧ (drawPose e).1 ≤ 2)
            ∧ (-2 ≤ (drawPose e).2.1 ∧ (drawPose e).2.1 ≤ 2) := by
  constructor
  · intro p hp
    rw [generate_box_from_empty, List.mem_map] at hp
    obtain ⟨⟨a, b, c⟩, ht, rfl⟩ := hp
    obtain ⟨ha, hb, hc⟩ := (mem_gridIdx _).mp (List.mem_filter.mp ht).1
    simp only at ha hb hc
    have ha' : (a : ℝ) ≤ 10 := by exact_mod_cast Nat.lt_succ_iff.mp ha
    have hb' : (b : ℝ) ≤ 10 := by exact_mod_cast Nat.lt_succ_iff.mp hb
    have hc' : (c : ℝ) ≤ 10 := by exact_mod_cast Nat.lt_succ_iff.mp hc
    have ha0 : (0 : ℝ) ≤ (a : ℝ) := Nat.cast_nonneg _
    have hb0 : (0 : ℝ) ≤ (b : ℝ) := Nat.cast_nonneg _
    have hc0 : (0 : ℝ) ≤ (c : ℝ) := Nat.cast_nonneg _
    have hoff := boxPointIdx_offset x y yaw (a, b, c)
    simp only at hoff
    have hle : ((boxPointIdx Real.cos Real.sin x y yaw (a, b, c)).x - x) ^ 2
        + ((boxPointIdx Real.cos Real.sin x y yaw (a, b, c)).y - y) ^ 2 ≤ 2 := by
      rw [hoff]
      nlinarith
    have hz : (boxPointIdx Real.cos Real.sin x y yaw (a, b, c)).z = (c : ℝ) / 10 := rfl
    have hsx := sq_nonneg ((boxPointIdx Real.cos Real.sin x y yaw (a, b, c)).x - x)
    have hsy := sq_nonneg ((boxPointIdx Real.cos Real.sin x y yaw (a, b, c)).y - y)
    refine ⟨Real.sqrt_le_sqrt hle, ⟨?_, ?_⟩, ⟨?_, ?_⟩, ⟨?_, ?_⟩⟩
    · rw [hz]; positivity
    · rw [hz]; linarith
    · nlinarith
    · nlinarith
    · nlinarith
    · nlinarith
  · intro e he
    have h1 := uniform_real_distribution_mem (-2.0 : ℝ) 2.0 (by norm_num) e (he _).1 (he _).2
    have h2 := uniform_real_distribution_mem (-2.0 : ℝ) 2.0 (by norm_num)
      (xy_rnd e).2 (he _).1 (he _).2
    simp only [drawPose, xy_rnd]
    norm_num at h1 h2 ⊢
    exact ⟨h1, h2⟩

/-- Witness of C17: the pose `(0, 0, 0)`. -/
theorem box_sits_over_plane_witness :
    ((-2 ≤ (0 : ℝ) ∧ (0 : ℝ) ≤ 2) ∧ (-2 ≤ (0 : ℝ) ∧ (0 : ℝ) ≤ 2))
      ∧ ∀ p ∈ (generate_box Real.cos Real.sin 0 0 0
            (⟨[], [], [], ⟨fun _ => 0, 0⟩⟩ : Generate ℝ)).msg_box,
          Real.sqrt ((p.x - 0) ^ 2 + (p.y - 0) ^ 2) ≤ Real.sqrt 2
            ∧ (0 ≤ p.z ∧ p.z ≤ 1) ∧ (-5 ≤ p.x ∧ p.x ≤ 5) ∧ (-5 ≤ p.y ∧ p.y ≤ 5) :=
  ⟨⟨⟨by norm_num, by norm_num⟩, ⟨by norm_num, by norm_num⟩⟩,
    (box_sits_over_plane 0 0 0 ⟨by norm_num, by norm_num⟩ ⟨by norm_num, by norm_num⟩
      [] [] ⟨fun _ => 0, 0⟩).1⟩



/-! ## Coverage of the rotated footprint -/

/-- Every offset `u` in `[0, 1]` is within `0.05` of a grid offset `a / 10`, `a ≤ 10`. -/
theorem exists_grid_offset (u : ℝ) (h0 : 0 ≤ u) (h1 : u ≤ 1) :
    ∃ a : ℕ, a < 11 ∧ (u - (a : ℝ) / 10) ^ 2 ≤ (1 / 20) ^ 2 := by
  have hfl := Int.floor_le (10 * u + 1 / 2)
  have hlt := Int.lt_floor_add_one (10 * u + 1 / 2)
  have hnn : 0 ≤ ⌊10 * u + 1 / 2⌋ := Int.floor_nonneg.mpr (by linarith)
  have hub : ⌊10 * u + 1 / 2⌋ < 11 := Int.floor_lt.mpr (by push_cast; linarith)
  refine ⟨⌊10 * u + 1 / 2⌋.toNat, by omega, ?_⟩
  have hcast : ((⌊10 * u + 1 / 2⌋.toNat : ℕ) : ℝ) = ((⌊10 * u + 1 / 2⌋ : ℤ) : ℝ) := by
    have := Int.toNat_of_nonneg hnn
    exact_mod_cast this
  rw [hcast]
  have hd1 : u - ((⌊10 * u + 1 / 2⌋ : ℤ) : ℝ) / 10 ≤ 1 / 20 := by linarith
  have hd2 : -(1 / 20) ≤ u - ((⌊10 * u + 1 / 2⌋ : ℤ) : ℝ) / 10 := by linarith
  nlinarith

theorem plane_point_z {K : Type} [LinearOrderedField K] [FloorRing K] (seed : Engine K)
    (p : PointXYZ K) (hp : p ∈ (Generate.new seed).msg_plane) : p.z = 0 := by
  rw [new_msg_plane, List.mem_map] at hp
  obtain ⟨t, _, rfl⟩ := hp
  rfl

theorem origin_mem_plane {K : Type} [LinearOrderedField K] [FloorRing K] (seed : Engine K) :
    (⟨0, 0, 0⟩ : PointXYZ K) ∈ (Generate.new seed).msg_plane := by
  rw [new_msg_plane, List.mem_map]
  refine ⟨(50, 50), (mem_planeIdx _).mpr ⟨by decide, by decide⟩, ?_⟩
  simp only [planePoint]
  norm_num

theorem not_mem_extractNegative_of_near {K : Type} [LinearOrderedField K]
    (plane ring : PointCloud K) (p r : PointXYZ K) (hr : r ∈ ring)
    (hd : sqrDist p r ≤ 0.09 ^ 2) : p ∉ extractNegative plane (inliers plane ring) := by
  rw [extractNegative_inliers, List.mem_filter]
  rintro ⟨_, h⟩
  have hn : nearRing ring p = true := (nearRing_iff _ _).mpr ⟨r, hr, hd⟩
  rw [hn] at h
  simp at h

/-- Footprint coverage for rotated boxes in exact arithmetic, over the reals (the machine
result at the pose `(1, 1, 0)` is in the IEEE model).  For every pose, a point
`p` of the plane that lies in the rotated footprint square, i.e. `p` is the image
`(x + u cos yaw - v sin yaw, y + u sin yaw + v cos yaw)` of a point `(x + u, y + v)` with
`u`, `v` in `[0, 1]`, has a footprint-ring point within distance `0.09`, is not in the
plane part of `merged` (the negative extraction) and not in `merged` at all. -/
theorem rotated_footprint_covered (x y yaw u v : ℝ) (hu : 0 ≤ u ∧ u ≤ 1)
    (hv : 0 ≤ v ∧ v ≤ 1) (seed : Engine ℝ) (p : PointXYZ ℝ)
    (hp : p ∈ (Generate.new seed).msg_plane)
    (hpx : p.x = x + u * Real.cos yaw - v * Real.sin yaw)
    (hpy : p.y = y + u * Real.sin yaw + v * Real.cos yaw) :
    (∃ r ∈ layer1 (generate_box Real.cos Real.sin x y yaw (Generate.new seed)).msg_box,
        sqrDist p r ≤ 0.09 ^ 2)
      ∧ p ∉ extractNegative (generate_box Real.cos Real.sin x y yaw (Generate.new seed)).msg_plane
          (inliers (generate_box Real.cos Real.sin x y yaw (Generate.new seed)).msg_plane
            (layer1 (generate_box Real.cos Real.sin x y yaw (Generate.new seed)).msg_box))
      ∧ p ∉ (merging_both (generate_box Real.cos Real.sin x y yaw (Generate.new seed))).merged := by
  obtain ⟨a, ha, hda⟩ := exists_grid_offset u hu.1 hu.2
  obtain ⟨b, hb, hdb⟩ := exists_grid_offset v hv.1 hv.2
  have hz : p.z = 0 := plane_point_z seed p hp
  have hbox := (first_box_state Real.cos Real.sin x y yaw seed).1
  have hr : boxPointIdx Real.cos Real.sin x y yaw (a, b, 0)
      ∈ layer1 (generate_box Real.cos Real.sin x y yaw (Generate.new seed)).msg_box := by
    rw [hbox, layer1_box]
    exact List.mem_map.mpr ⟨(a, b, 0), (mem_ringIdx _).mpr ⟨ha, hb, rfl⟩, rfl⟩
  have hd : sqrDist p (boxPointIdx Real.cos Real.sin x y yaw (a, b, 0)) ≤ 0.09 ^ 2 := by
    have e : sqrDist p (boxPointIdx Real.cos Real.sin x y yaw (a, b, 0))
        = (u - (a : ℝ) / 10) ^ 2 + (v - (b : ℝ) / 10) ^ 2 := by
      simp only [sqrDist, boxPointIdx, boxPoint, hpx, hpy, hz]
      have h := Real.cos_sq_add_sin_sq yaw
      push_cast
      linear_combination ((u - (a : ℝ) / 10) ^ 2 + (v - (b : ℝ) / 10) ^ 2) * h
    rw [e]
    norm_num at hda hdb ⊢
    linarith
  refine ⟨⟨_, hr, hd⟩, not_mem_extractNegative_of_near _ _ p _ hr hd, ?_⟩
  rw [merging_both_merged, List.mem_append]
  rintro (h | h)
  · unfold passThrough at h
    have h2 := (List.mem_filter.mp h).2
    rw [hz] at h2
    norm_num at h2
  · have h2 := (List.mem_filter.mp h).2
    have hn : nearRing (layer1 (generate_box Real.cos Real.sin x y yaw (Generate.new seed)).msg_box)
        p = true := (nearRing_iff _ _).mpr ⟨_, hr, hd⟩
    rw [hn] at h2
    simp at h2

/-- An instance of `rotated_footprint_covered`: the plane point `(0, 0, 0)` under the
corner of the box at the pose
`(0, 0, 0)`. -/
theorem rotated_footprint_covered_witness :
    ((0 : ℝ) ≤ 0 ∧ (0 : ℝ) ≤ 1)
      ∧ (⟨0, 0, 0⟩ : PointXYZ ℝ) ∈ (Generate.new (⟨fun _ => 0, 0⟩ : Engine ℝ)).msg_plane
      ∧ (⟨0, 0, 0⟩ : PointXYZ ℝ) ∉ (merging_both (generate_box Real.cos Real.sin 0 0 0
            (Generate.new (⟨fun _ => 0, 0⟩ : Engine ℝ)))).merged :=
  ⟨⟨le_refl 0, zero_le_one⟩, origin_mem_plane _,
    (rotated_footprint_covered 0 0 0 0 0 ⟨le_refl 0, zero_le_one⟩ ⟨le_refl 0, zero_le_one⟩
      ⟨fun _ => 0, 0⟩ ⟨0, 0, 0⟩ (origin_mem_plane _) (by simp) (by simp)).2.2⟩

/-! ## IEEE model: loops -/

namespace IEEE

theorem ieee_stepValues_mono (m : ℕ) :
    ∀ (fuel : ℕ) (lo hi : ℚ) (vs : List ℚ), stepValues fuel lo hi = some vs →
      stepValues (fuel + m) lo hi = some vs := by
  intro fuel
  induction fuel with
  | zero => intro lo hi vs h; simp [stepValues] at h
  | succ fuel ih =>
    intro lo hi vs h
    rw [Nat.add_right_comm]
    unfold stepValues at h ⊢
    by_cases hle : lo ≤ hi
    · simp only [hle, if_true] at h ⊢
      cases hrec : stepValues fuel (fadd lo (toDouble 0.1)) hi with
      | none => rw [hrec] at h; simp at h
      | some ws =>
        rw [hrec] at h
        rw [ih _ _ _ hrec]
        exact h
    · simp only [hle, if_false] at h ⊢
      exact h

/-- A loop whose body always succeeds folds the body over the loop values. -/
theorem ieee_forStep_eq_foldl {σ : Type} (body : ℚ → σ → Option σ) (g : ℚ → σ → σ)
    (hbody : ∀ v s, body v s = some (g v s)) :
    ∀ (fuel : ℕ) (lo hi : ℚ) (vs : List ℚ) (s : σ), stepValues fuel lo hi = some vs →
      forStep fuel lo hi body s = some (vs.foldl (fun s v => g v s) s) := by
  intro fuel
  induction fuel with
  | zero => intro lo hi vs s h; simp [stepValues] at h
  | succ fuel ih =>
    intro lo hi vs s h
    unfold stepValues at h
    unfold forStep
    by_cases hle : lo ≤ hi
    · simp only [hle, if_true] at h ⊢
      cases hrec : stepValues fuel (fadd lo (toDouble 0.1)) hi with
      | none => rw [hrec] at h; simp at h
      | some ws =>
        rw [hrec] at h
        simp only [Option.map_some', Option.some.injEq] at h
        subst h
        rw [hbody, Option.some_bind, ih _ _ _ _ hrec, List.foldl_cons]
    · simp only [hle, if_false] at h ⊢
      simp only [Option.some.injEq] at h
      subst h
      rfl

theorem ieee_boxBody_eq (cos sin : ℚ → ℚ) (x y yaw i j k : ℚ) (cloud : PointCloud ℚ) :
    boxBody cos sin x y yaw i j k cloud
      = cloud ++ (if onSurface x y (i, j, k) then [boxPoint cos sin x y yaw i j k] else []) := by
  unfold boxBody onSurface
  by_cases h1 : (dbeq k 0 (toDouble 0.1) || dbeq k 1 (toDouble 0.1)) = true
  · simp [h1]
  · by_cases h2 : (dbeq i (fadd x 0) (toDouble 0.1) || dbeq i (fadd x 1) (toDouble 0.1)) = true
    · simp [h1, h2]
    · by_cases h3 : (dbeq j (fadd y 0) (toDouble 0.1) || dbeq j (fadd y 1) (toDouble 0.1)) = true
      · simp [h1, h2, h3]
      · simp [h1, h2, h3]

/-- The generated box in closed form, given the values of the three loops. -/
theorem ieee_generate_box_closed (fuel : ℕ) (cos sin : ℚ → ℚ) (x y yaw : ℚ) (st : Generate ℚ)
    (ks is js : List ℚ) (hk : stepValues fuel (toDouble 0.0) 1 = some ks)
    (hi : stepValues fuel (fadd x 0) (fadd x 1) = some is)
    (hj : stepValues fuel (fadd y 0) (fadd y 1) = some js) :
    generate_box fuel cos sin x y yaw st
      = some { st with
          msg_box := st.msg_box ++ ((visited ks is js).filter (onSurface x y)).map
            fun t => boxPoint cos sin x y yaw t.1 t.2.1 t.2.2 } := by
  unfold generate_box
  have hinner : ∀ (k i : ℚ) (cloud : PointCloud ℚ),
      forStep fuel (fadd y 0) (fadd y 1)
          (fun j cloud => some (boxBody cos sin x y yaw i j k cloud)) cloud
        = some (js.foldl (fun c j => boxBody cos sin x y yaw i j k c) cloud) :=
    fun k i cloud => ieee_forStep_eq_foldl _ (fun j c => boxBody cos sin x y yaw i j k c)
      (fun _ _ => rfl) fuel _ _ js cloud hj
  have hmid : ∀ (k : ℚ) (cloud : PointCloud ℚ),
      forStep fuel (fadd x 0) (fadd x 1) (fun i cloud =>
          forStep fuel (fadd y 0) (fadd y 1)
            (fun j cloud => some (boxBody cos sin x y yaw i j k cloud)) cloud) cloud
        = some (is.foldl (fun c i =>
            js.foldl (fun c j => boxBody cos sin x y yaw i j k c) c) cloud) :=
    fun k cloud => ieee_forStep_eq_foldl _
      (fun i c => js.foldl (fun c j => boxBody cos sin x y yaw i j k c) c)
      (fun i c => hinner k i c) fuel _ _ is cloud hi
  rw [ieee_forStep_eq_foldl _
    (fun k c => is.foldl (fun c i =>
      js.foldl (fun c j => boxBody cos sin x y yaw i j k c) c) c)
    (fun k c => hmid k c) fuel _ _ ks st.msg_box hk]
  simp only [Option.map_some', ieee_boxBody_eq, foldl_append_flatMap]
  rw [← flatMap_ite_singleton]
  simp only [visited, List.flatMap_assoc, List.flatMap_map]

/-! ## IEEE model: the box at the poses `(0, 0)`, `(1, 1)` and `(100, 100)` -/

theorem ieee_zeroSteps : stepValues 12 (toDouble 0.0) 1 = some zeroSteps := by decide!

theorem ieee_zeroSteps_pose : stepValues 12 (fadd 0 0) (fadd 0 1) = some zeroSteps := by
  decide!

theorem ieee_unitSteps : stepValues 12 (fadd 1 0) (fadd 1 1) = some unitSteps := by decide!

theorem ieee_hundredSteps : stepValues 12 (fadd 100 0) (fadd 100 1) = some hundredSteps := by
  decide!

theorem ieee_flags_zero :
    zeroSteps.map (faceFlag 0 1)
      = [true, false, false, false, false, false, false, false, false, false, true] := by
  decide!

theorem ieee_flags_zero_pose :
    zeroSteps.map (faceFlag (fadd 0 0) (fadd 0 1))
      = [true, false, false, false, false, false, false, false, false, false, true] := by
  decide!

theorem ieee_flags_unit :
    unitSteps.map (faceFlag (fadd 1 0) (fadd 1 1))
      = [true, false, false, false, false, false, false, false, false, true] := by
  decide!

theorem ieee_flags_hundred :
    hundredSteps.map (faceFlag (fadd 100 0) (fadd 100 1))
      = [true, true, false, false, false, false, false, false, false, false, true] := by
  decide!

theorem ieee_flags_kept :
    zeroSteps.map keptFlag
      = [false, true, true, true, true, true, true, true, true, true, true] := by
  decide!

theorem ieee_countP_visited {α : Type} (F : α → Bool → Bool → Bool) (A : ℚ → α)
    (B C : ℚ → Bool) (ks is js : List ℚ) :
    (visited ks is js).countP (fun t => F (A t.2.2) (B t.1) (C t.2.1))
      = countFlags F (ks.map A) (is.map B) (js.map C) := by
  unfold countFlags visited
  rw [List.count_eq_countP]
  simp only [List.countP_flatMap, List.countP_map, List.map_map, Function.comp_def,
    beq_true]

theorem ieee_length_surface (x y : ℚ) (ks is js : List ℚ) :
    ((visited ks is js).filter (onSurface x y)).length
      = countFlags (fun a b c => a || (b || c)) (ks.map (faceFlag 0 1))
          (is.map (faceFlag (fadd x 0) (fadd x 1))) (js.map (faceFlag (fadd y 0) (fadd y 1))) := by
  rw [← List.countP_eq_length_filter]
  exact ieee_countP_visited (fun a b c => a || (b || c)) (faceFlag 0 1)
    (faceFlag (fadd x 0) (fadd x 1)) (faceFlag (fadd y 0) (fadd y 1)) ks is js

theorem ieee_generate_box_length (fuel : ℕ) (cos sin : ℚ → ℚ) (x y yaw : ℚ)
    (plane merged : PointCloud ℚ) (g : Engine ℚ) (ks is js : List ℚ)
    (hk : stepValues fuel (toDouble 0.0) 1 = some ks)
    (hi : stepValues fuel (fadd x 0) (fadd x 1) = some is)
    (hj : stepValues fuel (fadd y 0) (fadd y 1) = some js) :
    (generate_box fuel cos sin x y yaw ⟨plane, [], merged, g⟩).map
        (fun st => st.msg_box.length)
      = some (countFlags (fun a b c => a || (b || c)) (ks.map (faceFlag 0 1))
          (is.map (faceFlag (fadd x 0) (fadd x 1)))
          (js.map (faceFlag (fadd y 0) (fadd y 1)))) := by
  rw [ieee_generate_box_closed fuel cos sin x y yaw _ ks is js hk hi hj]
  simp only [Option.map_some', List.nil_append, List.length_map, ieee_length_surface]

/-- C13 (evaluation of the code on doubles): at `x = 1` the `i` loop takes 10 steps and
stops at `1.9000000000000008`, and that value, one step inside the face `x + 1 = 2`,
passes `dbeq(i, x + 1)`; so `generate_box (1, 1, yaw)` emits 524 points, not the 602 of
the index shell that it emits at `(0, 0, yaw)`.  At `x = 100` the second loop value
`100.1` passes `dbeq(i, x + 0)` and `generate_box (100, 100, yaw)` emits 755 points. -/
theorem ieee_generate_box_not_index_shell (cos sin : ℚ → ℚ) (yaw : ℚ)
    (plane merged : PointCloud ℚ) (g : Engine ℚ) (m : ℕ) :
    stepValues (12 + m) (fadd 1 0) (fadd 1 1) = some unitSteps
      ∧ dbeq (4278419646001973 / 2251799813685248) (fadd 1 1) (toDouble 0.1) = true
      ∧ dbeq (3521955646092083 / 35184372088832) (fadd 100 0) (toDouble 0.1) = true
      ∧ (generate_box (12 + m) cos sin 1 1 yaw ⟨plane, [], merged, g⟩).map
          (fun st => st.msg_box.length) = some 524
      ∧ (generate_box (12 + m) cos sin 0 0 yaw ⟨plane, [], merged, g⟩).map
          (fun st => st.msg_box.length) = some 602
      ∧ (generate_box (12 + m) cos sin 100 100 yaw ⟨plane, [], merged, g⟩).map
          (fun st => st.msg_box.length) = some 755 := by
  have hk := ieee_stepValues_mono m 12 _ _ _ ieee_zeroSteps
  have h0 := ieee_stepValues_mono m 12 _ _ _ ieee_zeroSteps_pose
  have h1 := ieee_stepValues_mono m 12 _ _ _ ieee_unitSteps
  have h100 := ieee_stepValues_mono m 12 _ _ _ ieee_hundredSteps
  refine ⟨h1, by decide!, by decide!, ?_, ?_, ?_⟩
  · rw [ieee_generate_box_length _ cos sin 1 1 yaw plane merged g _ _ _ hk h1 h1,
      ieee_flags_zero, ieee_flags_unit]
    decide!
  · rw [ieee_generate_box_length _ cos sin 0 0 yaw plane merged g _ _ _ hk h0 h0,
      ieee_flags_zero, ieee_flags_zero_pose]
    decide!
  · rw [ieee_generate_box_length _ cos sin 100 100 yaw plane merged g _ _ _ hk h100 h100,
      ieee_flags_zero, ieee_flags_hundred]
    decide!

/-! ## IEEE model: step 1 of the merge on the generated box -/

theorem ieee_passThrough_box (cos sin : ℚ → ℚ) (x y yaw : ℚ) (negative : Bool)
    (l : List (ℚ × ℚ × ℚ)) :
    passThrough (l.map fun t => boxPoint cos sin x y yaw t.1 t.2.1 t.2.2)
        (toFloat (toDouble 0.1)) (toFloat (toDouble 1.0)) negative
      = (l.filter fun t => if negative then !keptFlag t.2.2 else keptFlag t.2.2).map
          fun t => boxPoint cos sin x y yaw t.1 t.2.1 t.2.2 := by
  unfold passThrough
  rw [List.filter_map]
  congr 1

theorem ieee_length_split (x y : ℚ) (negative : Bool) (ks is js : List ℚ) :
    (((visited ks is js).filter (onSurface x y)).filter fun t =>
        if negative then !keptFlag t.2.2 else keptFlag t.2.2).length
      = countFlags (fun (a : Bool × Bool) b c => (if negative then !a.2 else a.2)
            && (a.1 || (b || c)))
          (ks.map fun k => (faceFlag 0 1 k, keptFlag k))
          (is.map (faceFlag (fadd x 0) (fadd x 1))) (js.map (faceFlag (fadd y 0) (fadd y 1))) := by
  rw [List.filter_filter, ← List.countP_eq_length_filter]
  exact ieee_countP_visited
    (fun (a : Bool × Bool) b c => (if negative then !a.2 else a.2) && (a.1 || (b || c)))
    (fun k => (faceFlag 0 1 k, keptFlag k))
    (faceFlag (fadd x 0) (fadd x 1)) (faceFlag (fadd y 0) (fadd y 1)) ks is js

theorem ieee_flags_zero_kept :
    zeroSteps.map (fun k => (faceFlag 0 1 k, keptFlag k))
      = [(true, false), (false, true), (false, true), (false, true), (false, true),
          (false, true), (false, true), (false, true), (false, true), (false, true),
          (true, true)] := by
  decide!

theorem ieee_split_lengths (fuel : ℕ) (cos sin : ℚ → ℚ) (x y yaw : ℚ)
    (plane merged : PointCloud ℚ) (g : Engine ℚ) (ks is js : List ℚ)
    (hk : stepValues fuel (toDouble 0.0) 1 = some ks)
    (hi : stepValues fuel (fadd x 0) (fadd x 1) = some is)
    (hj : stepValues fuel (fadd y 0) (fadd y 1) = some js) :
    (generate_box fuel cos sin x y yaw ⟨plane, [], merged, g⟩).map
        (fun st => ((layer1 st.msg_box).length, (merging_both st).msg_box.length))
      = some
          (countFlags (fun (a : Bool × Bool) b c => (!a.2) && (a.1 || (b || c)))
            (ks.map fun k => (faceFlag 0 1 k, keptFlag k))
            (is.map (faceFlag (fadd x 0) (fadd x 1)))
            (js.map (faceFlag (fadd y 0) (fadd y 1))),
          countFlags (fun (a : Bool × Bool) b c => a.2 && (a.1 || (b || c)))
            (ks.map fun k => (faceFlag 0 1 k, keptFlag k))
            (is.map (faceFlag (fadd x 0) (fadd x 1)))
            (js.map (faceFlag (fadd y 0) (fadd y 1)))) := by
  rw [ieee_generate_box_closed fuel cos sin x y yaw _ ks is js hk hi hj]
  simp only [Option.map_some', List.nil_append, Option.some.injEq, Prod.mk.injEq]
  constructor
  · unfold layer1
    rw [ieee_passThrough_box, List.length_map]
    exact ieee_length_split x y true ks is js
  · have h : ∀ st : Generate ℚ, (merging_both st).msg_box
        = passThrough st.msg_box (toFloat (toDouble 0.1)) (toFloat (toDouble 1.0)) false :=
      fun _ => rfl
    rw [h, ieee_passThrough_box, List.length_map]
    exact ieee_length_split x y false ks is js

/-- C14 (evaluation of the code on doubles): for the box generated at `(1, 1, yaw)` the
footprint ring of step 1 has 100 points and the kept box 424, not 121 and 481; for the box
generated at `(100, 100, yaw)` they have 121 and 634 points. -/
theorem ieee_box_split_not_121_481 (cos sin : ℚ → ℚ) (yaw : ℚ)
    (plane merged : PointCloud ℚ) (g : Engine ℚ) (m : ℕ) :
    (generate_box (12 + m) cos sin 1 1 yaw ⟨plane, [], merged, g⟩).map
        (fun st => ((layer1 st.msg_box).length, (merging_both st).msg_box.length))
        = some (100, 424)
      ∧ (generate_box (12 + m) cos sin 100 100 yaw ⟨plane, [], merged, g⟩).map
        (fun st => ((layer1 st.msg_box).length, (merging_both st).msg_box.length))
        = some (121, 634) := by
  have hk := ieee_stepValues_mono m 12 _ _ _ ieee_zeroSteps
  have h1 := ieee_stepValues_mono m 12 _ _ _ ieee_unitSteps
  have h100 := ieee_stepValues_mono m 12 _ _ _ ieee_hundredSteps
  constructor
  · rw [ieee_split_lengths _ cos sin 1 1 yaw plane merged g _ _ _ hk h1 h1,
      ieee_flags_zero_kept, ieee_flags_unit]
    decide!
  · rw [ieee_split_lengths _ cos sin 100 100 yaw plane merged g _ _ _ hk h100 h100,
      ieee_flags_zero_kept, ieee_flags_hundred]
    decide!

/-! ## IEEE model: the rounding error -/

theorem ieee_pow2_eq (k : ℤ) : pow2 k = (2 : ℚ) ^ k := by
  unfold pow2
  split_ifs with h
  · obtain ⟨n, rfl⟩ := Int.eq_ofNat_of_zero_le h
    simp
  · push_neg at h
    obtain ⟨n, hn⟩ := Int.eq_ofNat_of_zero_le (show 0 ≤ -k by omega)
    have hk : k = -(n : ℤ) := by omega
    subst hk
    simp

theorem ieee_pow2_pos (k : ℤ) : 0 < pow2 k := by
  rw [ieee_pow2_eq]
  positivity

theorem ieee_log2Aux_bounds (fuel : ℕ) :
    ∀ n : ℕ, n ≤ fuel → n ≠ 0 → 2 ^ log2Aux fuel n ≤ n ∧ n < 2 ^ (log2Aux fuel n + 1) := by
  induction fuel with
  | zero => intro n h h0; omega
  | succ fuel ih =>
    intro n h h0
    unfold log2Aux
    split_ifs with h2
    · have hh := ih (n / 2) (by omega) (by omega)
      obtain ⟨ha, hb⟩ := hh
      rw [pow_succ] at hb ⊢
      constructor
      · omega
      · rw [pow_succ]
        omega
    · simp
      omega

theorem ieee_natLog2_bounds (n : ℕ) (h0 : n ≠ 0) :
    2 ^ natLog2 n ≤ n ∧ n < 2 ^ (natLog2 n + 1) :=
  ieee_log2Aux_bounds n n (le_refl n) h0

theorem ieee_pow2_ilog2_le (q : ℚ) (h0 : q ≠ 0) : pow2 (ilog2 q) ≤ |q| := by
  unfold ilog2
  split_ifs with h
  · exact h
  · have hn : q.num.natAbs ≠ 0 := by
      rw [Ne, Int.natAbs_eq_zero, Rat.num_eq_zero]
      exact h0
    obtain ⟨ha, _⟩ := ieee_natLog2_bounds q.num.natAbs hn
    obtain ⟨_, hb⟩ := ieee_natLog2_bounds q.den q.den_nz
    have hq : |q| = (q.num.natAbs : ℚ) / (q.den : ℚ) := by
      rw [← Rat.num_div_den q, abs_div, Rat.num_div_den]
      congr 1
      · rw [Nat.cast_natAbs, Int.cast_abs]
      · simp
    rw [hq, ieee_pow2_eq, le_div_iff₀ (by exact_mod_cast Nat.pos_of_ne_zero q.den_nz)]
    have ha' : (2 : ℚ) ^ natLog2 q.num.natAbs ≤ (q.num.natAbs : ℚ) := by exact_mod_cast ha
    have hb' : (q.den : ℚ) ≤ (2 : ℚ) ^ (natLog2 q.den + 1) := by exact_mod_cast hb.le
    have e : (2 : ℚ) ^ ((natLog2 q.num.natAbs : ℤ) - (natLog2 q.den : ℤ) - 1)
        * (2 : ℚ) ^ (natLog2 q.den + 1) = (2 : ℚ) ^ natLog2 q.num.natAbs := by
      rw [← zpow_natCast (2 : ℚ) (natLog2 q.den + 1), ← zpow_add₀ (by norm_num),
        ← zpow_natCast (2 : ℚ) (natLog2 q.num.natAbs)]
      congr 1
      push_cast
      ring
    calc (2 : ℚ) ^ ((natLog2 q.num.natAbs : ℤ) - (natLog2 q.den : ℤ) - 1) * (q.den : ℚ)
        ≤ (2 : ℚ) ^ ((natLog2 q.num.natAbs : ℤ) - (natLog2 q.den : ℤ) - 1)
            * (2 : ℚ) ^ (natLog2 q.den + 1) :=
          mul_le_mul_of_nonneg_left hb' (by positivity)
      _ = (2 : ℚ) ^ natLog2 q.num.natAbs := e
      _ ≤ (q.num.natAbs : ℚ) := ha'

theorem ieee_roundHalfEven_err (t : ℚ) : |((roundHalfEven t : ℤ) : ℚ) - t| ≤ 1 / 2 := by
  have h1 : (⌊t⌋ : ℚ) ≤ t := Int.floor_le t
  have h2 : t < (⌊t⌋ : ℚ) + 1 := Int.lt_floor_add_one t
  unfold roundHalfEven
  rw [abs_le]
  split_ifs with a b c
  · constructor <;> linarith
  · push_cast
    constructor <;> linarith
  · constructor <;> linarith
  · push_cast
    constructor <;> linarith

theorem ieee_rne_err (prec : ℕ) (emin : ℤ) (q : ℚ) :
    |rne prec emin q - q| ≤ |q| * (2 : ℚ) ^ (-(prec : ℤ)) + (2 : ℚ) ^ (emin - (prec : ℤ)) := by
  unfold rne
  split_ifs with h0
  · subst h0
    simp only [sub_zero, abs_zero, zero_mul, zero_add]
    positivity
  · have hu := ieee_pow2_pos (max (ilog2 q) emin - ((prec : ℤ) - 1))
    have hr := ieee_roundHalfEven_err (q / pow2 (max (ilog2 q) emin - ((prec : ℤ) - 1)))
    have hmul : |((roundHalfEven (q / pow2 (max (ilog2 q) emin - ((prec : ℤ) - 1))) : ℤ) : ℚ)
          * pow2 (max (ilog2 q) emin - ((prec : ℤ) - 1)) - q|
        ≤ 1 / 2 * pow2 (max (ilog2 q) emin - ((prec : ℤ) - 1)) := by
      have e : ((roundHalfEven (q / pow2 (max (ilog2 q) emin - ((prec : ℤ) - 1))) : ℤ) : ℚ)
            * pow2 (max (ilog2 q) emin - ((prec : ℤ) - 1)) - q
          = (((roundHalfEven (q / pow2 (max (ilog2 q) emin - ((prec : ℤ) - 1))) : ℤ) : ℚ)
              - q / pow2 (max (ilog2 q) emin - ((prec : ℤ) - 1)))
            * pow2 (max (ilog2 q) emin - ((prec : ℤ) - 1)) := by
        field_simp
      rw [e, abs_mul, abs_of_pos hu]
      exact mul_le_mul_of_nonneg_right hr hu.le
    refine le_trans hmul ?_
    have hhalf : ∀ k : ℤ, 1 / 2 * pow2 (k - ((prec : ℤ) - 1)) = (2 : ℚ) ^ (k - (prec : ℤ)) := by
      intro k
      rw [ieee_pow2_eq, show k - ((prec : ℤ) - 1) = (k - (prec : ℤ)) + 1 by ring,
        zpow_add_one₀ (by norm_num)]
      ring
    rw [hhalf]
    rcases le_total (ilog2 q) emin with hle | hle
    · rw [max_eq_right hle]
      have : 0 ≤ |q| * (2 : ℚ) ^ (-(prec : ℤ)) := by positivity
      linarith
    · rw [max_eq_left hle]
      have hp := ieee_pow2_ilog2_le q h0
      rw [ieee_pow2_eq] at hp
      have e : (2 : ℚ) ^ (ilog2 q - (prec : ℤ)) = (2 : ℚ) ^ ilog2 q * (2 : ℚ) ^ (-(prec : ℤ)) := by
        rw [← zpow_add₀ (by norm_num)]
        congr 1
      rw [e]
      have h1 : (2 : ℚ) ^ ilog2 q * (2 : ℚ) ^ (-(prec : ℤ)) ≤ |q| * (2 : ℚ) ^ (-(prec : ℤ)) :=
        mul_le_mul_of_nonneg_right hp (by positivity)
      have h2 : (0 : ℚ) < (2 : ℚ) ^ (emin - (prec : ℤ)) := by positivity
      linarith

theorem ieee_toDouble_err (q : ℚ) : |toDouble q - q| ≤ |q| / 2 ^ 53 + 1 / 2 ^ 1075 := by
  have h := ieee_rne_err 53 (-1022) q
  have e1 : (2 : ℚ) ^ (-((53 : ℕ) : ℤ)) = 1 / 2 ^ 53 := by
    rw [zpow_neg, zpow_natCast, one_div]
  have e2 : (2 : ℚ) ^ ((-1022 : ℤ) - ((53 : ℕ) : ℤ)) = 1 / 2 ^ 1075 := by
    rw [show ((-1022 : ℤ) - ((53 : ℕ) : ℤ)) = -((1075 : ℕ) : ℤ) by norm_num, zpow_neg,
      zpow_natCast, one_div]
  rw [e1, e2] at h
  unfold toDouble
  rw [div_eq_mul_one_div]
  exact h

theorem ieee_toFloat_err (q : ℚ) : |toFloat q - q| ≤ |q| / 2 ^ 24 + 1 / 2 ^ 150 := by
  have h := ieee_rne_err 24 (-126) q
  have e1 : (2 : ℚ) ^ (-((24 : ℕ) : ℤ)) = 1 / 2 ^ 24 := by
    rw [zpow_neg, zpow_natCast, one_div]
  have e2 : (2 : ℚ) ^ ((-126 : ℤ) - ((24 : ℕ) : ℤ)) = 1 / 2 ^ 150 := by
    rw [show ((-126 : ℤ) - ((24 : ℕ) : ℤ)) = -((150 : ℕ) : ℤ) by norm_num, zpow_neg,
      zpow_natCast, one_div]
  rw [e1, e2] at h
  unfold toFloat
  rw [div_eq_mul_one_div]
  exact h

/-! ## IEEE model: a lower bound of the float distance -/

theorem ieee_rne_nonneg (prec : ℕ) (emin : ℤ) (q : ℚ) (h : 0 ≤ q) : 0 ≤ rne prec emin q := by
  unfold rne
  split_ifs with h0
  · exact le_refl 0
  · have hu := ieee_pow2_pos (max (ilog2 q) emin - ((prec : ℤ) - 1))
    have ht : 0 ≤ q / pow2 (max (ilog2 q) emin - ((prec : ℤ) - 1)) := div_nonneg h hu.le
    have hf : 0 ≤ ⌊q / pow2 (max (ilog2 q) emin - ((prec : ℤ) - 1))⌋ := Int.floor_nonneg.mpr ht
    have hr : 0 ≤ roundHalfEven (q / pow2 (max (ilog2 q) emin - ((prec : ℤ) - 1))) := by
      unfold roundHalfEven
      split_ifs <;> omega
    exact mul_nonneg (by exact_mod_cast hr) hu.le

theorem ieee_toFloat_nonneg (q : ℚ) (h : 0 ≤ q) : 0 ≤ toFloat q :=
  ieee_rne_nonneg 24 (-126) q h

theorem ieee_toFloat_lower (q : ℚ) (h : 0 ≤ q) : q - q / 2 ^ 24 - 1 / 2 ^ 150 ≤ toFloat q := by
  have e := ieee_toFloat_err q
  rw [abs_of_nonneg h] at e
  have := (abs_le.mp e).1
  linarith

theorem ieee_toFloat_abs_lower (q : ℚ) : |q| - |q| / 2 ^ 24 - 1 / 2 ^ 150 ≤ |toFloat q| := by
  have e := ieee_toFloat_err q
  have h := abs_sub_abs_le_abs_sub q (toFloat q)
  rw [abs_sub_comm q (toFloat q)] at h
  linarith

theorem ieee_fmul_zero (a : ℚ) : fmul a 0 = 0 := by
  simp [fmul, toDouble, rne]

theorem ieee_sq_diff_lower (a b : ℚ) (h : 999 / 10000 ≤ |a - b|) :
    997 / 100000 ≤ fmul32 (fsub32 a b) (fsub32 a b) := by
  unfold fsub32
  have h1 := ieee_toFloat_abs_lower (a - b)
  have hf : 9989 / 100000 ≤ |toFloat (a - b)| := by
    have c : |a - b| / 2 ^ 24 ≤ |a - b| / 10000 :=
      div_le_div_of_nonneg_left (abs_nonneg _) (by norm_num) (by norm_num)
    have c2 : (1 : ℚ) / 2 ^ 150 ≤ 1 / 10 ^ 7 :=
      one_div_le_one_div_of_le (by norm_num) (by norm_num)
    linarith
  have hsq : (9989 / 100000 : ℚ) * (9989 / 100000) ≤ toFloat (a - b) * toFloat (a - b) := by
    rw [← abs_mul_abs_self (toFloat (a - b))]
    exact mul_le_mul hf hf (by norm_num) (abs_nonneg _)
  have h2 := ieee_toFloat_lower (toFloat (a - b) * toFloat (a - b)) (mul_self_nonneg _)
  have c3 : toFloat (a - b) * toFloat (a - b) / 2 ^ 24
      ≤ toFloat (a - b) * toFloat (a - b) / 10000 :=
    div_le_div_of_nonneg_left (mul_self_nonneg _) (by norm_num) (by norm_num)
  have c4 : (1 : ℚ) / 2 ^ 150 ≤ 1 / 10 ^ 7 :=
    one_div_le_one_div_of_le (by norm_num) (by norm_num)
  unfold fmul32
  norm_num at hsq c4 ⊢
  linarith

theorem ieee_sq_diff_nonneg (a b : ℚ) : 0 ≤ fmul32 (fsub32 a b) (fsub32 a b) :=
  ieee_toFloat_nonneg _ (mul_self_nonneg _)

theorem ieee_fadd32_lower (s t : ℚ) (hs : 0 ≤ s) (ht : 0 ≤ t) :
    0 ≤ fadd32 s t ∧ s - s / 10000 - 1 / 10 ^ 7 ≤ fadd32 s t
      ∧ t - t / 10000 - 1 / 10 ^ 7 ≤ fadd32 s t := by
  have h0 : 0 ≤ s + t := add_nonneg hs ht
  have h := ieee_toFloat_lower (s + t) h0
  have c : (s + t) / 2 ^ 24 ≤ (s + t) / 10000 :=
    div_le_div_of_nonneg_left h0 (by norm_num) (by norm_num)
  have c2 : (1 : ℚ) / 2 ^ 150 ≤ 1 / 10 ^ 7 :=
    one_div_le_one_div_of_le (by norm_num) (by norm_num)
  have e : (s + t) / 10000 = s / 10000 + t / 10000 := by ring
  unfold fadd32
  refine ⟨ieee_toFloat_nonneg _ h0, ?_, ?_⟩
  · have : 0 ≤ t - t / 10000 := by linarith
    linarith
  · have : 0 ≤ s - s / 10000 := by linarith
    linarith

theorem ieee_radius_sq_lt :
    toFloat (fmul (toFloat (toDouble 0.09)) (toFloat (toDouble 0.09))) < 99 / 10000 := by
  decide!

theorem ieee_sqrDist_lower (p q : PointXYZ ℚ)
    (h : 999 / 10000 ≤ |p.x - q.x| ∨ 999 / 10000 ≤ |p.y - q.y|) :
    99 / 10000 < sqrDist p q := by
  unfold sqrDist
  have nx := ieee_sq_diff_nonneg p.x q.x
  have ny := ieee_sq_diff_nonneg p.y q.y
  have nz := ieee_sq_diff_nonneg p.z q.z
  obtain ⟨a0, a1, a2⟩ := ieee_fadd32_lower 0 (fmul32 (fsub32 p.x q.x) (fsub32 p.x q.x))
    (le_refl 0) nx
  obtain ⟨b0, b1, b2⟩ := ieee_fadd32_lower _ (fmul32 (fsub32 p.y q.y) (fsub32 p.y q.y)) a0 ny
  obtain ⟨c0, c1, c2⟩ := ieee_fadd32_lower _ (fmul32 (fsub32 p.z q.z) (fsub32 p.z q.z)) b0 nz
  rcases h with h | h
  · have hx := ieee_sq_diff_lower p.x q.x h
    linarith
  · have hy := ieee_sq_diff_lower p.y q.y h
    linarith

/-- A point whose `x` or whose `y` is at least `0.0999` away from that of every point of
the ring has no ring point within the radius of the float query. -/
theorem ieee_nearRing_false (ring : PointCloud ℚ) (p : PointXYZ ℚ)
    (h : ∀ q ∈ ring, 999 / 10000 ≤ |p.x - q.x| ∨ 999 / 10000 ≤ |p.y - q.y|) :
    nearRing ring p = false := by
  unfold nearRing
  rw [List.any_eq_false]
  intro q hq
  have h1 := ieee_sqrDist_lower p q (h q hq)
  have h2 := ieee_radius_sq_lt
  rw [decide_eq_true_eq]
  exact not_le.mpr (lt_trans h2 h1)

/-! ## IEEE model: the merge -/

theorem ieee_mem_radiusSearch (cloud : PointCloud ℚ) (q : PointXYZ ℚ) (radius : ℚ) (i : ℕ) :
    i ∈ radiusSearch cloud q radius
      ↔ ∃ p, cloud[i]? = some p ∧ sqrDist p q ≤ toFloat (fmul radius radius) := by
  unfold radiusSearch
  simp only [List.mem_map, List.mem_filter, decide_eq_true_eq, Prod.exists,
    List.mk_mem_enum_iff_getElem?]
  constructor
  · rintro ⟨a, p, ⟨h1, h2⟩, rfl⟩
    exact ⟨p, h1, h2⟩
  · rintro ⟨p, h1, h2⟩
    exact ⟨i, p, ⟨h1, h2⟩, rfl⟩

theorem ieee_inliers_eq_flatMap (plane ring : PointCloud ℚ) :
    inliers plane ring = ring.flatMap fun q => radiusSearch plane q (toFloat (toDouble 0.09)) := by
  unfold inliers
  have step : ∀ (acc : List ℕ) (q : PointXYZ ℚ),
      (let pointIdxRadiusSearch := radiusSearch plane q (toFloat (toDouble 0.09))
       if pointIdxRadiusSearch.length > 0 then acc ++ pointIdxRadiusSearch else acc)
        = acc ++ radiusSearch plane q (toFloat (toDouble 0.09)) := by
    intro acc q
    by_cases h : (radiusSearch plane q (toFloat (toDouble 0.09))).length > 0
    · simp only [h, if_true]
    · have h0 : radiusSearch plane q (toFloat (toDouble 0.09)) = [] := by
        apply List.eq_nil_of_length_eq_zero
        omega
      simp [h0]
  simp only [step]
  rw [foldl_append_flatMap]
  simp

theorem ieee_nearRing_iff (ring : PointCloud ℚ) (p : PointXYZ ℚ) :
    nearRing ring p = true
      ↔ ∃ q ∈ ring, sqrDist p q
          ≤ toFloat (fmul (toFloat (toDouble 0.09)) (toFloat (toDouble 0.09))) := by
  simp [nearRing]

theorem ieee_mem_inliers (plane ring : PointCloud ℚ) (i : ℕ) :
    i ∈ inliers plane ring ↔ ∃ p, plane[i]? = some p ∧ nearRing ring p = true := by
  rw [ieee_inliers_eq_flatMap, List.mem_flatMap]
  simp only [ieee_mem_radiusSearch, ieee_nearRing_iff]
  constructor
  · rintro ⟨q, hq, p, h1, h2⟩
    exact ⟨p, h1, q, hq, h2⟩
  · rintro ⟨p, h1, q, hq, h2⟩
    exact ⟨q, hq, p, h1, h2⟩

theorem ieee_extractNegative_inliers (plane ring : PointCloud ℚ) :
    extractNegative plane (inliers plane ring) = plane.filter fun p => !nearRing ring p := by
  unfold extractNegative
  have h : ∀ ip ∈ plane.enum,
      decide (ip.1 ∉ inliers plane ring) = ((fun p => !nearRing ring p) ∘ Prod.snd) ip := by
    intro ip hip
    have hget : plane[ip.1]? = some ip.2 := List.mem_enum_iff_getElem?.mp hip
    have hiff : ip.1 ∈ inliers plane ring ↔ nearRing ring ip.2 = true := by
      rw [ieee_mem_inliers, hget]
      constructor
      · rintro ⟨p, hp, h⟩
        cases hp
        exact h
      · intro h
        exact ⟨ip.2, rfl, h⟩
    by_cases hn : nearRing ring ip.2 = true
    · simp [hiff, hn]
    · simp [hiff, hn]
  rw [List.filter_congr h, ← List.filter_map, List.enum_map_snd]

theorem ieee_merging_both_merged (st : Generate ℚ) :
    (merging_both st).merged
      = passThrough st.msg_box (toFloat (toDouble 0.1)) (toFloat (toDouble 1.0)) false
          ++ st.msg_plane.filter fun p => !nearRing (layer1 st.msg_box) p := by
  unfold merging_both
  simp only
  rw [ieee_extractNegative_inliers]

/-! ## IEEE model: the plane and the ring at the pose `(1, 1, 0)` -/

theorem ieee_planeSteps : stepValues 102 (toDouble (-5.0)) (toDouble 5.0) = some planeSteps := by
  decide!

theorem ieee_generate_plane_closed (fuel : ℕ) (st : Generate ℚ) (ps : List ℚ)
    (hp : stepValues fuel (toDouble (-5.0)) (toDouble 5.0) = some ps) :
    generate_plane fuel st
      = some { st with
          msg_plane := st.msg_plane ++ ps.flatMap fun i => ps.map fun j =>
            (⟨toFloat i, toFloat j, toFloat (toDouble 0.0)⟩ : PointXYZ ℚ) } := by
  unfold generate_plane
  have hinner : ∀ (i : ℚ) (cloud : PointCloud ℚ),
      forStep fuel (toDouble (-5.0)) (toDouble 5.0) (fun j cloud =>
          some (cloud ++ [(⟨toFloat i, toFloat j, toFloat (toDouble 0.0)⟩ : PointXYZ ℚ)])) cloud
        = some (ps.foldl (fun c j =>
            c ++ [(⟨toFloat i, toFloat j, toFloat (toDouble 0.0)⟩ : PointXYZ ℚ)]) cloud) :=
    fun i cloud => ieee_forStep_eq_foldl _
      (fun j c => c ++ [(⟨toFloat i, toFloat j, toFloat (toDouble 0.0)⟩ : PointXYZ ℚ)])
      (fun _ _ => rfl) fuel _ _ ps cloud hp
  rw [ieee_forStep_eq_foldl _
    (fun i c => ps.foldl (fun c j =>
      c ++ [(⟨toFloat i, toFloat j, toFloat (toDouble 0.0)⟩ : PointXYZ ℚ)]) c)
    (fun i c => hinner i c) fuel _ _ ps st.msg_plane hp]
  simp only [Option.map_some', foldl_append_flatMap, flatMap_singleton_eq_map]

theorem ieee_filter_visited (F : ℚ → Bool) (ks is js : List ℚ) :
    (visited ks is js).filter (fun t => F t.2.2) = visited (ks.filter F) is js := by
  unfold visited
  induction ks with
  | nil => rfl
  | cons k ks ih =>
    rw [List.flatMap_cons, List.filter_append, ih, List.filter_cons]
    by_cases h : F k = true
    · simp only [h, if_true, List.flatMap_cons]
      congr 1
      rw [List.filter_eq_self]
      intro t ht
      simp only [List.mem_flatMap, List.mem_map] at ht
      obtain ⟨i, _, j, _, rfl⟩ := ht
      exact h
    · have hnil : List.filter (fun t : ℚ × ℚ × ℚ => F t.2.2)
          (is.flatMap fun i => List.map (fun j => (i, j, k)) js) = [] := by
        rw [List.filter_eq_nil_iff]
        intro t ht
        simp only [List.mem_flatMap, List.mem_map] at ht
        obtain ⟨i, _, j, _, rfl⟩ := ht
        exact h
      rw [hnil, List.nil_append]
      simp only [h, Bool.false_eq_true, if_false]

theorem ieee_ring_closed (cos sin : ℚ → ℚ) (x y yaw : ℚ) (is js : List ℚ) :
    layer1 (((visited zeroSteps is js).filter (onSurface x y)).map
        fun t => boxPoint cos sin x y yaw t.1 t.2.1 t.2.2)
      = (visited [0] is js).map fun t => boxPoint cos sin x y yaw t.1 t.2.1 t.2.2 := by
  unfold layer1
  rw [ieee_passThrough_box]
  simp only [if_true]
  congr 1
  have hcomm : ((visited zeroSteps is js).filter (onSurface x y)).filter
        (fun t => !keptFlag t.2.2)
      = ((visited zeroSteps is js).filter (fun t => !keptFlag t.2.2)).filter
          (onSurface x y) := by
    rw [List.filter_filter, List.filter_filter]
    apply List.filter_congr
    intro t _
    exact Bool.and_comm _ _
  have hz : zeroSteps.filter (fun k => !keptFlag k) = [0] := by decide!
  have hf : faceFlag 0 1 0 = true := by decide!
  rw [hcomm, ieee_filter_visited (fun k => !keptFlag k), hz, List.filter_eq_self]
  intro t ht
  simp only [visited, List.mem_flatMap, List.mem_map, List.mem_singleton] at ht
  obtain ⟨k, rfl, i, _, j, _, rfl⟩ := ht
  simp only [onSurface]
  have hf' : (dbeq 0 0 (toDouble 0.1) || dbeq 0 1 (toDouble 0.1)) = true := hf
  rw [hf']
  rfl

/-! ## IEEE model: the first slow tick at the pose `(1, 1, 0)` -/

theorem ieee_toFloat_zero : toFloat 0 = 0 := by
  simp [toFloat, rne]

theorem ieee_plane_z : toFloat (toDouble 0.0) = 0 := by decide!

theorem ieee_planeFloats : planeSteps.map toFloat = planeFloats := by decide!

theorem ieee_unitFloats_x : unitSteps.map unitRingX = unitFloats := by decide!

theorem ieee_unitFloats_y : unitSteps.map unitRingY = unitFloats := by decide!

theorem ieee_grid_map (f g : ℚ → ℚ) (z : ℚ) (l1 l2 : List ℚ) :
    (l1.flatMap fun i => l2.map fun j => (⟨f i, g j, z⟩ : PointXYZ ℚ))
      = (l1.map f).flatMap fun a => (l2.map g).map fun b => ⟨a, b, z⟩ := by
  induction l1 with
  | nil => rfl
  | cons i l1 ih =>
    rw [List.flatMap_cons, ih, List.map_cons, List.flatMap_cons, List.map_map]
    rfl

theorem ieee_new_closed (seed : Engine ℚ) (m : ℕ) :
    Generate.new (102 + m) seed = some ⟨planeCloud, [], [], seed⟩ := by
  have hp := ieee_stepValues_mono m 102 _ _ _ ieee_planeSteps
  unfold Generate.new
  rw [ieee_generate_plane_closed _ _ _ hp]
  simp only [List.nil_append, ieee_plane_z]
  rw [ieee_grid_map toFloat toFloat 0, ieee_planeFloats]
  rfl

theorem ieee_unit_ring (cos sin : ℚ → ℚ) (hc : cos 0 = 1) (hs : sin 0 = 0) :
    layer1 (((visited zeroSteps unitSteps unitSteps).filter (onSurface 1 1)).map
        fun t => boxPoint cos sin 1 1 0 t.1 t.2.1 t.2.2) = unitRing := by
  rw [ieee_ring_closed]
  have e : (visited [0] unitSteps unitSteps).map
        (fun t => boxPoint cos sin 1 1 0 t.1 t.2.1 t.2.2)
      = unitSteps.flatMap fun i => unitSteps.map fun j =>
          (⟨unitRingX i, unitRingY j, 0⟩ : PointXYZ ℚ) := by
    simp only [visited, List.flatMap_cons, List.flatMap_nil, List.append_nil, List.map_flatMap,
      List.map_map, Function.comp_def, boxPoint, hc, hs, ieee_fmul_zero, ieee_toFloat_zero,
      unitRingX, unitRingY]
  rw [e, ieee_grid_map unitRingX unitRingY 0, ieee_unitFloats_x, ieee_unitFloats_y]
  rfl

theorem ieee_mem_unitRing (q : PointXYZ ℚ) :
    q ∈ unitRing ↔ ∃ u ∈ unitFloats, ∃ v ∈ unitFloats, q = ⟨u, v, 0⟩ := by
  unfold unitRing
  simp only [List.mem_flatMap, List.mem_map]
  constructor
  · rintro ⟨u, hu, v, hv, rfl⟩
    exact ⟨u, hu, v, hv, rfl⟩
  · rintro ⟨u, hu, v, hv, rfl⟩
    exact ⟨u, hu, v, hv, rfl⟩

theorem ieee_mem_planeCloud (p : PointXYZ ℚ) :
    p ∈ planeCloud ↔ ∃ a ∈ planeFloats, ∃ b ∈ planeFloats, p = ⟨a, b, 0⟩ := by
  unfold planeCloud
  simp only [List.mem_flatMap, List.mem_map]
  constructor
  · rintro ⟨u, hu, v, hv, rfl⟩
    exact ⟨u, hu, v, hv, rfl⟩
  · rintro ⟨u, hu, v, hv, rfl⟩
    exact ⟨u, hu, v, hv, rfl⟩

theorem ieee_unitFloats_bounds : ∀ u ∈ unitFloats, 1 ≤ u ∧ u ≤ 19001 / 10000 := by
  decide!

theorem ieee_farFlag_planeFloats :
    ∀ v ∈ planeFloats, farFlag v = !decide (v ∈ unitFloats) := by
  decide!

theorem ieee_far_of_farFlag (v u : ℚ) (hv : farFlag v = true) (hu : u ∈ unitFloats) :
    999 / 10000 ≤ |v - u| := by
  obtain ⟨h1, h2⟩ := ieee_unitFloats_bounds u hu
  unfold farFlag at hv
  rw [decide_eq_true_eq] at hv
  rcases hv with h | h
  · rw [abs_sub_comm, abs_of_nonneg (by linarith)]
    linarith
  · rw [abs_of_nonneg (by linarith)]
    linarith

theorem ieee_sqrDist_self (p : PointXYZ ℚ) : sqrDist p p = 0 := by
  simp [sqrDist, fsub32, fmul32, fadd32, ieee_toFloat_zero]

theorem ieee_radius_sq_nonneg :
    0 ≤ toFloat (fmul (toFloat (toDouble 0.09)) (toFloat (toDouble 0.09))) := by
  decide!

/-- At the pose `(1, 1, 0)` a plane point has a ring point within the radius exactly when
both its coordinates are among the 10 ring coordinates `unitFloats`. -/
theorem ieee_nearRing_unitRing (a b : ℚ) (ha : a ∈ planeFloats) (hb : b ∈ planeFloats) :
    nearRing unitRing ⟨a, b, 0⟩ = (decide (a ∈ unitFloats) && decide (b ∈ unitFloats)) := by
  by_cases hab : a ∈ unitFloats ∧ b ∈ unitFloats
  · have hmem : (⟨a, b, 0⟩ : PointXYZ ℚ) ∈ unitRing :=
      (ieee_mem_unitRing _).mpr ⟨a, hab.1, b, hab.2, rfl⟩
    have hn : nearRing unitRing ⟨a, b, 0⟩ = true := by
      unfold nearRing
      rw [List.any_eq_true]
      refine ⟨_, hmem, ?_⟩
      rw [decide_eq_true_eq, ieee_sqrDist_self]
      exact ieee_radius_sq_nonneg
    rw [hn]
    simp [hab.1, hab.2]
  · have hfar : farFlag a = true ∨ farFlag b = true := by
      rw [ieee_farFlag_planeFloats a ha, ieee_farFlag_planeFloats b hb]
      by_cases h1 : a ∈ unitFloats
      · right
        have h2 : b ∉ unitFloats := fun h => hab ⟨h1, h⟩
        simp [h2]
      · left
        simp [h1]
    have hn : nearRing unitRing ⟨a, b, 0⟩ = false := by
      apply ieee_nearRing_false
      intro q hq
      obtain ⟨u, hu, v, hv, rfl⟩ := (ieee_mem_unitRing q).mp hq
      rcases hfar with h | h
      · exact Or.inl (ieee_far_of_farFlag a u h hu)
      · exact Or.inr (ieee_far_of_farFlag b v h hv)
    rw [hn]
    by_cases h1 : a ∈ unitFloats
    · have h2 : b ∉ unitFloats := fun h => hab ⟨h1, h⟩
      simp [h2]
    · simp [h1]

theorem ieee_countP_pairs (f : ℚ → Bool) (l1 l2 : List ℚ) :
    (l1.flatMap fun a => l2.map fun b => (⟨a, b, 0⟩ : PointXYZ ℚ)).countP
        (fun p => !(f p.x && f p.y))
      = countPairs (l1.map f) (l2.map f) := by
  unfold countPairs
  rw [List.count_eq_countP]
  simp only [List.countP_flatMap, List.countP_map, List.map_map, Function.comp_def,
    beq_true]

theorem ieee_count_plane_flags :
    countPairs (planeFloats.map fun v => decide (v ∈ unitFloats))
      (planeFloats.map fun v => decide (v ∈ unitFloats)) = 10101 := by
  decide!

/-- At the pose `(1, 1, 0)` the negative extraction leaves 10101 of the 10201 plane
points. -/
theorem ieee_length_plane_part :
    (planeCloud.filter fun p => !nearRing unitRing p).length = 10101 := by
  rw [← List.countP_eq_length_filter]
  have h : planeCloud.countP (fun p => !nearRing unitRing p)
      = planeCloud.countP
          (fun p => !(decide (p.x ∈ unitFloats) && decide (p.y ∈ unitFloats))) := by
    apply List.countP_congr
    intro p hp
    obtain ⟨a, ha, b, hb, rfl⟩ := (ieee_mem_planeCloud p).mp hp
    rw [ieee_nearRing_unitRing a b ha hb]
  rw [h]
  unfold planeCloud
  rw [ieee_countP_pairs (fun v => decide (v ∈ unitFloats))]
  exact ieee_count_plane_flags

theorem ieee_length_planeCloud : planeCloud.length = 10201 := by
  unfold planeCloud
  decide!

theorem ieee_kept_unit_length (cos sin : ℚ → ℚ) (yaw : ℚ) :
    (passThrough (((visited zeroSteps unitSteps unitSteps).filter (onSurface 1 1)).map
        fun t => boxPoint cos sin 1 1 yaw t.1 t.2.1 t.2.2)
      (toFloat (toDouble 0.1)) (toFloat (toDouble 1.0)) false).length = 424 := by
  rw [ieee_passThrough_box, List.length_map]
  have h := ieee_length_split 1 1 false zeroSteps unitSteps unitSteps
  simp only [Bool.false_eq_true, if_false] at h ⊢
  rw [h, ieee_flags_zero_kept, ieee_flags_unit]
  decide!

theorem ieee_kept_above (cloud : PointCloud ℚ) :
    ∀ p ∈ passThrough cloud (toFloat (toDouble 0.1)) (toFloat (toDouble 1.0)) false,
      0 < p.z := by
  intro p hp
  unfold passThrough at hp
  simp only [Bool.false_eq_true, if_false, List.mem_filter, Bool.and_eq_true,
    decide_eq_true_eq] at hp
  have h0 : (0 : ℚ) < toFloat (toDouble 0.1) := by decide!
  exact lt_of_lt_of_le h0 hp.2.1

theorem ieee_drawn_unit_pose (seed : Engine ℚ) (hpose : drawPose seed = (1, 1, 0)) :
    (xy_rnd seed).1 = 1 ∧ (xy_rnd (xy_rnd seed).2).1 = 1
      ∧ (yaw_rnd (xy_rnd (xy_rnd seed).2).2).1 = 0 := by
  unfold drawPose at hpose
  simp only [Prod.mk.injEq] at hpose
  exact hpose

/-- The first slow tick on doubles when the pose drawn is `(1, 1, 0)`: the state after the
constructor and the state after `box_Callback`, with `merged` in closed form. -/
theorem ieee_first_tick_unit_pose (cos sin : ℚ → ℚ) (hc : cos 0 = 1) (hs : sin 0 = 0)
    (seed : Engine ℚ) (hpose : drawPose seed = (1, 1, 0)) (m : ℕ) :
    ∃ st1 : Generate ℚ,
      Generate.new (102 + m) seed = some ⟨planeCloud, [], [], seed⟩
        ∧ box_Callback (102 + m) cos sin ⟨planeCloud, [], [], seed⟩ = some st1
        ∧ st1.msg_plane = planeCloud
        ∧ st1.merged
            = passThrough (((visited zeroSteps unitSteps unitSteps).filter (onSurface 1 1)).map
                fun t => boxPoint cos sin 1 1 0 t.1 t.2.1 t.2.2)
                (toFloat (toDouble 0.1)) (toFloat (toDouble 1.0)) false
              ++ planeCloud.filter fun p => !nearRing unitRing p := by
  obtain ⟨hx, hy, hyaw⟩ := ieee_drawn_unit_pose seed hpose
  have hk := ieee_stepValues_mono (90 + m) 12 _ _ _ ieee_zeroSteps
  have h1 := ieee_stepValues_mono (90 + m) 12 _ _ _ ieee_unitSteps
  have e : 12 + (90 + m) = 102 + m := by omega
  rw [e] at hk h1
  have hb : box_Callback (102 + m) cos sin ⟨planeCloud, [], [], seed⟩
      = some { merging_both ⟨planeCloud,
            ((visited zeroSteps unitSteps unitSteps).filter (onSurface 1 1)).map
              (fun t => boxPoint cos sin 1 1 0 t.1 t.2.1 t.2.2), [],
            (yaw_rnd (xy_rnd (xy_rnd seed).2).2).2⟩ with msg_box := [] } := by
    unfold box_Callback
    simp only [hx, hy, hyaw]
    rw [ieee_generate_box_closed (102 + m) cos sin 1 1 0 _ _ _ _ hk h1 h1]
    simp only [List.nil_append, Option.map_some']
  refine ⟨_, ieee_new_closed seed m, hb, rfl, ?_⟩
  show (merging_both _).merged = _
  rw [ieee_merging_both_merged]
  simp only [ieee_unit_ring cos sin hc hs]

/-! ## IEEE model: the footprint at the pose `(1, 1, 0)` -/

theorem ieee_corner_mem_planeCloud : (⟨2, 2, 0⟩ : PointXYZ ℚ) ∈ planeCloud :=
  (ieee_mem_planeCloud _).mpr ⟨2, by decide!, 2, by decide!, rfl⟩

theorem ieee_edge_mem_planeCloud : (⟨2, 3 / 2, 0⟩ : PointXYZ ℚ) ∈ planeCloud :=
  (ieee_mem_planeCloud _).mpr ⟨2, by decide!, 3 / 2, by decide!, rfl⟩

theorem ieee_mem_plane_part (p : PointXYZ ℚ) (hp : p ∈ planeCloud)
    (hfar : nearRing unitRing p = false) :
    p ∈ planeCloud.filter fun p => !nearRing unitRing p := by
  rw [List.mem_filter]
  exact ⟨hp, by rw [hfar]; rfl⟩

theorem ieee_plane_part_sub (p : PointXYZ ℚ)
    (hp : p ∈ planeCloud.filter fun p => !nearRing unitRing p) :
    p ∈ planeCloud ∧ p.z = 0 := by
  have h := (List.mem_filter.mp hp).1
  refine ⟨h, ?_⟩
  obtain ⟨a, _, b, _, rfl⟩ := (ieee_mem_planeCloud p).mp h
  rfl

theorem ieee_corner_far : nearRing unitRing ⟨2, 2, 0⟩ = false := by
  rw [ieee_nearRing_unitRing 2 2 (by decide!) (by decide!)]
  decide!

theorem ieee_edge_far : nearRing unitRing ⟨2, 3 / 2, 0⟩ = false := by
  rw [ieee_nearRing_unitRing 2 (3 / 2) (by decide!) (by decide!)]
  decide!

theorem ieee_unit_pose_seed :
    drawPose ⟨fun n => if n < 2 then 3 / 4 else 0, 0⟩ = (1, 1, 0) := by
  decide!

/-- C1 (evaluation of the code on doubles at the pose `(1, 1, 0)` of the end-to-end
scenario):
when the first slow tick draws the pose `(1, 1, 0)`, `merged` is the 424 box points above
the bottom layer followed by 10101 of the 10201 plane points, not 481 followed by 10080:
the merge removes 100 plane points, not the 121 of `[1, 2] x [1, 2]`, and the plane
point `(2, 2, 0)` of that square is still in `merged`. -/
theorem ieee_first_tick_unit_pose_counts (cos sin : ℚ → ℚ) (hc : cos 0 = 1)
    (hs : sin 0 = 0) (seed : Engine ℚ) (hpose : drawPose seed = (1, 1, 0)) (m : ℕ) :
    ∃ (st0 st1 : Generate ℚ) (kept planePart : PointCloud ℚ),
      Generate.new (102 + m) seed = some st0
        ∧ box_Callback (102 + m) cos sin st0 = some st1
        ∧ st0.msg_plane.length = 10201
        ∧ st1.merged = kept ++ planePart
        ∧ kept.length = 424
        ∧ (∀ p ∈ kept, 0 < p.z)
        ∧ planePart.length = 10101
        ∧ (∀ p ∈ planePart, p ∈ st0.msg_plane ∧ p.z = 0)
        ∧ (⟨2, 2, 0⟩ : PointXYZ ℚ) ∈ st0.msg_plane
        ∧ inFootprint 1 1 (⟨2, 2, 0⟩ : PointXYZ ℚ) = true
        ∧ (⟨2, 2, 0⟩ : PointXYZ ℚ) ∈ planePart := by
  obtain ⟨st1, h0, h1, _, hm⟩ := ieee_first_tick_unit_pose cos sin hc hs seed hpose m
  exact ⟨_, st1, _, _, h0, h1, ieee_length_planeCloud, hm, ieee_kept_unit_length cos sin 0,
    ieee_kept_above _, ieee_length_plane_part, ieee_plane_part_sub,
    ieee_corner_mem_planeCloud, by decide!,
    ieee_mem_plane_part _ ieee_corner_mem_planeCloud ieee_corner_far⟩

theorem ieee_first_tick_unit_pose_counts_witness :
    ∃ (st0 st1 : Generate ℚ) (kept planePart : PointCloud ℚ),
      Generate.new (102 + 0) ⟨fun n => if n < 2 then 3 / 4 else 0, 0⟩ = some st0
        ∧ box_Callback (102 + 0) (fun _ => 1) (fun _ => 0) st0 = some st1
        ∧ st0.msg_plane.length = 10201
        ∧ st1.merged = kept ++ planePart
        ∧ kept.length = 424
        ∧ (∀ p ∈ kept, 0 < p.z)
        ∧ planePart.length = 10101
        ∧ (∀ p ∈ planePart, p ∈ st0.msg_plane ∧ p.z = 0)
        ∧ (⟨2, 2, 0⟩ : PointXYZ ℚ) ∈ st0.msg_plane
        ∧ inFootprint 1 1 (⟨2, 2, 0⟩ : PointXYZ ℚ) = true
        ∧ (⟨2, 2, 0⟩ : PointXYZ ℚ) ∈ planePart :=
  ieee_first_tick_unit_pose_counts (fun _ => 1) (fun _ => 0) rfl rfl
    ⟨fun n => if n < 2 then 3 / 4 else 0, 0⟩ ieee_unit_pose_seed 0

theorem ieee_edge_exact_far :
    ∀ r ∈ unitRing, (0.09 : ℚ) ^ 2 < BoxDetector.sqrDist (⟨2, 3 / 2, 0⟩ : PointXYZ ℚ) r := by
  intro r hr
  obtain ⟨u, hu, v, hv, rfl⟩ := (ieee_mem_unitRing r).mp hr
  obtain ⟨_, h2⟩ := ieee_unitFloats_bounds u hu
  simp only [BoxDetector.sqrDist]
  have h3 : (999 / 10000 : ℚ) ^ 2 ≤ (2 - u) ^ 2 :=
    pow_le_pow_left₀ (by norm_num) (by linarith) 2
  have h4 : (0 : ℚ) ≤ (3 / 2 - v) ^ 2 := sq_nonneg _
  norm_num at h3 ⊢
  linarith

/-- C16 (evaluation of the code on doubles at the pose `(1, 1, 0)`): the plane point
`p = (2, 1.5, 0)` is the image `(x + u cos yaw - v sin yaw, y + u sin yaw + v cos yaw)`
of `u = 1`, `v = 0.5`, so it lies on the rotated footprint square; every point of the
footprint ring is farther than `0.09` from it, the radius query does not reach it, and
`p` is in the plane part of `merged` and in `merged`. -/
theorem ieee_footprint_edge_not_covered (cos sin : ℚ → ℚ) (hc : cos 0 = 1)
    (hs : sin 0 = 0) (seed : Engine ℚ) (m : ℕ) :
    ∃ st0 stb : Generate ℚ,
      Generate.new (102 + m) seed = some st0
        ∧ generate_box (102 + m) cos sin 1 1 0 st0 = some stb
        ∧ (⟨2, 3 / 2, 0⟩ : PointXYZ ℚ) ∈ stb.msg_plane
        ∧ (2 : ℚ) = 1 + 1 * cos 0 - 1 / 2 * sin 0
        ∧ (3 / 2 : ℚ) = 1 + 1 * sin 0 + 1 / 2 * cos 0
        ∧ (∀ r ∈ layer1 stb.msg_box,
            (0.09 : ℚ) ^ 2 < BoxDetector.sqrDist (⟨2, 3 / 2, 0⟩ : PointXYZ ℚ) r)
        ∧ nearRing (layer1 stb.msg_box) ⟨2, 3 / 2, 0⟩ = false
        ∧ (⟨2, 3 / 2, 0⟩ : PointXYZ ℚ) ∈ extractNegative stb.msg_plane
            (inliers stb.msg_plane (layer1 stb.msg_box))
        ∧ (⟨2, 3 / 2, 0⟩ : PointXYZ ℚ) ∈ (merging_both stb).merged := by
  have hk := ieee_stepValues_mono (90 + m) 12 _ _ _ ieee_zeroSteps
  have h1 := ieee_stepValues_mono (90 + m) 12 _ _ _ ieee_unitSteps
  have e : 12 + (90 + m) = 102 + m := by omega
  rw [e] at hk h1
  have hb := ieee_generate_box_closed (102 + m) cos sin 1 1 0 ⟨planeCloud, [], [], seed⟩
    _ _ _ hk h1 h1
  simp only [List.nil_append] at hb
  have hring := ieee_unit_ring cos sin hc hs
  refine ⟨_, _, ieee_new_closed seed m, hb, ieee_edge_mem_planeCloud, ?_, ?_, ?_, ?_, ?_, ?_⟩
  · rw [hc, hs]
    norm_num
  · rw [hc, hs]
    norm_num
  · rw [hring]
    exact ieee_edge_exact_far
  · rw [hring]
    exact ieee_edge_far
  · rw [ieee_extractNegative_inliers, hring]
    exact ieee_mem_plane_part _ ieee_edge_mem_planeCloud ieee_edge_far
  · rw [ieee_merging_both_merged]
    simp only [hring]
    exact List.mem_append_right _
      (ieee_mem_plane_part _ ieee_edge_mem_planeCloud ieee_edge_far)

theorem ieee_footprint_edge_not_covered_witness :
    ∃ st0 stb : Generate ℚ,
      Generate.new (102 + 0) ⟨fun _ => 1 / 2, 0⟩ = some st0
        ∧ generate_box (102 + 0) (fun _ => 1) (fun _ => 0) 1 1 0 st0 = some stb
        ∧ (⟨2, 3 / 2, 0⟩ : PointXYZ ℚ) ∈ stb.msg_plane
        ∧ (2 : ℚ) = 1 + 1 * (fun _ : ℚ => (1 : ℚ)) 0 - 1 / 2 * (fun _ : ℚ => (0 : ℚ)) 0
        ∧ (3 / 2 : ℚ) = 1 + 1 * (fun _ : ℚ => (0 : ℚ)) 0 + 1 / 2 * (fun _ : ℚ => (1 : ℚ)) 0
        ∧ (∀ r ∈ layer1 stb.msg_box,
            (0.09 : ℚ) ^ 2 < BoxDetector.sqrDist (⟨2, 3 / 2, 0⟩ : PointXYZ ℚ) r)
        ∧ nearRing (layer1 stb.msg_box) ⟨2, 3 / 2, 0⟩ = false
        ∧ (⟨2, 3 / 2, 0⟩ : PointXYZ ℚ) ∈ extractNegative stb.msg_plane
            (inliers stb.msg_plane (layer1 stb.msg_box))
        ∧ (⟨2, 3 / 2, 0⟩ : PointXYZ ℚ) ∈ (merging_both stb).merged :=
  ieee_footprint_edge_not_covered (fun _ => 1) (fun _ => 0) rfl rfl ⟨fun _ => 1 / 2, 0⟩ 0

/-! ## IEEE model: noise -/

theorem ieee_foldl_noiseStep (l : PointCloud ℚ) :
    ∀ acc : PointCloud ℚ × Engine ℚ,
      l.foldl noiseStep acc
        = (acc.1 ++ noised acc.2 l, ⟨acc.2.variates, acc.2.pos + 3 * l.length⟩) := by
  induction l with
  | nil => intro acc; simp [noised]
  | cons p l ih =>
    intro acc
    rw [List.foldl_cons, ih]
    simp only [noiseStep, noised, noise_rnd, uniform_real_distribution, List.append_assoc,
      List.singleton_append, List.length_cons]
    congr 2
    omega

theorem ieee_make_noise_fst (st : Generate ℚ) :
    (make_noise st).1 = noised st.generator st.merged := by
  unfold make_noise
  simp only [ieee_foldl_noiseStep, List.nil_append]

theorem ieee_length_noised (l : PointCloud ℚ) :
    ∀ g : Engine ℚ, (noised g l).length = l.length := by
  induction l with
  | nil => intro g; rfl
  | cons p l ih => intro g; simp [noised, ih]

theorem ieee_noised_getElem_opt (l : PointCloud ℚ) :
    ∀ (g : Engine ℚ) (i : ℕ) (p : PointXYZ ℚ), l[i]? = some p →
      (noised g l)[i]? = some
        ⟨toFloat (fadd p.x (noise_rnd ⟨g.variates, g.pos + 3 * i⟩).1),
          toFloat (fadd p.y (noise_rnd ⟨g.variates, g.pos + 3 * i + 1⟩).1),
          toFloat (fadd p.z (noise_rnd ⟨g.variates, g.pos + 3 * i + 2⟩).1)⟩ := by
  induction l with
  | nil => intro g i p h; simp at h
  | cons a l ih =>
    intro g i p h
    cases i with
    | zero =>
      simp only [List.getElem?_cons_zero, Option.some.injEq] at h
      subst h
      simp [noised]
    | succ i =>
      simp only [List.getElem?_cons_succ] at h
      have := ih ⟨g.variates, g.pos + 3⟩ i p h
      simp only [noised, List.getElem?_cons_succ, this]
      have e1 : g.pos + 3 + 3 * i = g.pos + 3 * (i + 1) := by ring
      simp only [e1]

theorem ieee_store_err (p d : ℚ) (hd : |d| ≤ 0.0002) :
    |toFloat (fadd p d) - p| ≤ 0.0002 + (|p| + 0.0002) / 2 ^ 23 + 1 / 2 ^ 149 := by
  have h1 := ieee_toDouble_err (p + d)
  have h2 := ieee_toFloat_err (toDouble (p + d))
  have hs : |p + d| ≤ |p| + 0.0002 := (abs_add p d).trans (by linarith)
  have hs' : |toDouble (p + d)| ≤ |p + d| + |toDouble (p + d) - (p + d)| := by
    have := abs_add (p + d) (toDouble (p + d) - (p + d))
    simpa using this
  have htri : |toFloat (fadd p d) - p|
      ≤ |toFloat (toDouble (p + d)) - toDouble (p + d)| + |toDouble (p + d) - (p + d)| + |d| := by
    have e : toFloat (fadd p d) - p
        = (toFloat (toDouble (p + d)) - toDouble (p + d)) + (toDouble (p + d) - (p + d)) + d := by
      unfold fadd
      ring
    rw [e]
    exact (abs_add _ _).trans (add_le_add_right (abs_add _ _) _)
  have hp : 0 ≤ |p| := abs_nonneg p
  have c1 : (1 : ℚ) / 2 ^ 1075 ≤ 1 / 2 ^ 151 :=
    one_div_le_one_div_of_le (by positivity) (pow_le_pow_right₀ (by norm_num) (by norm_num))
  have c2 : |p + d| / 2 ^ 53 ≤ (|p| + 0.0002) / 2 ^ 53 :=
    div_le_div_of_nonneg_right hs (by positivity)
  have c3 : |toDouble (p + d)| / 2 ^ 24
      ≤ ((|p| + 0.0002) + ((|p| + 0.0002) / 2 ^ 53 + 1 / 2 ^ 151)) / 2 ^ 24 :=
    div_le_div_of_nonneg_right (by linarith) (by positivity)
  have c4 : (|p| + 0.0002) / 2 ^ 53 ≤ (|p| + 0.0002) / 2 ^ 25 :=
    div_le_div_of_nonneg_left (by linarith) (by positivity)
      (pow_le_pow_right₀ (by norm_num) (by norm_num))
  have c5 : ((|p| + 0.0002) + ((|p| + 0.0002) / 2 ^ 53 + 1 / 2 ^ 151)) / 2 ^ 24
      = (|p| + 0.0002) / 2 ^ 24 + (|p| + 0.0002) / 2 ^ 53 / 2 ^ 24 + 1 / 2 ^ 151 / 2 ^ 24 := by
    ring
  have c6 : (|p| + 0.0002) / 2 ^ 53 / 2 ^ 24 ≤ (|p| + 0.0002) / 2 ^ 25 := by
    rw [div_div]
    exact div_le_div_of_nonneg_left (by linarith) (by positivity) (by norm_num)
  have c7 : (1 : ℚ) / 2 ^ 151 / 2 ^ 24 ≤ 1 / 2 ^ 151 := by
    rw [div_div]
    exact div_le_div_of_nonneg_left (by norm_num) (by positivity) (by norm_num)
  have c8 : (|p| + 0.0002) / 2 ^ 24 + (|p| + 0.0002) / 2 ^ 25 + (|p| + 0.0002) / 2 ^ 25
      = (|p| + 0.0002) / 2 ^ 23 := by
    ring
  have c9 : (1 : ℚ) / 2 ^ 151 + 1 / 2 ^ 151 + 1 / 2 ^ 150 = 1 / 2 ^ 149 := by norm_num
  linarith

/-- C7, counterexample: one input point with `x = -3.5` and the variate `8191/8192`.  The
draw is about `0.00019995`, inside `[-0.0002, 0.0002]`, and the `x` stored by `make_noise`
is `-3.5 + 839 / 2 ^ 22`, displaced by about `0.00020003`, more than `0.0002`. -/
theorem ieee_make_noise_exceeds :
    |(noise_rnd ⟨fun _ => 8191 / 8192, 0⟩).1| ≤ 0.0002
      ∧ ((make_noise ⟨[], [], [⟨-7 / 2, 0, 0⟩], ⟨fun _ => 8191 / 8192, 0⟩⟩).1.map
          fun q => q.x) = [-7 / 2 + 839 / 2 ^ 22]
      ∧ (0.0002 : ℚ) < |(-7 / 2 + 839 / 2 ^ 22) - (-7 / 2)| := by
  decide!

/-- C7, amended: for every merged cloud and every engine whose draws of `noise_rnd` lie in
`[-0.0002, 0.0002]`, `make_noise` returns a cloud of the same length in which the `i`-th
point is the `i`-th input point with the draws number `3i`, `3i + 1`, `3i + 2` added to
`x`, `y`, `z` in `double` and the sums stored as `float`; each coordinate differs from
the input coordinate `c` by at most `0.0002 + (|c| + 0.0002) / 2 ^ 23 + 1 / 2 ^ 149`. -/
theorem ieee_make_noise_bounded (st : Generate ℚ)
    (hg : ∀ n, |(noise_rnd ⟨st.generator.variates, n⟩).1| ≤ 0.0002) :
    (make_noise st).1.length = st.merged.length
      ∧ ∀ (i : ℕ) (p : PointXYZ ℚ), st.merged[i]? = some p →
          ∃ q, (make_noise st).1[i]? = some q
            ∧ q.x = toFloat (fadd p.x
                (noise_rnd ⟨st.generator.variates, st.generator.pos + 3 * i⟩).1)
            ∧ q.y = toFloat (fadd p.y
                (noise_rnd ⟨st.generator.variates, st.generator.pos + 3 * i + 1⟩).1)
            ∧ q.z = toFloat (fadd p.z
                (noise_rnd ⟨st.generator.variates, st.generator.pos + 3 * i + 2⟩).1)
            ∧ |q.x - p.x| ≤ 0.0002 + (|p.x| + 0.0002) / 2 ^ 23 + 1 / 2 ^ 149
            ∧ |q.y - p.y| ≤ 0.0002 + (|p.y| + 0.0002) / 2 ^ 23 + 1 / 2 ^ 149
            ∧ |q.z - p.z| ≤ 0.0002 + (|p.z| + 0.0002) / 2 ^ 23 + 1 / 2 ^ 149 := by
  rw [ieee_make_noise_fst]
  refine ⟨ieee_length_noised _ _, ?_⟩
  intro i p hp
  exact ⟨_, ieee_noised_getElem_opt _ _ i p hp, rfl, rfl, rfl,
    ieee_store_err _ _ (hg _), ieee_store_err _ _ (hg _), ieee_store_err _ _ (hg _)⟩

theorem ieee_noise_draw_quarter : |(noise_rnd ⟨fun _ => 1 / 4, 0⟩).1| ≤ 0.0002 := by
  decide!

theorem ieee_make_noise_bounded_witness :
    (∀ n : ℕ, |(noise_rnd ⟨fun _ => 1 / 4, n⟩).1| ≤ 0.0002)
      ∧ (make_noise (⟨[], [], [⟨0, 0, 0⟩, ⟨1, 2, 3⟩], ⟨fun _ => 1 / 4, 0⟩⟩ : Generate ℚ)).1.length
          = 2 :=
  ⟨fun _ => ieee_noise_draw_quarter,
    (ieee_make_noise_bounded (⟨[], [], [⟨0, 0, 0⟩, ⟨1, 2, 3⟩], ⟨fun _ => 1 / 4, 0⟩⟩ : Generate ℚ)
      (fun _ => ieee_noise_draw_quarter)).1⟩

end IEEE

end BoxDetector
